import Mathlib

/-!
Verification of the `binarize` serialization library.

This file shallowly embeds the primitive codec catalog (`binarize/primitives.py`),
the structure metaclass field computation (`binarize/structure.py`), the primitive
equality and derivation logic, and the self-describing dynamic codec
(`binarize/dynamic.py`) into Lean, and proves (or refutes) the specification's
claims about them.

Byte strings are modelled as `List Nat` with every entry `< 256`; Python's
`int.to_bytes(k, 'big')` / `int.from_bytes(_, 'big')` become `toBytesBE` /
`fromBytesBE`.  Fallible Python code (`raise`) is modelled with `Option`.
-/

namespace Binarize

/-- Python `int.to_bytes(k, 'big')`: the `k` big-endian bytes of `I`
(the low `8 * k` bits; Python additionally raises `OverflowError` when
`I ≥ 256 ^ k`, which callers in this development rule out by bounds). -/
def toBytesBE : Nat → Nat → List Nat
  | 0, _ => []
  | k + 1, I => toBytesBE k (I / 256) ++ [I % 256]

/-- Python `int.from_bytes(bs, 'big')`. -/
def fromBytesBE (bs : List Nat) : Nat :=
  bs.foldl (fun acc b => acc * 256 + b) 0

theorem toBytesBE_length (k I : Nat) : (toBytesBE k I).length = k := by
  induction k generalizing I with
  | zero => rfl
  | succ k ih => simp [toBytesBE, ih]

theorem fromBytesBE_foldl (bs : List Nat) (a : Nat) :
    bs.foldl (fun acc b => acc * 256 + b) a = a * 256 ^ bs.length + fromBytesBE bs := by
  induction bs generalizing a with
  | nil => simp [fromBytesBE]
  | cons b bs ih =>
    simp only [List.foldl_cons, List.length_cons, fromBytesBE]
    rw [ih (a * 256 + b)]
    rw [show (0 : Nat) * 256 + b = b by ring, ih b]
    ring

theorem fromBytesBE_append (xs ys : List Nat) :
    fromBytesBE (xs ++ ys) = fromBytesBE xs * 256 ^ ys.length + fromBytesBE ys := by
  simp only [fromBytesBE, List.foldl_append]
  rw [fromBytesBE_foldl ys (List.foldl (fun acc b => acc * 256 + b) 0 xs)]
  rfl

theorem fromBytesBE_toBytesBE (k I : Nat) :
    fromBytesBE (toBytesBE k I) = I % 256 ^ k := by
  induction k generalizing I with
  | zero => simp [toBytesBE, fromBytesBE, Nat.mod_one]
  | succ k ih =>
    rw [show toBytesBE (k + 1) I = toBytesBE k (I / 256) ++ [I % 256] from rfl,
      fromBytesBE_append, ih]
    have h1 : fromBytesBE [I % 256] = I % 256 := by simp [fromBytesBE]
    have h2 : ([I % 256] : List Nat).length = 1 := rfl
    rw [h1, h2, pow_one]
    have hmul : (256 : Nat) ^ (k + 1) = 256 * 256 ^ k := by ring
    rw [hmul, Nat.mod_mul]
    ring

theorem fromBytesBE_toBytesBE_of_lt {k I : Nat} (h : I < 256 ^ k) :
    fromBytesBE (toBytesBE k I) = I := by
  rw [fromBytesBE_toBytesBE, Nat.mod_eq_of_lt h]

theorem toBytesBE_mem_lt (k I : Nat) : ∀ b ∈ toBytesBE k I, b < 256 := by
  induction k generalizing I with
  | zero => simp [toBytesBE]
  | succ k ih =>
    intro b hb
    simp only [toBytesBE, List.mem_append, List.mem_singleton] at hb
    rcases hb with hb | hb
    · exact ih _ b hb
    · omega

/-- Bit-or of a high aligned part and a low part is addition. -/
theorem lor_eq_add (i a b : Nat) (hb : b < 2 ^ i) : (2 ^ i * a) ||| b = 2 ^ i * a + b :=
  (Nat.mul_add_lt_is_or hb a).symm

/-- `x &&& m` for a mask `m = 2 ^ n - 1` is `x % 2 ^ n`. -/
theorem and_mask_eq_mod (x n : Nat) : x &&& (2 ^ n - 1) = x % 2 ^ n :=
  Nat.and_pow_two_sub_one_eq_mod x n

theorem shiftRight_eq_div (x n : Nat) : x >>> n = x / 2 ^ n :=
  Nat.shiftRight_eq_div_pow x n

/-! ## The tiered SIZE codec (`pack_size` / `unpack_size`) -/

/-- `_unpack_size_8` from `primitives.py`: the 2-byte frame. -/
def unpack_size_8 (data : List Nat) (pointer : Nat) : Nat × Nat :=
  (pointer + 2, (fromBytesBE ((data.drop pointer).take 2) &&& 8191) + 128)

/-- `_unpack_size_16` from `primitives.py`: the 3-byte frame. -/
def unpack_size_16 (data : List Nat) (pointer : Nat) : Nat × Nat :=
  (pointer + 3, (fromBytesBE ((data.drop pointer).take 3) &&& 2097151) + 8320)

/-- `_unpack_size_32` from `primitives.py`: the 5-byte frame. -/
def unpack_size_32 (data : List Nat) (pointer : Nat) : Nat × Nat :=
  (pointer + 5, (fromBytesBE ((data.drop pointer).take 5) &&& 137438953471) + 2105472)

/-- `_unpack_size_64` from `primitives.py`: the 9-byte frame. -/
def unpack_size_64 (data : List Nat) (pointer : Nat) : Nat × Nat :=
  (pointer + 9, (fromBytesBE ((data.drop pointer).take 9) &&& 590295810358705651711) + 137441058944)

/-- `unpack_size` from `primitives.py`.  Python indexes `data[pointer]`
(`IndexError` out of range, modelled by `none`); a leading byte with the top
bit clear is the value itself, otherwise bits 5-6 select one of the four
framed decoders from the `_SIZES` table. -/
def unpack_size (data : List Nat) (pointer : Nat) : Option (Nat × Nat) :=
  match data.get? pointer with
  | none => none
  | some b =>
    if b >>> 7 ≠ 0 then
      if (b >>> 5) &&& 3 = 0 then some (unpack_size_8 data pointer)
      else if (b >>> 5) &&& 3 = 1 then some (unpack_size_16 data pointer)
      else if (b >>> 5) &&& 3 = 2 then some (unpack_size_32 data pointer)
      else some (unpack_size_64 data pointer)
    else some (pointer + 1, b)

/-- `pack_size` from `primitives.py`; `none` models the final `raise ValueError()`. -/
def pack_size (size : Nat) : Option (List Nat) :=
  if size < 128 then some [size]
  else if size < 8320 then some (toBytesBE 2 (32768 ||| (size - 128)))
  else if size < 2105472 then some (toBytesBE 3 (10485760 ||| (size - 8320)))
  else if size < 137441058944 then some (toBytesBE 5 (824633720832 ||| (size - 2105472)))
  else if size < 590295810496146710656 then
    some (toBytesBE 9 (4132070672510939561984 ||| (size - 137441058944)))
  else none

/-- The five SIZE frames `(lower bound, upper bound, width in bytes)` of the
spec's tier table. -/
def sizeFrames : List (Nat × Nat × Nat) :=
  [(0, 128, 1), (128, 8320, 2), (8320, 2105472, 3),
   (2105472, 137441058944, 5), (137441058944, 590295810496146710656, 9)]

theorem toBytesBE_get_zero (k V : Nat) :
    (toBytesBE (k + 1) V).get? 0 = some (V / 256 ^ k % 256) := by
  induction k generalizing V with
  | zero => simp [toBytesBE]
  | succ k ih =>
    rw [show toBytesBE (k + 1 + 1) V = toBytesBE (k + 1) (V / 256) ++ [V % 256] from rfl]
    rw [List.get?_append (by rw [toBytesBE_length]; omega), ih]
    rw [Nat.div_div_eq_div_mul]
    rw [show 256 * 256 ^ k = 256 ^ (k + 1) from by ring]

theorem shr7_eq (x : Nat) : x >>> 7 = x / 128 := by
  rw [shiftRight_eq_div]; norm_num

theorem shr5_and3_eq (x : Nat) : (x >>> 5) &&& 3 = x / 32 % 4 := by
  rw [shiftRight_eq_div, show (3 : Nat) = 2 ^ 2 - 1 from by norm_num, and_mask_eq_mod]
  norm_num

theorem take_toBytesBE_append (k V : Nat) (rest : List Nat) :
    ((toBytesBE k V ++ rest).take k) = toBytesBE k V :=
  List.take_left' (toBytesBE_length k V)

/-- Core round-trip of the tiered SIZE codec, with an arbitrary byte suffix:
the encoding of any in-range `n` decodes to `n` again, consuming exactly its
own bytes. -/
theorem unpack_size_pack (n : Nat) (h : n < 590295810496146710656) (rest : List Nat) :
    ∃ enc, pack_size n = some enc ∧ enc.length = (if n < 128 then 1
        else if n < 8320 then 2 else if n < 2105472 then 3
        else if n < 137441058944 then 5 else 9) ∧
      unpack_size (enc ++ rest) 0 = some (enc.length, n) := by
  by_cases h1 : n < 128
  · refine ⟨[n], by simp [pack_size, h1], by simp [h1], ?_⟩
    show unpack_size (n :: rest) 0 = some (1, n)
    simp only [unpack_size, List.get?_cons_zero, shr7_eq]
    rw [if_neg (by omega)]
  by_cases h2 : n < 8320
  · have hl : 32768 ||| (n - 128) = 32768 + (n - 128) := by
      simpa using lor_eq_add 15 1 (n - 128) (by omega)
    refine ⟨toBytesBE 2 (32768 + (n - 128)), ?_, by simp [toBytesBE_length, h1, h2], ?_⟩
    · simp only [pack_size, hl]
      rw [if_neg (by omega), if_pos (by omega)]
    · have hb : ((toBytesBE 2 (32768 + (n - 128)) ++ rest).get? 0)
          = some ((32768 + (n - 128)) / 256 % 256) := by
        rw [List.get?_append (by rw [toBytesBE_length]; omega)]
        simpa using toBytesBE_get_zero 1 (32768 + (n - 128))
      simp only [unpack_size, hb, shr7_eq, shr5_and3_eq]
      rw [if_pos (by omega), if_pos (by omega)]
      simp only [unpack_size_8, List.drop_zero, take_toBytesBE_append, toBytesBE_length]
      rw [fromBytesBE_toBytesBE_of_lt (by norm_num; omega)]
      rw [show (8191 : Nat) = 2 ^ 13 - 1 from by norm_num, and_mask_eq_mod]
      norm_num
      omega
  by_cases h3 : n < 2105472
  · have hl : 10485760 ||| (n - 8320) = 10485760 + (n - 8320) := by
      simpa using lor_eq_add 21 5 (n - 8320) (by omega)
    refine ⟨toBytesBE 3 (10485760 + (n - 8320)), ?_,
      by simp [toBytesBE_length, h1, h2, h3], ?_⟩
    · simp only [pack_size, hl]
      rw [if_neg (by omega), if_neg (by omega), if_pos (by omega)]
    · have hb : ((toBytesBE 3 (10485760 + (n - 8320)) ++ rest).get? 0)
          = some ((10485760 + (n - 8320)) / 65536 % 256) := by
        rw [List.get?_append (by rw [toBytesBE_length]; omega)]
        have := toBytesBE_get_zero 2 (10485760 + (n - 8320))
        norm_num at this ⊢
        exact this
      simp only [unpack_size, hb, shr7_eq, shr5_and3_eq]
      rw [if_pos (by omega), if_neg (by omega), if_pos (by omega)]
      simp only [unpack_size_16, List.drop_zero, take_toBytesBE_append, toBytesBE_length]
      rw [fromBytesBE_toBytesBE_of_lt (by norm_num; omega)]
      rw [show (2097151 : Nat) = 2 ^ 21 - 1 from by norm_num, and_mask_eq_mod]
      norm_num
      omega
  by_cases h4 : n < 137441058944
  · have hl : 824633720832 ||| (n - 2105472) = 824633720832 + (n - 2105472) := by
      simpa using lor_eq_add 37 6 (n - 2105472) (by omega)
    refine ⟨toBytesBE 5 (824633720832 + (n - 2105472)), ?_,
      by simp [toBytesBE_length, h1, h2, h3, h4], ?_⟩
    · simp only [pack_size, hl]
      rw [if_neg (by omega), if_neg (by omega), if_neg (by omega), if_pos (by omega)]
    · have hb : ((toBytesBE 5 (824633720832 + (n - 2105472)) ++ rest).get? 0)
          = some ((824633720832 + (n - 2105472)) / 4294967296 % 256) := by
        rw [List.get?_append (by rw [toBytesBE_length]; omega)]
        have := toBytesBE_get_zero 4 (824633720832 + (n - 2105472))
        norm_num at this ⊢
        exact this
      simp only [unpack_size, hb, shr7_eq, shr5_and3_eq]
      rw [if_pos (by omega), if_neg (by omega), if_neg (by omega), if_pos (by omega)]
      simp only [unpack_size_32, List.drop_zero, take_toBytesBE_append, toBytesBE_length]
      rw [fromBytesBE_toBytesBE_of_lt (by norm_num; omega)]
      rw [show (137438953471 : Nat) = 2 ^ 37 - 1 from by norm_num, and_mask_eq_mod]
      norm_num
      omega
  · have hl : 4132070672510939561984 ||| (n - 137441058944)
        = 4132070672510939561984 + (n - 137441058944) := by
      simpa using lor_eq_add 69 7 (n - 137441058944) (by omega)
    refine ⟨toBytesBE 9 (4132070672510939561984 + (n - 137441058944)), ?_,
      by simp [toBytesBE_length, h1, h2, h3, h4], ?_⟩
    · simp only [pack_size, hl]
      rw [if_neg (by omega), if_neg (by omega), if_neg (by omega), if_neg (by omega),
        if_pos (by omega)]
    · have hb : ((toBytesBE 9 (4132070672510939561984 + (n - 137441058944)) ++ rest).get? 0)
          = some ((4132070672510939561984 + (n - 137441058944))
            / 18446744073709551616 % 256) := by
        rw [List.get?_append (by rw [toBytesBE_length]; omega)]
        have := toBytesBE_get_zero 8 (4132070672510939561984 + (n - 137441058944))
        norm_num at this ⊢
        exact this
      simp only [unpack_size, hb, shr7_eq, shr5_and3_eq]
      rw [if_pos (by omega), if_neg (by omega), if_neg (by omega), if_neg (by omega)]
      simp only [unpack_size_64, List.drop_zero, take_toBytesBE_append, toBytesBE_length]
      rw [fromBytesBE_toBytesBE_of_lt (by norm_num; omega)]
      rw [show (590295810358705651711 : Nat) = 2 ^ 69 - 1 from by norm_num, and_mask_eq_mod]
      norm_num
      omega

/-! ## IEEE 754-2008 decimal floats (BID form) -/

/-- A Python `decimal.Decimal` value as the claims use it: a finite number
given by `as_tuple()` (sign bit, coefficient digits most-significant first,
exponent), a signed infinity, or a quiet/signaling NaN. -/
inductive PyDecimal where
  | finite (sign : Nat) (digits : List Nat) (exponent : Int)
  | infinity (sign : Nat)
  | qNaN
  | sNaN
deriving DecidableEq, Repr

/-- `tuple(map(int, str(significand)))`: the decimal digits of `n`,
most-significant first (`[0]` for `0`, matching `str(0) = "0"`). -/
def decDigits (n : Nat) : List Nat :=
  if n = 0 then [0] else (Nat.digits 10 n).reverse

/-- `_decimal_unpack_special` from `primitives.py`. -/
def decimal_unpack_special (sign integer : Nat) : PyDecimal :=
  if (integer >>> 3) &&& 1 ≠ 0 then
    if (integer >>> 2) &&& 1 ≠ 0 then .sNaN else .qNaN
  else
    if sign ≠ 0 then .infinity 1 else .infinity 0

/-- `_decimal_pack_special` from `primitives.py` (`none` models the
`raise ValueError()` on a finite argument). -/
def decimal_pack_special (d : PyDecimal) (size : Nat) : Option (List Nat) :=
  match d with
  | .infinity s => some ((if s ≠ 0 then 0xf8 else 0x78) :: List.replicate (size - 1) 0)
  | .qNaN => some (0x7c :: List.replicate (size - 1) 0)
  | .sNaN => some (0x7e :: List.replicate (size - 1) 0)
  | .finite _ _ _ => none

/-- `pack_decimal32` from `primitives.py`.  The significand is
`int(''.join(map(str, digits)))`, i.e. `Nat.ofDigits 10` of the reversed
digit list; `none` models `raise ValueError()`. -/
def pack_decimal32 (d : PyDecimal) : Option (List Nat) :=
  match d with
  | .finite sign digits exponent =>
    if 7 < digits.length ∨ ¬(-101 ≤ exponent ∧ exponent ≤ 90) then none
    else
      let significand := Nat.ofDigits 10 digits.reverse
      if significand >>> 21 = 4 then
        some (toBytesBE 4 ((sign <<< 31) ||| (3 <<< 29) ||| ((exponent + 101).toNat <<< 21)
          ||| (significand &&& 2097151)))
      else
        some (toBytesBE 4 ((sign <<< 31) ||| ((exponent + 101).toNat <<< 23) ||| significand))
  | d => decimal_pack_special d 4

/-- `unpack_decimal32` from `primitives.py` (total: any four bytes decode). -/
def unpack_decimal32 (data : List Nat) (pointer : Nat) : Nat × PyDecimal :=
  let integer := fromBytesBE ((data.drop pointer).take 4)
  let sign := integer >>> 31
  if (integer >>> 29) &&& 3 = 3 then
    if (integer >>> 27) &&& 3 = 3 then
      (pointer + 4, decimal_unpack_special sign (integer >>> 23))
    else
      (pointer + 4, .finite sign (decDigits (8388608 ||| (integer &&& 2097151)))
        ((((integer >>> 21) &&& 255 : Nat) : Int) - 101))
  else
    (pointer + 4, .finite sign (decDigits (integer &&& 8388607))
      ((((integer >>> 23) &&& 255 : Nat) : Int) - 101))

/-- `pack_decimal64` from `primitives.py`. -/
def pack_decimal64 (d : PyDecimal) : Option (List Nat) :=
  match d with
  | .finite sign digits exponent =>
    if 16 < digits.length ∨ ¬(-398 ≤ exponent ∧ exponent ≤ 369) then none
    else
      let significand := Nat.ofDigits 10 digits.reverse
      if significand >>> 51 = 4 then
        some (toBytesBE 8 ((sign <<< 63) ||| (3 <<< 61) ||| ((exponent + 398).toNat <<< 51)
          ||| (significand &&& 2251799813685247)))
      else
        some (toBytesBE 8 ((sign <<< 63) ||| ((exponent + 398).toNat <<< 53) ||| significand))
  | d => decimal_pack_special d 8

/-- `unpack_decimal64` from `primitives.py`. -/
def unpack_decimal64 (data : List Nat) (pointer : Nat) : Nat × PyDecimal :=
  let integer := fromBytesBE ((data.drop pointer).take 8)
  let sign := integer >>> 63
  if (integer >>> 61) &&& 3 = 3 then
    if (integer >>> 59) &&& 3 = 3 then
      (pointer + 8, decimal_unpack_special sign (integer >>> 55))
    else
      (pointer + 8, .finite sign (decDigits (9007199254740992 ||| (integer &&& 2251799813685247)))
        ((((integer >>> 51) &&& 1023 : Nat) : Int) - 398))
  else
    (pointer + 8, .finite sign (decDigits (integer &&& 9007199254740991))
      ((((integer >>> 53) &&& 1023 : Nat) : Int) - 398))

/-- `pack_decimal128` from `primitives.py`. -/
def pack_decimal128 (d : PyDecimal) : Option (List Nat) :=
  match d with
  | .finite sign digits exponent =>
    if 34 < digits.length ∨ ¬(-6176 ≤ exponent ∧ exponent ≤ 6111) then none
    else
      let significand := Nat.ofDigits 10 digits.reverse
      if significand >>> 111 = 4 then
        some (toBytesBE 16 ((sign <<< 127) ||| (3 <<< 125) ||| ((exponent + 6176).toNat <<< 111)
          ||| (significand &&& 2596148429267413814265248164610047)))
      else
        some (toBytesBE 16 ((sign <<< 127) ||| ((exponent + 6176).toNat <<< 113) ||| significand))
  | d => decimal_pack_special d 16

/-- `unpack_decimal128` from `primitives.py`. -/
def unpack_decimal128 (data : List Nat) (pointer : Nat) : Nat × PyDecimal :=
  let integer := fromBytesBE ((data.drop pointer).take 16)
  let sign := integer >>> 127
  if (integer >>> 125) &&& 3 = 3 then
    if (integer >>> 123) &&& 3 = 3 then
      (pointer + 16, decimal_unpack_special sign (integer >>> 119))
    else
      (pointer + 16, .finite sign
        (decDigits (10384593717069655257060992658440192
          ||| (integer &&& 2596148429267413814265248164610047)))
        ((((integer >>> 111) &&& 16383 : Nat) : Int) - 6176))
  else
    (pointer + 16, .finite sign (decDigits (integer &&& 10384593717069655257060992658440191))
      ((((integer >>> 113) &&& 16383 : Nat) : Int) - 6176))

/-- The well-formedness of a `Decimal.as_tuple()` coefficient: single decimal
digits, and no leading zero except for the zero coefficient `[0]` itself. -/
def digitsWF (ds : List Nat) : Prop :=
  (∀ d ∈ ds, d < 10) ∧ (ds = [0] ∨ ∃ d rest, ds = d :: rest ∧ d ≠ 0)

instance : DecidablePred digitsWF := fun ds => by
  unfold digitsWF
  have : (∃ d rest, ds = d :: rest ∧ d ≠ 0) ↔ (match ds with
    | [] => False
    | d :: _ => d ≠ 0) := by
    constructor
    · rintro ⟨d, rest, rfl, hd⟩; exact hd
    · match ds with
      | [] => intro h; exact h.elim
      | d :: rest => intro h; exact ⟨d, rest, rfl, h⟩
  rw [this]
  match ds with
  | [] => exact inferInstanceAs (Decidable _)
  | d :: rest => exact inferInstanceAs (Decidable _)

theorem decDigits_ofDigits (ds : List Nat) (h : digitsWF ds) :
    decDigits (Nat.ofDigits 10 ds.reverse) = ds := by
  rcases h with ⟨h10, hzero | ⟨d, rest, rfl, hd⟩⟩
  · subst hzero
    simp [Nat.ofDigits, decDigits]
  · have hne : Nat.ofDigits 10 ((d :: rest).reverse) ≠ 0 := by
      intro h0
      exact hd (Nat.digits_zero_of_eq_zero (by norm_num) h0 d (by simp))
    rw [decDigits, if_neg hne]
    rw [Nat.digits_ofDigits 10 (by norm_num) _
      (by intro l hl; exact h10 l (by rw [List.mem_reverse] at hl; exact hl)) ?_]
    · simp
    · intro hne'
      have h1 := List.getLast?_eq_getLast _ hne'
      have h2 : (d :: rest).reverse.getLast? = some d := by
        rw [List.getLast?_reverse]
        rfl
      rw [h1] at h2
      intro h0
      rw [h0] at h2
      exact hd (Option.some.inj h2).symm

theorem ofDigits_lt_pow (ds : List Nat) (h10 : ∀ d ∈ ds, d < 10) :
    Nat.ofDigits 10 ds.reverse < 10 ^ ds.length := by
  have := Nat.ofDigits_lt_base_pow_length (b := 10) (l := ds.reverse) (by norm_num)
    (by intro x hx; exact h10 x (by simpa using hx))
  simpa using this

/-- Bit-or of a value divisible by `2 ^ i` and a value `< 2 ^ i` is addition. -/
theorem lor_dvd_eq_add (i : Nat) (a b : Nat) (ha : 2 ^ i ∣ a) (hb : b < 2 ^ i) :
    a ||| b = a + b := by
  obtain ⟨c, rfl⟩ := ha
  exact lor_eq_add i c b hb

theorem shr_and3 (i x : Nat) : (x >>> i) &&& 3 = x / 2 ^ i % 4 := by
  rw [shiftRight_eq_div, show (3 : Nat) = 2 ^ 2 - 1 from by norm_num, and_mask_eq_mod]
  norm_num

theorem shr_and1 (i x : Nat) : (x >>> i) &&& 1 = x / 2 ^ i % 2 := by
  rw [shiftRight_eq_div, show (1 : Nat) = 2 ^ 1 - 1 from by norm_num, and_mask_eq_mod]
  norm_num

theorem take_toBytesBE (k V : Nat) : (toBytesBE k V).take k = toBytesBE k V := by
  simpa using take_toBytesBE_append k V []

/-- Acceptance domain of `pack_decimal32`: finite values within the digit and
exponent limits (with a well-formed `as_tuple` coefficient) and the specials. -/
def dec32OK (d : PyDecimal) : Prop :=
  match d with
  | .finite sign ds e => sign < 2 ∧ digitsWF ds ∧ ds.length ≤ 7 ∧ -101 ≤ e ∧ e ≤ 90
  | .infinity s => s < 2
  | _ => True

theorem roundtrip_decimal32_finite (sign : Nat) (ds : List Nat) (e : Int)
    (hsg : sign < 2) (hwf : digitsWF ds) (hlen : ds.length ≤ 7)
    (he1 : -101 ≤ e) (he2 : e ≤ 90) :
    ∃ enc, pack_decimal32 (.finite sign ds e) = some enc ∧ enc.length = 4 ∧
      unpack_decimal32 enc 0 = (4, .finite sign ds e) := by
  have h10 := hwf.1
  set s := Nat.ofDigits 10 ds.reverse with hs_def
  have hslt : s < 10000000 := by
    have h1 := ofDigits_lt_pow ds h10
    have h2 : (10 : Nat) ^ ds.length ≤ 10 ^ 7 := Nat.pow_le_pow_right (by norm_num) hlen
    rw [← hs_def] at h1
    calc s < 10 ^ ds.length := h1
    _ ≤ 10 ^ 7 := h2
    _ = 10000000 := by norm_num
  set E := (e + 101).toNat with hE_def
  have hEe : (E : Int) = e + 101 := Int.toNat_of_nonneg (by omega)
  have hE : E ≤ 191 := by omega
  have hguard : ¬(7 < ds.length ∨ ¬(-101 ≤ e ∧ e ≤ 90)) := by
    push_neg
    exact ⟨by omega, he1, he2⟩
  have hmaskname : s &&& 2097151 = s % 2097152 := by
    rw [show (2097151 : Nat) = 2 ^ 21 - 1 from by norm_num, and_mask_eq_mod]
    norm_num
  have hr : s % 2097152 < 2097152 := Nat.mod_lt _ (by norm_num)
  by_cases hbr : s >>> 21 = 4
  · -- large-significand layout: implicit `100` prefix
    have hbr' : s / 2097152 = 4 := by
      rw [shiftRight_eq_div] at hbr
      norm_num at hbr
      exact hbr
    have l1 : sign * 2 ^ 31 ||| 3 * 2 ^ 29 = sign * 2 ^ 31 + 3 * 2 ^ 29 :=
      lor_dvd_eq_add 31 (sign * 2 ^ 31) (3 * 2 ^ 29) (dvd_mul_left _ _) (by norm_num)
    have l2 : (sign * 2 ^ 31 + 3 * 2 ^ 29) ||| E * 2 ^ 21
        = sign * 2 ^ 31 + 3 * 2 ^ 29 + E * 2 ^ 21 :=
      lor_dvd_eq_add 29 _ _ ⟨sign * 4 + 3, by ring⟩ (by norm_num; omega)
    have l3 : (sign * 2 ^ 31 + 3 * 2 ^ 29 + E * 2 ^ 21) ||| s % 2097152
        = sign * 2 ^ 31 + 3 * 2 ^ 29 + E * 2 ^ 21 + s % 2097152 :=
      lor_dvd_eq_add 21 _ _ ⟨sign * 2 ^ 10 + 3 * 2 ^ 8 + E, by ring⟩ (by norm_num; omega)
    have hV : (sign <<< 31) ||| (3 <<< 29) ||| (E <<< 21) ||| (s &&& 2097151)
        = sign * 2 ^ 31 + 3 * 2 ^ 29 + E * 2 ^ 21 + s % 2097152 := by
      rw [hmaskname, Nat.shiftLeft_eq, Nat.shiftLeft_eq, Nat.shiftLeft_eq, l1, l2, l3]
    have hVlt : sign * 2 ^ 31 + 3 * 2 ^ 29 + E * 2 ^ 21 + s % 2097152 < 256 ^ 4 := by
      norm_num
      omega
    refine ⟨toBytesBE 4 (sign * 2 ^ 31 + 3 * 2 ^ 29 + E * 2 ^ 21 + s % 2097152), ?_, toBytesBE_length _ _, ?_⟩
    · simp only [pack_decimal32]
      rw [if_neg hguard, ← hs_def, ← hE_def, if_pos hbr, hV]
    · simp only [unpack_decimal32, List.drop_zero, take_toBytesBE,
        fromBytesBE_toBytesBE_of_lt hVlt]
      rw [if_pos (by rw [shr_and3]; norm_num; omega),
        if_neg (by rw [shr_and3]; norm_num; omega)]
      have hsig : 8388608 ||| ((sign * 2 ^ 31 + 3 * 2 ^ 29 + E * 2 ^ 21 + s % 2097152)
          &&& 2097151) = s := by
        rw [show (2097151 : Nat) = 2 ^ 21 - 1 from by norm_num, and_mask_eq_mod]
        have l4 : (8388608 : Nat)
            ||| (sign * 2 ^ 31 + 3 * 2 ^ 29 + E * 2 ^ 21 + s % 2097152) % 2 ^ 21
            = 8388608 + (sign * 2 ^ 31 + 3 * 2 ^ 29 + E * 2 ^ 21 + s % 2097152) % 2 ^ 21 :=
          lor_dvd_eq_add 23 _ _ (by norm_num) (by norm_num; omega)
        rw [l4]
        norm_num
        omega
      have hexp : (sign * 2 ^ 31 + 3 * 2 ^ 29 + E * 2 ^ 21 + s % 2097152) >>> 21 &&& 255
          = E := by
        rw [shiftRight_eq_div, show (255 : Nat) = 2 ^ 8 - 1 from by norm_num, and_mask_eq_mod]
        norm_num
        omega
      have hsgn : (sign * 2 ^ 31 + 3 * 2 ^ 29 + E * 2 ^ 21 + s % 2097152) >>> 31 = sign := by
        rw [shiftRight_eq_div]
        norm_num
        omega
      rw [hsig, hexp, hsgn, decDigits_ofDigits ds hwf]
      simp only [Prod.mk.injEq, PyDecimal.finite.injEq, true_and, and_true]
      omega
  · -- direct layout
    have hbr' : ¬ s / 2097152 = 4 := by
      rw [shiftRight_eq_div] at hbr
      norm_num at hbr
      exact hbr
    have hs23 : s < 8388608 := by omega
    have l1 : sign * 2 ^ 31 ||| E * 2 ^ 23 = sign * 2 ^ 31 + E * 2 ^ 23 :=
      lor_dvd_eq_add 31 (sign * 2 ^ 31) (E * 2 ^ 23) (dvd_mul_left _ _) (by norm_num; omega)
    have l2 : (sign * 2 ^ 31 + E * 2 ^ 23) ||| s = sign * 2 ^ 31 + E * 2 ^ 23 + s :=
      lor_dvd_eq_add 23 _ _ ⟨sign * 2 ^ 8 + E, by ring⟩ (by norm_num; omega)
    have hV : (sign <<< 31) ||| (E <<< 23) ||| s
        = sign * 2 ^ 31 + E * 2 ^ 23 + s := by
      rw [Nat.shiftLeft_eq, Nat.shiftLeft_eq, l1, l2]
    have hVlt : sign * 2 ^ 31 + E * 2 ^ 23 + s < 256 ^ 4 := by
      norm_num
      omega
    refine ⟨toBytesBE 4 (sign * 2 ^ 31 + E * 2 ^ 23 + s), ?_, toBytesBE_length _ _, ?_⟩
    · simp only [pack_decimal32]
      rw [if_neg hguard, ← hs_def, ← hE_def, if_neg hbr, hV]
    · simp only [unpack_decimal32, List.drop_zero, take_toBytesBE,
        fromBytesBE_toBytesBE_of_lt hVlt]
      rw [if_neg (by rw [shr_and3]; norm_num; omega)]
      have hsig : (sign * 2 ^ 31 + E * 2 ^ 23 + s) &&& 8388607 = s := by
        rw [show (8388607 : Nat) = 2 ^ 23 - 1 from by norm_num, and_mask_eq_mod]
        norm_num
        omega
      have hexp : (sign * 2 ^ 31 + E * 2 ^ 23 + s) >>> 23 &&& 255 = E := by
        rw [shiftRight_eq_div, show (255 : Nat) = 2 ^ 8 - 1 from by norm_num, and_mask_eq_mod]
        norm_num
        omega
      have hsgn : (sign * 2 ^ 31 + E * 2 ^ 23 + s) >>> 31 = sign := by
        rw [shiftRight_eq_div]
        norm_num
        omega
      rw [hsig, hexp, hsgn, decDigits_ofDigits ds hwf]
      simp only [Prod.mk.injEq, PyDecimal.finite.injEq, true_and, and_true]
      omega

/-- Round-trip of `DECIMAL32` for every accepted value, specials included. -/
theorem roundtrip_decimal32 (d : PyDecimal) (h : dec32OK d) :
    ∃ enc, pack_decimal32 d = some enc ∧ enc.length = 4 ∧
      unpack_decimal32 enc 0 = (4, d) := by
  match d with
  | .finite sign ds e =>
    obtain ⟨h1, h2, h3, h4, h5⟩ := h
    exact roundtrip_decimal32_finite sign ds e h1 h2 h3 h4 h5
  | .infinity s =>
    have : s = 0 ∨ s = 1 := by
      have : s < 2 := h
      omega
    rcases this with rfl | rfl
    · exact ⟨[0x78, 0, 0, 0], by decide, by decide, by decide⟩
    · exact ⟨[0xf8, 0, 0, 0], by decide, by decide, by decide⟩
  | .qNaN => exact ⟨[0x7c, 0, 0, 0], by decide, by decide, by decide⟩
  | .sNaN => exact ⟨[0x7e, 0, 0, 0], by decide, by decide, by decide⟩

/-- Acceptance domain of `pack_decimal64`. -/
def dec64OK (d : PyDecimal) : Prop :=
  match d with
  | .finite sign ds e => sign < 2 ∧ digitsWF ds ∧ ds.length ≤ 16 ∧ -398 ≤ e ∧ e ≤ 369
  | .infinity s => s < 2
  | _ => True

theorem roundtrip_decimal64_finite (sign : Nat) (ds : List Nat) (e : Int)
    (hsg : sign < 2) (hwf : digitsWF ds) (hlen : ds.length ≤ 16)
    (he1 : -398 ≤ e) (he2 : e ≤ 369) :
    ∃ enc, pack_decimal64 (.finite sign ds e) = some enc ∧ enc.length = 8 ∧
      unpack_decimal64 enc 0 = (8, .finite sign ds e) := by
  have h10 := hwf.1
  set s := Nat.ofDigits 10 ds.reverse with hs_def
  have hslt : s < 10000000000000000 := by
    have h1 := ofDigits_lt_pow ds h10
    have h2 : (10 : Nat) ^ ds.length ≤ 10 ^ 16 := Nat.pow_le_pow_right (by norm_num) hlen
    rw [← hs_def] at h1
    calc s < 10 ^ ds.length := h1
    _ ≤ 10 ^ 16 := h2
    _ = 10000000000000000 := by norm_num
  set E := (e + 398).toNat with hE_def
  have hEe : (E : Int) = e + 398 := Int.toNat_of_nonneg (by omega)
  have hE : E ≤ 767 := by omega
  have hguard : ¬(16 < ds.length ∨ ¬(-398 ≤ e ∧ e ≤ 369)) := by
    push_neg
    exact ⟨by omega, he1, he2⟩
  have hmaskname : s &&& 2251799813685247 = s % 2251799813685248 := by
    rw [show (2251799813685247 : Nat) = 2 ^ 51 - 1 from by norm_num, and_mask_eq_mod]
    norm_num
  have hr : s % 2251799813685248 < 2251799813685248 := Nat.mod_lt _ (by norm_num)
  by_cases hbr : s >>> 51 = 4
  · have hbr' : s / 2251799813685248 = 4 := by
      rw [shiftRight_eq_div] at hbr
      norm_num at hbr
      exact hbr
    have l1 : sign * 2 ^ 63 ||| 3 * 2 ^ 61 = sign * 2 ^ 63 + 3 * 2 ^ 61 :=
      lor_dvd_eq_add 63 (sign * 2 ^ 63) (3 * 2 ^ 61) (dvd_mul_left _ _) (by norm_num)
    have l2 : (sign * 2 ^ 63 + 3 * 2 ^ 61) ||| E * 2 ^ 51
        = sign * 2 ^ 63 + 3 * 2 ^ 61 + E * 2 ^ 51 :=
      lor_dvd_eq_add 61 _ _ ⟨sign * 4 + 3, by ring⟩ (by norm_num; omega)
    have l3 : (sign * 2 ^ 63 + 3 * 2 ^ 61 + E * 2 ^ 51) ||| s % 2251799813685248
        = sign * 2 ^ 63 + 3 * 2 ^ 61 + E * 2 ^ 51 + s % 2251799813685248 :=
      lor_dvd_eq_add 51 _ _ ⟨sign * 2 ^ 12 + 3 * 2 ^ 10 + E, by ring⟩ (by norm_num; omega)
    have hV : (sign <<< 63) ||| (3 <<< 61) ||| (E <<< 51) ||| (s &&& 2251799813685247)
        = sign * 2 ^ 63 + 3 * 2 ^ 61 + E * 2 ^ 51 + s % 2251799813685248 := by
      rw [hmaskname, Nat.shiftLeft_eq, Nat.shiftLeft_eq, Nat.shiftLeft_eq, l1, l2, l3]
    have hVlt : sign * 2 ^ 63 + 3 * 2 ^ 61 + E * 2 ^ 51 + s % 2251799813685248 < 256 ^ 8 := by
      norm_num
      omega
    refine ⟨toBytesBE 8 (sign * 2 ^ 63 + 3 * 2 ^ 61 + E * 2 ^ 51 + s % 2251799813685248),
      ?_, toBytesBE_length _ _, ?_⟩
    · simp only [pack_decimal64]
      rw [if_neg hguard, ← hs_def, ← hE_def, if_pos hbr, hV]
    · simp only [unpack_decimal64, List.drop_zero, take_toBytesBE,
        fromBytesBE_toBytesBE_of_lt hVlt]
      rw [if_pos (by rw [shr_and3]; norm_num; omega),
        if_neg (by rw [shr_and3]; norm_num; omega)]
      have hsig : 9007199254740992 |||
          ((sign * 2 ^ 63 + 3 * 2 ^ 61 + E * 2 ^ 51 + s % 2251799813685248)
          &&& 2251799813685247) = s := by
        rw [show (2251799813685247 : Nat) = 2 ^ 51 - 1 from by norm_num, and_mask_eq_mod]
        have l4 : (9007199254740992 : Nat)
            ||| (sign * 2 ^ 63 + 3 * 2 ^ 61 + E * 2 ^ 51 + s % 2251799813685248) % 2 ^ 51
            = 9007199254740992
              + (sign * 2 ^ 63 + 3 * 2 ^ 61 + E * 2 ^ 51 + s % 2251799813685248) % 2 ^ 51 :=
          lor_dvd_eq_add 53 _ _ (by norm_num) (by norm_num; omega)
        rw [l4]
        norm_num
        omega
      have hexp : (sign * 2 ^ 63 + 3 * 2 ^ 61 + E * 2 ^ 51 + s % 2251799813685248) >>> 51
          &&& 1023 = E := by
        rw [shiftRight_eq_div, show (1023 : Nat) = 2 ^ 10 - 1 from by norm_num, and_mask_eq_mod]
        norm_num
        omega
      have hsgn : (sign * 2 ^ 63 + 3 * 2 ^ 61 + E * 2 ^ 51 + s % 2251799813685248) >>> 63
          = sign := by
        rw [shiftRight_eq_div]
        norm_num
        omega
      rw [hsig, hexp, hsgn, decDigits_ofDigits ds hwf]
      simp only [Prod.mk.injEq, PyDecimal.finite.injEq, true_and, and_true]
      omega
  · have hbr' : ¬ s / 2251799813685248 = 4 := by
      rw [shiftRight_eq_div] at hbr
      norm_num at hbr
      exact hbr
    have hs53 : s < 9007199254740992 := by omega
    have l1 : sign * 2 ^ 63 ||| E * 2 ^ 53 = sign * 2 ^ 63 + E * 2 ^ 53 :=
      lor_dvd_eq_add 63 (sign * 2 ^ 63) (E * 2 ^ 53) (dvd_mul_left _ _) (by norm_num; omega)
    have l2 : (sign * 2 ^ 63 + E * 2 ^ 53) ||| s = sign * 2 ^ 63 + E * 2 ^ 53 + s :=
      lor_dvd_eq_add 53 _ _ ⟨sign * 2 ^ 10 + E, by ring⟩ (by norm_num; omega)
    have hV : (sign <<< 63) ||| (E <<< 53) ||| s
        = sign * 2 ^ 63 + E * 2 ^ 53 + s := by
      rw [Nat.shiftLeft_eq, Nat.shiftLeft_eq, l1, l2]
    have hVlt : sign * 2 ^ 63 + E * 2 ^ 53 + s < 256 ^ 8 := by
      norm_num
      omega
    refine ⟨toBytesBE 8 (sign * 2 ^ 63 + E * 2 ^ 53 + s), ?_, toBytesBE_length _ _, ?_⟩
    · simp only [pack_decimal64]
      rw [if_neg hguard, ← hs_def, ← hE_def, if_neg hbr, hV]
    · simp only [unpack_decimal64, List.drop_zero, take_toBytesBE,
        fromBytesBE_toBytesBE_of_lt hVlt]
      rw [if_neg (by rw [shr_and3]; norm_num; omega)]
      have hsig : (sign * 2 ^ 63 + E * 2 ^ 53 + s) &&& 9007199254740991 = s := by
        rw [show (9007199254740991 : Nat) = 2 ^ 53 - 1 from by norm_num, and_mask_eq_mod]
        norm_num
        omega
      have hexp : (sign * 2 ^ 63 + E * 2 ^ 53 + s) >>> 53 &&& 1023 = E := by
        rw [shiftRight_eq_div, show (1023 : Nat) = 2 ^ 10 - 1 from by norm_num, and_mask_eq_mod]
        norm_num
        omega
      have hsgn : (sign * 2 ^ 63 + E * 2 ^ 53 + s) >>> 63 = sign := by
        rw [shiftRight_eq_div]
        norm_num
        omega
      rw [hsig, hexp, hsgn, decDigits_ofDigits ds hwf]
      simp only [Prod.mk.injEq, PyDecimal.finite.injEq, true_and, and_true]
      omega

/-- Round-trip of `DECIMAL64` for every accepted value, specials included. -/
theorem roundtrip_decimal64 (d : PyDecimal) (h : dec64OK d) :
    ∃ enc, pack_decimal64 d = some enc ∧ enc.length = 8 ∧
      unpack_decimal64 enc 0 = (8, d) := by
  match d with
  | .finite sign ds e =>
    obtain ⟨h1, h2, h3, h4, h5⟩ := h
    exact roundtrip_decimal64_finite sign ds e h1 h2 h3 h4 h5
  | .infinity s =>
    have : s = 0 ∨ s = 1 := by
      have : s < 2 := h
      omega
    rcases this with rfl | rfl
    · exact ⟨[0x78, 0, 0, 0, 0, 0, 0, 0], by decide, by decide, by decide⟩
    · exact ⟨[0xf8, 0, 0, 0, 0, 0, 0, 0], by decide, by decide, by decide⟩
  | .qNaN => exact ⟨[0x7c, 0, 0, 0, 0, 0, 0, 0], by decide, by decide, by decide⟩
  | .sNaN => exact ⟨[0x7e, 0, 0, 0, 0, 0, 0, 0], by decide, by decide, by decide⟩

/-- Acceptance domain of `pack_decimal128`. -/
def dec128OK (d : PyDecimal) : Prop :=
  match d with
  | .finite sign ds e => sign < 2 ∧ digitsWF ds ∧ ds.length ≤ 34 ∧ -6176 ≤ e ∧ e ≤ 6111
  | .infinity s => s < 2
  | _ => True

theorem roundtrip_decimal128_finite (sign : Nat) (ds : List Nat) (e : Int)
    (hsg : sign < 2) (hwf : digitsWF ds) (hlen : ds.length ≤ 34)
    (he1 : -6176 ≤ e) (he2 : e ≤ 6111) :
    ∃ enc, pack_decimal128 (.finite sign ds e) = some enc ∧ enc.length = 16 ∧
      unpack_decimal128 enc 0 = (16, .finite sign ds e) := by
  have h10 := hwf.1
  set s := Nat.ofDigits 10 ds.reverse with hs_def
  have hslt : s < 10000000000000000000000000000000000 := by
    have h1 := ofDigits_lt_pow ds h10
    have h2 : (10 : Nat) ^ ds.length ≤ 10 ^ 34 := Nat.pow_le_pow_right (by norm_num) hlen
    rw [← hs_def] at h1
    calc s < 10 ^ ds.length := h1
    _ ≤ 10 ^ 34 := h2
    _ = 10000000000000000000000000000000000 := by norm_num
  set E := (e + 6176).toNat with hE_def
  have hEe : (E : Int) = e + 6176 := Int.toNat_of_nonneg (by omega)
  have hE : E ≤ 12287 := by omega
  have hguard : ¬(34 < ds.length ∨ ¬(-6176 ≤ e ∧ e ≤ 6111)) := by
    push_neg
    exact ⟨by omega, he1, he2⟩
  have hmaskname : s &&& 2596148429267413814265248164610047
      = s % 2596148429267413814265248164610048 := by
    rw [show (2596148429267413814265248164610047 : Nat) = 2 ^ 111 - 1 from by norm_num,
      and_mask_eq_mod]
    norm_num
  have hr : s % 2596148429267413814265248164610048 < 2596148429267413814265248164610048 :=
    Nat.mod_lt _ (by norm_num)
  by_cases hbr : s >>> 111 = 4
  · have hbr' : s / 2596148429267413814265248164610048 = 4 := by
      rw [shiftRight_eq_div] at hbr
      norm_num at hbr
      exact hbr
    have l1 : sign * 2 ^ 127 ||| 3 * 2 ^ 125 = sign * 2 ^ 127 + 3 * 2 ^ 125 :=
      lor_dvd_eq_add 127 (sign * 2 ^ 127) (3 * 2 ^ 125) (dvd_mul_left _ _) (by norm_num)
    have l2 : (sign * 2 ^ 127 + 3 * 2 ^ 125) ||| E * 2 ^ 111
        = sign * 2 ^ 127 + 3 * 2 ^ 125 + E * 2 ^ 111 :=
      lor_dvd_eq_add 125 _ _ ⟨sign * 4 + 3, by ring⟩ (by norm_num; omega)
    have l3 : (sign * 2 ^ 127 + 3 * 2 ^ 125 + E * 2 ^ 111)
          ||| s % 2596148429267413814265248164610048
        = sign * 2 ^ 127 + 3 * 2 ^ 125 + E * 2 ^ 111
          + s % 2596148429267413814265248164610048 :=
      lor_dvd_eq_add 111 _ _ ⟨sign * 2 ^ 16 + 3 * 2 ^ 14 + E, by ring⟩ (by norm_num; omega)
    have hV : (sign <<< 127) ||| (3 <<< 125) ||| (E <<< 111)
          ||| (s &&& 2596148429267413814265248164610047)
        = sign * 2 ^ 127 + 3 * 2 ^ 125 + E * 2 ^ 111
          + s % 2596148429267413814265248164610048 := by
      rw [hmaskname, Nat.shiftLeft_eq, Nat.shiftLeft_eq, Nat.shiftLeft_eq, l1, l2, l3]
    have hVlt : sign * 2 ^ 127 + 3 * 2 ^ 125 + E * 2 ^ 111
        + s % 2596148429267413814265248164610048 < 256 ^ 16 := by
      norm_num
      omega
    refine ⟨toBytesBE 16 (sign * 2 ^ 127 + 3 * 2 ^ 125 + E * 2 ^ 111
      + s % 2596148429267413814265248164610048), ?_, toBytesBE_length _ _, ?_⟩
    · simp only [pack_decimal128]
      rw [if_neg hguard, ← hs_def, ← hE_def, if_pos hbr, hV]
    · simp only [unpack_decimal128, List.drop_zero, take_toBytesBE,
        fromBytesBE_toBytesBE_of_lt hVlt]
      rw [if_pos (by rw [shr_and3]; norm_num; omega),
        if_neg (by rw [shr_and3]; norm_num; omega)]
      have hsig : 10384593717069655257060992658440192 |||
          ((sign * 2 ^ 127 + 3 * 2 ^ 125 + E * 2 ^ 111
            + s % 2596148429267413814265248164610048)
          &&& 2596148429267413814265248164610047) = s := by
        rw [show (2596148429267413814265248164610047 : Nat) = 2 ^ 111 - 1 from by norm_num,
          and_mask_eq_mod]
        have l4 : (10384593717069655257060992658440192 : Nat)
            ||| (sign * 2 ^ 127 + 3 * 2 ^ 125 + E * 2 ^ 111
              + s % 2596148429267413814265248164610048) % 2 ^ 111
            = 10384593717069655257060992658440192
              + (sign * 2 ^ 127 + 3 * 2 ^ 125 + E * 2 ^ 111
                + s % 2596148429267413814265248164610048) % 2 ^ 111 :=
          lor_dvd_eq_add 113 _ _ (by norm_num) (by norm_num; omega)
        rw [l4]
        norm_num
        omega
      have hexp : (sign * 2 ^ 127 + 3 * 2 ^ 125 + E * 2 ^ 111
          + s % 2596148429267413814265248164610048) >>> 111 &&& 16383 = E := by
        rw [shiftRight_eq_div, show (16383 : Nat) = 2 ^ 14 - 1 from by norm_num,
          and_mask_eq_mod]
        norm_num
        omega
      have hsgn : (sign * 2 ^ 127 + 3 * 2 ^ 125 + E * 2 ^ 111
          + s % 2596148429267413814265248164610048) >>> 127 = sign := by
        rw [shiftRight_eq_div]
        norm_num
        omega
      rw [hsig, hexp, hsgn, decDigits_ofDigits ds hwf]
      simp only [Prod.mk.injEq, PyDecimal.finite.injEq, true_and, and_true]
      omega
  · have hbr' : ¬ s / 2596148429267413814265248164610048 = 4 := by
      rw [shiftRight_eq_div] at hbr
      norm_num at hbr
      exact hbr
    have hs113 : s < 10384593717069655257060992658440192 := by omega
    have l1 : sign * 2 ^ 127 ||| E * 2 ^ 113 = sign * 2 ^ 127 + E * 2 ^ 113 :=
      lor_dvd_eq_add 127 (sign * 2 ^ 127) (E * 2 ^ 113) (dvd_mul_left _ _) (by norm_num; omega)
    have l2 : (sign * 2 ^ 127 + E * 2 ^ 113) ||| s = sign * 2 ^ 127 + E * 2 ^ 113 + s :=
      lor_dvd_eq_add 113 _ _ ⟨sign * 2 ^ 14 + E, by ring⟩ (by norm_num; omega)
    have hV : (sign <<< 127) ||| (E <<< 113) ||| s
        = sign * 2 ^ 127 + E * 2 ^ 113 + s := by
      rw [Nat.shiftLeft_eq, Nat.shiftLeft_eq, l1, l2]
    have hVlt : sign * 2 ^ 127 + E * 2 ^ 113 + s < 256 ^ 16 := by
      norm_num
      omega
    refine ⟨toBytesBE 16 (sign * 2 ^ 127 + E * 2 ^ 113 + s), ?_, toBytesBE_length _ _, ?_⟩
    · simp only [pack_decimal128]
      rw [if_neg hguard, ← hs_def, ← hE_def, if_neg hbr, hV]
    · simp only [unpack_decimal128, List.drop_zero, take_toBytesBE,
        fromBytesBE_toBytesBE_of_lt hVlt]
      rw [if_neg (by rw [shr_and3]; norm_num; omega)]
      have hsig : (sign * 2 ^ 127 + E * 2 ^ 113 + s)
          &&& 10384593717069655257060992658440191 = s := by
        rw [show (10384593717069655257060992658440191 : Nat) = 2 ^ 113 - 1 from by norm_num,
          and_mask_eq_mod]
        norm_num
        omega
      have hexp : (sign * 2 ^ 127 + E * 2 ^ 113 + s) >>> 113 &&& 16383 = E := by
        rw [shiftRight_eq_div, show (16383 : Nat) = 2 ^ 14 - 1 from by norm_num,
          and_mask_eq_mod]
        norm_num
        omega
      have hsgn : (sign * 2 ^ 127 + E * 2 ^ 113 + s) >>> 127 = sign := by
        rw [shiftRight_eq_div]
        norm_num
        omega
      rw [hsig, hexp, hsgn, decDigits_ofDigits ds hwf]
      simp only [Prod.mk.injEq, PyDecimal.finite.injEq, true_and, and_true]
      omega

/-- Round-trip of `DECIMAL128` for every accepted value, specials included. -/
theorem roundtrip_decimal128 (d : PyDecimal) (h : dec128OK d) :
    ∃ enc, pack_decimal128 d = some enc ∧ enc.length = 16 ∧
      unpack_decimal128 enc 0 = (16, d) := by
  match d with
  | .finite sign ds e =>
    obtain ⟨h1, h2, h3, h4, h5⟩ := h
    exact roundtrip_decimal128_finite sign ds e h1 h2 h3 h4 h5
  | .infinity s =>
    have : s = 0 ∨ s = 1 := by
      have : s < 2 := h
      omega
    rcases this with rfl | rfl
    · exact ⟨[0x78, 0, 0, 0, 0, 0, 0, 0, 0, 0, 0, 0, 0, 0, 0, 0],
        by decide, by decide, by decide⟩
    · exact ⟨[0xf8, 0, 0, 0, 0, 0, 0, 0, 0, 0, 0, 0, 0, 0, 0, 0],
        by decide, by decide, by decide⟩
  | .qNaN => exact ⟨[0x7c, 0, 0, 0, 0, 0, 0, 0, 0, 0, 0, 0, 0, 0, 0, 0],
      by decide, by decide, by decide⟩
  | .sNaN => exact ⟨[0x7e, 0, 0, 0, 0, 0, 0, 0, 0, 0, 0, 0, 0, 0, 0, 0],
      by decide, by decide, by decide⟩

/-! ## Fixed-width big-endian integers (`struct` based primitives)

Python's `struct.Struct('!B'/'!H'/'!I'/'!Q')` packs an unsigned big-endian
integer, raising `struct.error` when out of range; `'!b'/'!h'/'!i'/'!q'` pack
the two's-complement form.  `unpack` demands a buffer of exactly the struct's
size (raising otherwise, modelled by `none`). -/

def pack_uint8 (integer : Int) : Option (List Nat) :=
  if 0 ≤ integer ∧ integer < 256 then some (toBytesBE 1 integer.toNat) else none

def unpack_uint8 (data : List Nat) (pointer : Nat) : Option (Nat × Int) :=
  let s := (data.drop pointer).take 1
  if s.length = 1 then some (pointer + 1, (fromBytesBE s : Int)) else none

def pack_uint16 (integer : Int) : Option (List Nat) :=
  if 0 ≤ integer ∧ integer < 65536 then some (toBytesBE 2 integer.toNat) else none

def unpack_uint16 (data : List Nat) (pointer : Nat) : Option (Nat × Int) :=
  let s := (data.drop pointer).take 2
  if s.length = 2 then some (pointer + 2, (fromBytesBE s : Int)) else none

def pack_uint32 (integer : Int) : Option (List Nat) :=
  if 0 ≤ integer ∧ integer < 4294967296 then some (toBytesBE 4 integer.toNat) else none

def unpack_uint32 (data : List Nat) (pointer : Nat) : Option (Nat × Int) :=
  let s := (data.drop pointer).take 4
  if s.length = 4 then some (pointer + 4, (fromBytesBE s : Int)) else none

def pack_uint64 (integer : Int) : Option (List Nat) :=
  if 0 ≤ integer ∧ integer < 18446744073709551616 then
    some (toBytesBE 8 integer.toNat)
  else none

def unpack_uint64 (data : List Nat) (pointer : Nat) : Option (Nat × Int) :=
  let s := (data.drop pointer).take 8
  if s.length = 8 then some (pointer + 8, (fromBytesBE s : Int)) else none

def pack_sint8 (integer : Int) : Option (List Nat) :=
  if -128 ≤ integer ∧ integer < 128 then
    some (toBytesBE 1 (integer % 256).toNat)
  else none

def unpack_sint8 (data : List Nat) (pointer : Nat) : Option (Nat × Int) :=
  let s := (data.drop pointer).take 1
  if s.length = 1 then
    some (pointer + 1,
      if fromBytesBE s < 128 then (fromBytesBE s : Int) else (fromBytesBE s : Int) - 256)
  else none

def pack_sint16 (integer : Int) : Option (List Nat) :=
  if -32768 ≤ integer ∧ integer < 32768 then
    some (toBytesBE 2 (integer % 65536).toNat)
  else none

def unpack_sint16 (data : List Nat) (pointer : Nat) : Option (Nat × Int) :=
  let s := (data.drop pointer).take 2
  if s.length = 2 then
    some (pointer + 2,
      if fromBytesBE s < 32768 then (fromBytesBE s : Int) else (fromBytesBE s : Int) - 65536)
  else none

def pack_sint32 (integer : Int) : Option (List Nat) :=
  if -2147483648 ≤ integer ∧ integer < 2147483648 then
    some (toBytesBE 4 (integer % 4294967296).toNat)
  else none

def unpack_sint32 (data : List Nat) (pointer : Nat) : Option (Nat × Int) :=
  let s := (data.drop pointer).take 4
  if s.length = 4 then
    some (pointer + 4,
      if fromBytesBE s < 2147483648 then (fromBytesBE s : Int)
      else (fromBytesBE s : Int) - 4294967296)
  else none

def pack_sint64 (integer : Int) : Option (List Nat) :=
  if -9223372036854775808 ≤ integer ∧ integer < 9223372036854775808 then
    some (toBytesBE 8 (integer % 18446744073709551616).toNat)
  else none

def unpack_sint64 (data : List Nat) (pointer : Nat) : Option (Nat × Int) :=
  let s := (data.drop pointer).take 8
  if s.length = 8 then
    some (pointer + 8,
      if fromBytesBE s < 9223372036854775808 then (fromBytesBE s : Int)
      else (fromBytesBE s : Int) - 18446744073709551616)
  else none

theorem take_drop_zero_toBytesBE (k V : Nat) :
    ((toBytesBE k V).drop 0).take k = toBytesBE k V := by
  rw [List.drop_zero, take_toBytesBE]

theorem roundtrip_uint8 (n : Int) (h0 : 0 ≤ n) (h1 : n < 256) :
    ∃ enc, pack_uint8 n = some enc ∧ enc.length = 1 ∧
      unpack_uint8 enc 0 = some (1, n) := by
  refine ⟨toBytesBE 1 n.toNat, by simp [pack_uint8, h0, h1], toBytesBE_length _ _, ?_⟩
  simp only [unpack_uint8, take_drop_zero_toBytesBE, toBytesBE_length, if_pos]
  rw [fromBytesBE_toBytesBE_of_lt (by norm_num; omega)]
  simp only [Option.some.injEq, Prod.mk.injEq, true_and, and_true]
  omega

theorem roundtrip_uint16 (n : Int) (h0 : 0 ≤ n) (h1 : n < 65536) :
    ∃ enc, pack_uint16 n = some enc ∧ enc.length = 2 ∧
      unpack_uint16 enc 0 = some (2, n) := by
  refine ⟨toBytesBE 2 n.toNat, by simp [pack_uint16, h0, h1], toBytesBE_length _ _, ?_⟩
  simp only [unpack_uint16, take_drop_zero_toBytesBE, toBytesBE_length, if_pos]
  rw [fromBytesBE_toBytesBE_of_lt (by norm_num; omega)]
  simp only [Option.some.injEq, Prod.mk.injEq, true_and, and_true]
  omega

theorem roundtrip_uint32 (n : Int) (h0 : 0 ≤ n) (h1 : n < 4294967296) :
    ∃ enc, pack_uint32 n = some enc ∧ enc.length = 4 ∧
      unpack_uint32 enc 0 = some (4, n) := by
  refine ⟨toBytesBE 4 n.toNat, by simp [pack_uint32, h0, h1], toBytesBE_length _ _, ?_⟩
  simp only [unpack_uint32, take_drop_zero_toBytesBE, toBytesBE_length, if_pos]
  rw [fromBytesBE_toBytesBE_of_lt (by norm_num; omega)]
  simp only [Option.some.injEq, Prod.mk.injEq, true_and, and_true]
  omega

theorem roundtrip_uint64 (n : Int) (h0 : 0 ≤ n) (h1 : n < 18446744073709551616) :
    ∃ enc, pack_uint64 n = some enc ∧ enc.length = 8 ∧
      unpack_uint64 enc 0 = some (8, n) := by
  refine ⟨toBytesBE 8 n.toNat, by simp [pack_uint64, h0, h1], toBytesBE_length _ _, ?_⟩
  simp only [unpack_uint64, take_drop_zero_toBytesBE, toBytesBE_length, if_pos]
  rw [fromBytesBE_toBytesBE_of_lt (by norm_num; omega)]
  simp only [Option.some.injEq, Prod.mk.injEq, true_and, and_true]
  omega

theorem roundtrip_sint8 (n : Int) (h0 : -128 ≤ n) (h1 : n < 128) :
    ∃ enc, pack_sint8 n = some enc ∧ enc.length = 1 ∧
      unpack_sint8 enc 0 = some (1, n) := by
  refine ⟨toBytesBE 1 (n % 256).toNat, by simp [pack_sint8, h0, h1],
    toBytesBE_length _ _, ?_⟩
  simp only [unpack_sint8, take_drop_zero_toBytesBE, toBytesBE_length, if_pos]
  rw [fromBytesBE_toBytesBE_of_lt (by norm_num; omega)]
  simp only [Option.some.injEq, Prod.mk.injEq, true_and, and_true]
  split
  · omega
  · omega

theorem roundtrip_sint16 (n : Int) (h0 : -32768 ≤ n) (h1 : n < 32768) :
    ∃ enc, pack_sint16 n = some enc ∧ enc.length = 2 ∧
      unpack_sint16 enc 0 = some (2, n) := by
  refine ⟨toBytesBE 2 (n % 65536).toNat, by simp [pack_sint16, h0, h1],
    toBytesBE_length _ _, ?_⟩
  simp only [unpack_sint16, take_drop_zero_toBytesBE, toBytesBE_length, if_pos]
  rw [fromBytesBE_toBytesBE_of_lt (by norm_num; omega)]
  simp only [Option.some.injEq, Prod.mk.injEq, true_and, and_true]
  split
  · omega
  · omega

theorem roundtrip_sint32 (n : Int) (h0 : -2147483648 ≤ n) (h1 : n < 2147483648) :
    ∃ enc, pack_sint32 n = some enc ∧ enc.length = 4 ∧
      unpack_sint32 enc 0 = some (4, n) := by
  refine ⟨toBytesBE 4 (n % 4294967296).toNat, by simp [pack_sint32, h0, h1],
    toBytesBE_length _ _, ?_⟩
  simp only [unpack_sint32, take_drop_zero_toBytesBE, toBytesBE_length, if_pos]
  rw [fromBytesBE_toBytesBE_of_lt (by norm_num; omega)]
  simp only [Option.some.injEq, Prod.mk.injEq, true_and, and_true]
  split
  · omega
  · omega

theorem roundtrip_sint64 (n : Int) (h0 : -9223372036854775808 ≤ n)
    (h1 : n < 9223372036854775808) :
    ∃ enc, pack_sint64 n = some enc ∧ enc.length = 8 ∧
      unpack_sint64 enc 0 = some (8, n) := by
  refine ⟨toBytesBE 8 (n % 18446744073709551616).toNat, by simp [pack_sint64, h0, h1],
    toBytesBE_length _ _, ?_⟩
  simp only [unpack_sint64, take_drop_zero_toBytesBE, toBytesBE_length, if_pos]
  rw [fromBytesBE_toBytesBE_of_lt (by norm_num; omega)]
  simp only [Option.some.injEq, Prod.mk.injEq, true_and, and_true]
  split
  · omega
  · omega

/-! ## Raw-bytes primitives: UUID, IPv4, IPv6, BOOLEAN -/

/-- `pack_uuid`: `uuid.bytes`, the 16 raw bytes. -/
def pack_uuid (u : List Nat) : List Nat := u

/-- `unpack_uuid`: `uuid.UUID(bytes=...)` demands exactly 16 bytes. -/
def unpack_uuid (data : List Nat) (pointer : Nat) : Option (Nat × List Nat) :=
  let s := (data.drop pointer).take 16
  if s.length = 16 then some (pointer + 16, s) else none

/-- `pack_ipv4`: `ipv4address.packed`, the 4 raw octets. -/
def pack_ipv4 (a : List Nat) : List Nat := a

/-- `unpack_ipv4`: `ipaddress.IPv4Address(...)` demands exactly 4 packed bytes. -/
def unpack_ipv4 (data : List Nat) (pointer : Nat) : Option (Nat × List Nat) :=
  let s := (data.drop pointer).take 4
  if s.length = 4 then some (pointer + 4, s) else none

/-- `pack_ipv6`: `ipv6address.packed`, the 16 raw octets. -/
def pack_ipv6 (a : List Nat) : List Nat := a

/-- `unpack_ipv6`: `ipaddress.IPv6Address(...)` demands exactly 16 packed bytes. -/
def unpack_ipv6 (data : List Nat) (pointer : Nat) : Option (Nat × List Nat) :=
  let s := (data.drop pointer).take 16
  if s.length = 16 then some (pointer + 16, s) else none

/-- `pack_boolean` from `primitives.py`. -/
def pack_boolean (boolean : Bool) : List Nat :=
  if boolean then [1] else [0]

/-- `unpack_boolean` from `primitives.py`: any non-zero byte decodes to true. -/
def unpack_boolean (data : List Nat) (pointer : Nat) : Option (Nat × Bool) :=
  match data.get? pointer with
  | none => none
  | some b => if b ≠ 0 then some (pointer + 1, true) else some (pointer + 1, false)

theorem roundtrip_fixed_slice (bs : List Nat) (k : Nat) (h : bs.length = k) :
    ((bs.drop 0).take k) = bs := by
  rw [List.drop_zero, ← h, List.take_length]

theorem roundtrip_uuid (u : List Nat) (h : u.length = 16) :
    unpack_uuid (pack_uuid u) 0 = some ((pack_uuid u).length, u) := by
  simp [unpack_uuid, pack_uuid, roundtrip_fixed_slice u 16 h, h]

theorem roundtrip_ipv4 (a : List Nat) (h : a.length = 4) :
    unpack_ipv4 (pack_ipv4 a) 0 = some ((pack_ipv4 a).length, a) := by
  simp [unpack_ipv4, pack_ipv4, roundtrip_fixed_slice a 4 h, h]

theorem roundtrip_ipv6 (a : List Nat) (h : a.length = 16) :
    unpack_ipv6 (pack_ipv6 a) 0 = some ((pack_ipv6 a).length, a) := by
  simp [unpack_ipv6, pack_ipv6, roundtrip_fixed_slice a 16 h, h]

theorem roundtrip_boolean (b : Bool) :
    unpack_boolean (pack_boolean b) 0 = some ((pack_boolean b).length, b) := by
  cases b <;> decide

/-! ## VARINT (LEB128) -/

/-- `pack_varint` from `primitives.py` (the `while integer > 127` loop);
negative Python ints make `bytes([integer])` raise, so callers restrict to
naturals. -/
def pack_varint (integer : Nat) : List Nat :=
  if h : 127 < integer then ((integer &&& 127) ||| 128) :: pack_varint (integer >>> 7)
  else [integer]
  termination_by integer
  decreasing_by
    rw [shiftRight_eq_div]
    norm_num
    omega

/-- The `while True` loop of `unpack_varint`, with its running `pointer`,
`shift` and `integer` state (out-of-range indexing is `none`). -/
def unpack_varint_loop (data : List Nat) (pointer shift integer : Nat) :
    Option (Nat × Nat) :=
  match hb : data.get? pointer with
  | none => none
  | some b =>
    if b &&& 128 = 0 then some (pointer + 1, integer ||| ((b &&& 127) <<< shift))
    else unpack_varint_loop data (pointer + 1) (shift + 7) (integer ||| ((b &&& 127) <<< shift))
  termination_by data.length - pointer
  decreasing_by
    have hlt : pointer < data.length := by
      by_contra hge
      rw [List.get?_eq_none.mpr (by omega)] at hb
      exact Option.noConfusion hb
    omega

/-- `unpack_varint` from `primitives.py`. -/
def unpack_varint (data : List Nat) (pointer : Nat) : Option (Nat × Nat) :=
  unpack_varint_loop data pointer 0 0

theorem get?_append_cons (pre : List Nat) (x : Nat) (t : List Nat) :
    (pre ++ x :: t).get? pre.length = some x := by
  induction pre with
  | nil => rfl
  | cons a pre ih => simpa using ih

theorem and_127_eq (x : Nat) : x &&& 127 = x % 128 := by
  rw [show (127 : Nat) = 2 ^ 7 - 1 from by norm_num, and_mask_eq_mod]
  norm_num

theorem and_128_eq (x : Nat) : x &&& 128 = x / 128 % 2 * 128 := by
  have h := Nat.and_two_pow x 7
  rw [Nat.testBit_to_div_mod] at h
  norm_num at h
  rw [h]
  by_cases hx : x / 128 % 2 = 1
  · simp [hx]
  · have hx0 : x / 128 % 2 = 0 := by omega
    simp [hx0]

/-- One step of the varint decode loop when the current byte exists. -/
theorem unpack_varint_loop_cons (data : List Nat) (pointer shift acc b : Nat)
    (hb : data.get? pointer = some b) :
    unpack_varint_loop data pointer shift acc =
      if b &&& 128 = 0 then some (pointer + 1, acc ||| ((b &&& 127) <<< shift))
      else unpack_varint_loop data (pointer + 1) (shift + 7)
        (acc ||| ((b &&& 127) <<< shift)) := by
  rw [unpack_varint_loop]
  split
  · next heq =>
      rw [hb] at heq
      exact Option.noConfusion heq
  · next b' heq =>
      rw [hb] at heq
      cases Option.some.inj heq
      rfl

theorem unpack_varint_loop_pack (n : Nat) :
    ∀ (pre : List Nat) (shift acc : Nat) (rest : List Nat),
    unpack_varint_loop (pre ++ pack_varint n ++ rest) pre.length shift acc
      = some (pre.length + (pack_varint n).length, acc ||| (n <<< shift)) := by
  induction n using Nat.strong_induction_on with
  | _ n ih =>
    intro pre shift acc rest
    by_cases h : 127 < n
    · have hpv : pack_varint n = ((n &&& 127) ||| 128) :: pack_varint (n >>> 7) := by
        rw [pack_varint]
        rw [dif_pos h]
      have hb0 : (n &&& 127) ||| 128 = 128 + n % 128 := by
        rw [and_127_eq, Nat.lor_comm]
        have hl := lor_dvd_eq_add 7 128 (n % 128) (by norm_num) (by norm_num; omega)
        norm_num at hl
        exact hl
      rw [hpv, hb0]
      have hget : (pre ++ (128 + n % 128) :: pack_varint (n >>> 7) ++ rest).get? pre.length
          = some (128 + n % 128) := by
        rw [List.append_assoc]
        exact get?_append_cons pre _ _
      rw [unpack_varint_loop_cons _ _ _ _ _ hget]
      rw [if_neg (by rw [and_128_eq]; omega)]
      have hassoc : pre ++ (128 + n % 128) :: pack_varint (n >>> 7) ++ rest
          = (pre ++ [128 + n % 128]) ++ pack_varint (n >>> 7) ++ rest := by
        simp
      have hlen : pre.length + 1 = (pre ++ [128 + n % 128]).length := by simp
      rw [hassoc, hlen]
      rw [ih (n >>> 7) (by rw [shiftRight_eq_div]; norm_num; omega)
        (pre ++ [128 + n % 128]) (shift + 7)
        (acc ||| ((128 + n % 128) &&& 127) <<< shift) rest]
      have hand : (128 + n % 128) &&& 127 = n % 128 := by
        rw [and_127_eq]
        omega
      have hmerge : (acc ||| (n % 128) <<< shift) ||| (n >>> 7) <<< (shift + 7)
          = acc ||| n <<< shift := by
        rw [Nat.lor_assoc]
        congr 1
        rw [shiftRight_eq_div, Nat.shiftLeft_eq, Nat.shiftLeft_eq, Nat.shiftLeft_eq]
        rw [Nat.lor_comm]
        have hd : 2 ^ (shift + 7) ∣ n / 2 ^ 7 * 2 ^ (shift + 7) := dvd_mul_left _ _
        have h128 : n % 128 < 128 := by omega
        have hp : (0 : Nat) < 2 ^ shift := Nat.pos_pow_of_pos shift (by norm_num)
        have h1 : n % 128 * 2 ^ shift < 128 * 2 ^ shift :=
          mul_lt_mul_of_pos_right h128 hp
        have h2 : 128 * 2 ^ shift = 2 ^ (shift + 7) := by
          rw [pow_add]
          norm_num
          ring
        have hlt : n % 128 * 2 ^ shift < 2 ^ (shift + 7) := by
          rw [← h2]
          exact h1
        rw [lor_dvd_eq_add (shift + 7) _ _ hd hlt]
        have hdm := Nat.div_add_mod n 128
        have hstep : n / 2 ^ 7 * 2 ^ (shift + 7) + n % 128 * 2 ^ shift
            = (128 * (n / 128) + n % 128) * 2 ^ shift := by
          rw [pow_add]
          norm_num
          ring
        rw [hstep, hdm]
      rw [hand, hmerge]
      simp only [Option.some.injEq, Prod.mk.injEq, List.length_append, List.length_cons,
        List.length_singleton, List.length_nil, and_true, true_and]
      omega
    · have hpv : pack_varint n = [n] := by
        rw [pack_varint]
        rw [dif_neg h]
      rw [hpv]
      have hget : (pre ++ [n] ++ rest).get? pre.length = some n := by
        rw [List.append_assoc]
        exact get?_append_cons pre _ _
      rw [unpack_varint_loop_cons _ _ _ _ _ hget]
      rw [if_pos (by rw [and_128_eq]; omega)]
      have hn : n &&& 127 = n := by
        rw [and_127_eq]
        omega
      rw [hn]
      rfl

/-- Round-trip of VARINT with an arbitrary suffix. -/
theorem roundtrip_varint (n : Nat) (rest : List Nat) :
    unpack_varint (pack_varint n ++ rest) 0 = some ((pack_varint n).length, n) := by
  have h := unpack_varint_loop_pack n [] 0 0 rest
  simpa [unpack_varint] using h

/-! ## DATE -/

/-- A Python `datetime.date` value. -/
structure PyDate where
  year : Nat
  month : Nat
  day : Nat
deriving DecidableEq, Repr

def isLeapYear (y : Nat) : Bool :=
  y % 4 = 0 && (y % 100 ≠ 0 || y % 400 = 0)

def daysInMonth (y m : Nat) : Nat :=
  if m = 2 then (if isLeapYear y then 29 else 28)
  else if m = 4 ∨ m = 6 ∨ m = 9 ∨ m = 11 then 30
  else 31

/-- The Gregorian validation performed by the `datetime.date` constructor
(`MINYEAR = 1`, `MAXYEAR = 9999`). -/
def validDate (y m d : Nat) : Bool :=
  1 ≤ y && y ≤ 9999 && 1 ≤ m && m ≤ 12 && 1 ≤ d && d ≤ daysInMonth y m

/-- `pack_date` from `primitives.py`. -/
def pack_date (date : PyDate) : List Nat :=
  toBytesBE 3 ((date.day <<< 19) ||| (date.month <<< 15) ||| (date.year <<< 1))

/-- `unpack_date` from `primitives.py`; constructing `datetime.date` validates
the calendar fields (`none` models the raise). -/
def unpack_date (data : List Nat) (pointer : Nat) : Option (Nat × PyDate) :=
  let integer := fromBytesBE ((data.drop pointer).take 3)
  let day := integer >>> 19
  let month := (integer >>> 15) &&& 15
  let year := (integer >>> 1) &&& 16383
  if validDate year month day then some (pointer + 3, ⟨year, month, day⟩) else none

theorem daysInMonth_le (y m : Nat) : daysInMonth y m ≤ 31 := by
  unfold daysInMonth
  split
  · split <;> omega
  · split <;> omega

theorem roundtrip_date (y m d : Nat) (hv : validDate y m d = true) :
    unpack_date (pack_date ⟨y, m, d⟩) 0 = some (3, ⟨y, m, d⟩)
      ∧ (pack_date ⟨y, m, d⟩).length = 3 := by
  have hd31 := daysInMonth_le y m
  simp only [validDate, Bool.and_eq_true, decide_eq_true_eq] at hv
  obtain ⟨⟨⟨⟨⟨hy1, hy2⟩, hm1⟩, hm2⟩, hd1⟩, hd2⟩ := hv
  have l1 : d * 2 ^ 19 ||| m * 2 ^ 15 = d * 2 ^ 19 + m * 2 ^ 15 :=
    lor_dvd_eq_add 19 (d * 2 ^ 19) (m * 2 ^ 15) (dvd_mul_left _ _) (by norm_num; omega)
  have l2 : (d * 2 ^ 19 + m * 2 ^ 15) ||| y * 2 ^ 1 = d * 2 ^ 19 + m * 2 ^ 15 + y * 2 ^ 1 :=
    lor_dvd_eq_add 15 _ _ ⟨d * 2 ^ 4 + m, by ring⟩ (by norm_num; omega)
  have hV : (d <<< 19) ||| (m <<< 15) ||| (y <<< 1)
      = d * 2 ^ 19 + m * 2 ^ 15 + y * 2 ^ 1 := by
    rw [Nat.shiftLeft_eq, Nat.shiftLeft_eq, Nat.shiftLeft_eq, l1, l2]
  have hVlt : d * 2 ^ 19 + m * 2 ^ 15 + y * 2 ^ 1 < 256 ^ 3 := by
    norm_num
    omega
  constructor
  · simp only [unpack_date, pack_date, hV, List.drop_zero, take_toBytesBE,
      fromBytesBE_toBytesBE_of_lt hVlt]
    have hday : (d * 2 ^ 19 + m * 2 ^ 15 + y * 2 ^ 1) >>> 19 = d := by
      rw [shiftRight_eq_div]
      norm_num
      omega
    have hmonth : (d * 2 ^ 19 + m * 2 ^ 15 + y * 2 ^ 1) >>> 15 &&& 15 = m := by
      rw [shiftRight_eq_div, show (15 : Nat) = 2 ^ 4 - 1 from by norm_num, and_mask_eq_mod]
      norm_num
      omega
    have hyear : (d * 2 ^ 19 + m * 2 ^ 15 + y * 2 ^ 1) >>> 1 &&& 16383 = y := by
      rw [shiftRight_eq_div, show (16383 : Nat) = 2 ^ 14 - 1 from by norm_num, and_mask_eq_mod]
      norm_num
      omega
    rw [hday, hmonth, hyear]
    rw [if_pos (by
      simp only [validDate, Bool.and_eq_true, decide_eq_true_eq]
      exact ⟨⟨⟨⟨⟨hy1, hy2⟩, hm1⟩, hm2⟩, hd1⟩, hd2⟩)]
  · simp [pack_date, toBytesBE_length]

/-! ## TIME -/

theorem toBytesBE_split (j m V : Nat) :
    toBytesBE (j + m) V = toBytesBE j (V / 256 ^ m) ++ toBytesBE m V := by
  induction m generalizing V with
  | zero => simp [toBytesBE]
  | succ m ih =>
    rw [show j + (m + 1) = (j + m) + 1 from rfl]
    rw [show toBytesBE ((j + m) + 1) V = toBytesBE (j + m) (V / 256) ++ [V % 256] from rfl]
    rw [ih]
    rw [Nat.div_div_eq_div_mul]
    rw [show 256 * 256 ^ m = 256 ^ (m + 1) from by ring]
    rw [show toBytesBE (m + 1) V = toBytesBE m (V / 256) ++ [V % 256] from rfl]
    simp [List.append_assoc]

/-- A Python `datetime.time` value; `tzoffset` is `tzinfo`'s UTC offset in
whole minutes (`none` for a naive time). -/
structure PyTime where
  hour : Nat
  minute : Nat
  second : Nat
  microsecond : Nat
  tzoffset : Option Int
deriving DecidableEq, Repr

/-- `pack_time` from `primitives.py`: flag bits are set whenever
`time.microsecond` / `time.tzinfo` are truthy, but the two timezone bytes are
only emitted when the UTC offset is non-zero. -/
def pack_time (time : PyTime) : List Nat :=
  let integer0 := (time.hour <<< 19) ||| (time.minute <<< 13) ||| (time.second <<< 7)
  let integer1 := if time.microsecond ≠ 0 then integer0 ||| (1 <<< 6) else integer0
  let integer2 := if time.tzoffset.isSome then integer1 ||| (1 <<< 5) else integer1
  let integer3 :=
    if time.microsecond ≠ 0 then (integer2 <<< 16) ||| time.microsecond else integer2
  let size3 := if time.microsecond ≠ 0 then 5 else 3
  match time.tzoffset with
  | some offset =>
    if offset ≠ 0 then
      let integer4 := integer3 <<< 16
      let integer5 := if offset < 0 then integer4 ||| (1 <<< 15) else integer4
      toBytesBE (size3 + 2) (integer5 ||| (offset.natAbs <<< 4))
    else toBytesBE size3 integer3
  | none => toBytesBE size3 integer3

/-- The validation done by `datetime.time(...)` and
`datetime.timezone(timedelta(minutes=...))` during unpacking. -/
def validTime (h m s u : Nat) (tz : Option Int) : Bool :=
  decide (h < 24) && decide (m < 60) && decide (s < 60) && decide (u < 1000000) &&
  (match tz with
   | none => true
   | some off => decide (-1440 < off) && decide (off < 1440))

/-- `unpack_time` from `primitives.py`; `(-1) ** (integer >> 15)` selects the
offset sign.  Invalid calendar fields raise (`none`). -/
def unpack_time (data : List Nat) (pointer : Nat) : Option (Nat × PyTime) :=
  let integer := fromBytesBE ((data.drop pointer).take 3)
  let hour := integer >>> 19
  let minute := (integer >>> 13) &&& 63
  let second := (integer >>> 7) &&& 63
  let microsecond :=
    if (integer >>> 6) &&& 1 ≠ 0 then
      ((integer &&& 15) <<< 16) ||| fromBytesBE ((data.drop (pointer + 3)).take 2)
    else 0
  let p1 := if (integer >>> 6) &&& 1 ≠ 0 then pointer + 5 else pointer + 3
  let integer2 := fromBytesBE ((data.drop p1).take 2)
  let tzoffset : Option Int :=
    if (integer >>> 5) &&& 1 ≠ 0 then
      some ((if integer2 >>> 15 = 0 then 1 else -1) * (((integer2 >>> 4) &&& 2047 : Nat) : Int))
    else none
  let p2 := if (integer >>> 5) &&& 1 ≠ 0 then p1 + 2 else p1
  if validTime hour minute second microsecond tzoffset then
    some (p2, ⟨hour, minute, second, microsecond, tzoffset⟩)
  else none

/-- Round-trip domain of TIME: valid time fields, and (the round-trip
restriction) an offset that is a non-zero whole number of minutes when a
timezone is present. -/
def timeOK (t : PyTime) : Prop :=
  t.hour < 24 ∧ t.minute < 60 ∧ t.second < 60 ∧ t.microsecond < 1000000 ∧
  (match t.tzoffset with
   | none => True
   | some off => off ≠ 0 ∧ -1440 < off ∧ off < 1440)

instance (t : PyTime) : Decidable (timeOK t) := by
  unfold timeOK
  match t.tzoffset with
  | none => exact inferInstanceAs (Decidable _)
  | some off => exact inferInstanceAs (Decidable _)

theorem roundtrip_time_case1 (H M S : Nat) (hH : H < 24) (hM : M < 60) (hS : S < 60) :
    unpack_time (pack_time ⟨H, M, S, 0, none⟩) 0 = some (3, ⟨H, M, S, 0, none⟩)
      ∧ (pack_time ⟨H, M, S, 0, none⟩).length = 3 := by
  have hb1 : H * 2 ^ 19 ||| M * 2 ^ 13 = H * 2 ^ 19 + M * 2 ^ 13 :=
    lor_dvd_eq_add 19 _ _ (dvd_mul_left _ _) (by norm_num; omega)
  have hb2 : (H * 2 ^ 19 + M * 2 ^ 13) ||| S * 2 ^ 7
      = H * 2 ^ 19 + M * 2 ^ 13 + S * 2 ^ 7 :=
    lor_dvd_eq_add 13 _ _ ⟨H * 2 ^ 6 + M, by ring⟩ (by norm_num; omega)
  have hB : (H <<< 19) ||| (M <<< 13) ||| (S <<< 7)
      = H * 2 ^ 19 + M * 2 ^ 13 + S * 2 ^ 7 := by
    rw [Nat.shiftLeft_eq, Nat.shiftLeft_eq, Nat.shiftLeft_eq, hb1, hb2]
  have hpack : pack_time ⟨H, M, S, 0, none⟩
      = toBytesBE 3 (H * 2 ^ 19 + M * 2 ^ 13 + S * 2 ^ 7) := by
    simp only [pack_time, hB]
    norm_num
  rw [hpack]
  have hVlt : H * 2 ^ 19 + M * 2 ^ 13 + S * 2 ^ 7 < 256 ^ 3 := by
    norm_num
    omega
  refine ⟨?_, toBytesBE_length _ _⟩
  simp only [unpack_time, List.drop_zero, take_toBytesBE, fromBytesBE_toBytesBE_of_lt hVlt]
  have hbit6 : (H * 2 ^ 19 + M * 2 ^ 13 + S * 2 ^ 7) >>> 6 &&& 1 = 0 := by
    rw [shr_and1]
    norm_num
    omega
  have hbit5 : (H * 2 ^ 19 + M * 2 ^ 13 + S * 2 ^ 7) >>> 5 &&& 1 = 0 := by
    rw [shr_and1]
    norm_num
    omega
  have hhour : (H * 2 ^ 19 + M * 2 ^ 13 + S * 2 ^ 7) >>> 19 = H := by
    rw [shiftRight_eq_div]
    norm_num
    omega
  have hminute : (H * 2 ^ 19 + M * 2 ^ 13 + S * 2 ^ 7) >>> 13 &&& 63 = M := by
    rw [shiftRight_eq_div, show (63 : Nat) = 2 ^ 6 - 1 from by norm_num, and_mask_eq_mod]
    norm_num
    omega
  have hsecond : (H * 2 ^ 19 + M * 2 ^ 13 + S * 2 ^ 7) >>> 7 &&& 63 = S := by
    rw [shiftRight_eq_div, show (63 : Nat) = 2 ^ 6 - 1 from by norm_num, and_mask_eq_mod]
    norm_num
    omega
  simp only [hbit6, hbit5, hhour, hminute, hsecond, ne_eq, not_true_eq_false,
    not_false_eq_true, if_false, ite_false, ite_true]
  norm_num
  intro hfalse
  simp [validTime, hH, hM, hS] at hfalse

theorem roundtrip_time_case2 (H M S U : Nat) (hH : H < 24) (hM : M < 60) (hS : S < 60)
    (hU0 : U ≠ 0) (hU : U < 1000000) :
    unpack_time (pack_time ⟨H, M, S, U, none⟩) 0 = some (5, ⟨H, M, S, U, none⟩)
      ∧ (pack_time ⟨H, M, S, U, none⟩).length = 5 := by
  have hb1 : H * 2 ^ 19 ||| M * 2 ^ 13 = H * 2 ^ 19 + M * 2 ^ 13 :=
    lor_dvd_eq_add 19 _ _ (dvd_mul_left _ _) (by norm_num; omega)
  have hb2 : (H * 2 ^ 19 + M * 2 ^ 13) ||| S * 2 ^ 7
      = H * 2 ^ 19 + M * 2 ^ 13 + S * 2 ^ 7 :=
    lor_dvd_eq_add 13 _ _ ⟨H * 2 ^ 6 + M, by ring⟩ (by norm_num; omega)
  have hB : (H <<< 19) ||| (M <<< 13) ||| (S <<< 7)
      = H * 2 ^ 19 + M * 2 ^ 13 + S * 2 ^ 7 := by
    rw [Nat.shiftLeft_eq, Nat.shiftLeft_eq, Nat.shiftLeft_eq, hb1, hb2]
  have h64 : (H * 2 ^ 19 + M * 2 ^ 13 + S * 2 ^ 7) ||| 64
      = H * 2 ^ 19 + M * 2 ^ 13 + S * 2 ^ 7 + 64 :=
    lor_dvd_eq_add 7 _ _ ⟨H * 2 ^ 12 + M * 2 ^ 6 + S, by ring⟩ (by norm_num)
  have hshift : (H * 2 ^ 19 + M * 2 ^ 13 + S * 2 ^ 7 + 64) <<< 16 ||| U
      = (H * 2 ^ 19 + M * 2 ^ 13 + S * 2 ^ 7 + 64) * 2 ^ 16 + U := by
    rw [Nat.shiftLeft_eq]
    exact lor_dvd_eq_add 20 _ _ ⟨(H * 2 ^ 12 + M * 2 ^ 6 + S) * 8 + 4, by ring⟩
      (by norm_num; omega)
  have hpack : pack_time ⟨H, M, S, U, none⟩
      = toBytesBE 5 ((H * 2 ^ 19 + M * 2 ^ 13 + S * 2 ^ 7 + 64) * 2 ^ 16 + U) := by
    simp only [pack_time, hB, ne_eq, hU0, not_false_eq_true, ite_true, Option.isSome_none,
      Bool.false_eq_true, ite_false]
    rw [show (1 : Nat) <<< 6 = 64 from rfl, h64, hshift]
  rw [hpack]
  have hVlt : (H * 2 ^ 19 + M * 2 ^ 13 + S * 2 ^ 7 + 64) * 2 ^ 16 + U < 256 ^ 5 := by
    norm_num
    omega
  refine ⟨?_, toBytesBE_length _ _⟩
  have hsplit : toBytesBE 5 ((H * 2 ^ 19 + M * 2 ^ 13 + S * 2 ^ 7 + 64) * 2 ^ 16 + U)
      = toBytesBE 3 (((H * 2 ^ 19 + M * 2 ^ 13 + S * 2 ^ 7 + 64) * 2 ^ 16 + U) / 65536)
        ++ toBytesBE 2 ((H * 2 ^ 19 + M * 2 ^ 13 + S * 2 ^ 7 + 64) * 2 ^ 16 + U) := by
    have h := toBytesBE_split 3 2 ((H * 2 ^ 19 + M * 2 ^ 13 + S * 2 ^ 7 + 64) * 2 ^ 16 + U)
    norm_num at h ⊢
    exact h
  have hhead : ((H * 2 ^ 19 + M * 2 ^ 13 + S * 2 ^ 7 + 64) * 2 ^ 16 + U) / 65536
      = H * 2 ^ 19 + M * 2 ^ 13 + S * 2 ^ 7 + 64 + U / 65536 := by
    norm_num
    omega
  have htake3 : ((toBytesBE 5 ((H * 2 ^ 19 + M * 2 ^ 13 + S * 2 ^ 7 + 64) * 2 ^ 16 + U)).drop 0).take 3
      = toBytesBE 3 (H * 2 ^ 19 + M * 2 ^ 13 + S * 2 ^ 7 + 64 + U / 65536) := by
    rw [List.drop_zero, hsplit, hhead]
    exact List.take_left' (toBytesBE_length _ _)
  have hfrom3 : fromBytesBE (toBytesBE 3 (H * 2 ^ 19 + M * 2 ^ 13 + S * 2 ^ 7 + 64 + U / 65536))
      = H * 2 ^ 19 + M * 2 ^ 13 + S * 2 ^ 7 + 64 + U / 65536 :=
    fromBytesBE_toBytesBE_of_lt (by norm_num; omega)
  have hdrop3take2 : ((toBytesBE 5 ((H * 2 ^ 19 + M * 2 ^ 13 + S * 2 ^ 7 + 64) * 2 ^ 16 + U)).drop 3).take 2
      = toBytesBE 2 ((H * 2 ^ 19 + M * 2 ^ 13 + S * 2 ^ 7 + 64) * 2 ^ 16 + U) := by
    rw [hsplit, List.drop_left' (toBytesBE_length _ _), take_toBytesBE]
  have hfrom2 : fromBytesBE (toBytesBE 2 ((H * 2 ^ 19 + M * 2 ^ 13 + S * 2 ^ 7 + 64) * 2 ^ 16 + U))
      = U % 65536 := by
    rw [fromBytesBE_toBytesBE]
    norm_num
    omega
  have hbit6 : (H * 2 ^ 19 + M * 2 ^ 13 + S * 2 ^ 7 + 64 + U / 65536) >>> 6 &&& 1 = 1 := by
    rw [shr_and1]
    norm_num
    omega
  have hbit5 : (H * 2 ^ 19 + M * 2 ^ 13 + S * 2 ^ 7 + 64 + U / 65536) >>> 5 &&& 1 = 0 := by
    rw [shr_and1]
    norm_num
    omega
  have hhour : (H * 2 ^ 19 + M * 2 ^ 13 + S * 2 ^ 7 + 64 + U / 65536) >>> 19 = H := by
    rw [shiftRight_eq_div]
    norm_num
    omega
  have hminute : (H * 2 ^ 19 + M * 2 ^ 13 + S * 2 ^ 7 + 64 + U / 65536) >>> 13 &&& 63 = M := by
    rw [shiftRight_eq_div, show (63 : Nat) = 2 ^ 6 - 1 from by norm_num, and_mask_eq_mod]
    norm_num
    omega
  have hsecond : (H * 2 ^ 19 + M * 2 ^ 13 + S * 2 ^ 7 + 64 + U / 65536) >>> 7 &&& 63 = S := by
    rw [shiftRight_eq_div, show (63 : Nat) = 2 ^ 6 - 1 from by norm_num, and_mask_eq_mod]
    norm_num
    omega
  have hand15 : (H * 2 ^ 19 + M * 2 ^ 13 + S * 2 ^ 7 + 64 + U / 65536) &&& 15 = U / 65536 := by
    rw [show (15 : Nat) = 2 ^ 4 - 1 from by norm_num, and_mask_eq_mod]
    norm_num
    omega
  have hmic : (U / 65536) <<< 16 ||| U % 65536 = U := by
    rw [Nat.shiftLeft_eq]
    have h := lor_dvd_eq_add 16 (U / 65536 * 2 ^ 16) (U % 65536) (dvd_mul_left _ _)
      (by norm_num; omega)
    rw [h]
    norm_num
    omega
  simp only [unpack_time, htake3, hfrom3, hbit6, hbit5, hhour, hminute, hsecond, hand15,
    Nat.zero_add, hdrop3take2, hfrom2, hmic, ne_eq, not_true_eq_false, not_false_eq_true,
    if_false, ite_false, ite_true, one_ne_zero]
  norm_num
  intro hfalse
  simp [validTime, hH, hM, hS, hU] at hfalse

theorem roundtrip_time_case3 (H M S : Nat) (m : Int) (hH : H < 24) (hM : M < 60) (hS : S < 60)
    (hm0 : m ≠ 0) (hm1 : -1440 < m) (hm2 : m < 1440) :
    unpack_time (pack_time ⟨H, M, S, 0, some m⟩) 0 = some (5, ⟨H, M, S, 0, some m⟩)
      ∧ (pack_time ⟨H, M, S, 0, some m⟩).length = 5 := by
  have hb1 : H * 2 ^ 19 ||| M * 2 ^ 13 = H * 2 ^ 19 + M * 2 ^ 13 :=
    lor_dvd_eq_add 19 _ _ (dvd_mul_left _ _) (by norm_num; omega)
  have hb2 : (H * 2 ^ 19 + M * 2 ^ 13) ||| S * 2 ^ 7
      = H * 2 ^ 19 + M * 2 ^ 13 + S * 2 ^ 7 :=
    lor_dvd_eq_add 13 _ _ ⟨H * 2 ^ 6 + M, by ring⟩ (by norm_num; omega)
  have hB : (H <<< 19) ||| (M <<< 13) ||| (S <<< 7)
      = H * 2 ^ 19 + M * 2 ^ 13 + S * 2 ^ 7 := by
    rw [Nat.shiftLeft_eq, Nat.shiftLeft_eq, Nat.shiftLeft_eq, hb1, hb2]
  have h32 : (H * 2 ^ 19 + M * 2 ^ 13 + S * 2 ^ 7) ||| 32
      = H * 2 ^ 19 + M * 2 ^ 13 + S * 2 ^ 7 + 32 :=
    lor_dvd_eq_add 6 _ _ ⟨(H * 2 ^ 12 + M * 2 ^ 6 + S) * 2, by ring⟩ (by norm_num)
  have hA : m.natAbs ≤ 1439 := by omega
  -- the sign-dependent word below the header
  by_cases hneg : m < 0
  · -- negative offset: sign bit set
    have hsg : (H * 2 ^ 19 + M * 2 ^ 13 + S * 2 ^ 7 + 32) <<< 16 ||| 32768
        = (H * 2 ^ 19 + M * 2 ^ 13 + S * 2 ^ 7 + 32) * 2 ^ 16 + 32768 := by
      rw [Nat.shiftLeft_eq]
      exact lor_dvd_eq_add 16 _ _ (dvd_mul_left _ _) (by norm_num)
    have habs : ((H * 2 ^ 19 + M * 2 ^ 13 + S * 2 ^ 7 + 32) * 2 ^ 16 + 32768) ||| m.natAbs * 2 ^ 4
        = (H * 2 ^ 19 + M * 2 ^ 13 + S * 2 ^ 7 + 32) * 2 ^ 16 + 32768 + m.natAbs * 2 ^ 4 :=
      lor_dvd_eq_add 15 _ _
        ⟨(H * 2 ^ 19 + M * 2 ^ 13 + S * 2 ^ 7 + 32) * 2 + 1, by ring⟩ (by norm_num; omega)
    have hpack : pack_time ⟨H, M, S, 0, some m⟩
        = toBytesBE 5 ((H * 2 ^ 19 + M * 2 ^ 13 + S * 2 ^ 7 + 32) * 2 ^ 16 + 32768
          + m.natAbs * 2 ^ 4) := by
      simp only [pack_time, hB, ne_eq, not_true_eq_false, ite_false, Option.isSome_some,
        ite_true, if_pos hm0, if_pos hneg]
      rw [show (1 : Nat) <<< 5 = 32 from rfl, show (1 : Nat) <<< 15 = 32768 from rfl,
        Nat.shiftLeft_eq m.natAbs 4, h32, hsg, habs]
    rw [hpack]
    refine ⟨?_, toBytesBE_length _ _⟩
    have hsplit : toBytesBE 5 ((H * 2 ^ 19 + M * 2 ^ 13 + S * 2 ^ 7 + 32) * 2 ^ 16 + 32768
        + m.natAbs * 2 ^ 4)
        = toBytesBE 3 (((H * 2 ^ 19 + M * 2 ^ 13 + S * 2 ^ 7 + 32) * 2 ^ 16 + 32768
            + m.natAbs * 2 ^ 4) / 65536)
          ++ toBytesBE 2 ((H * 2 ^ 19 + M * 2 ^ 13 + S * 2 ^ 7 + 32) * 2 ^ 16 + 32768
            + m.natAbs * 2 ^ 4) := by
      have h := toBytesBE_split 3 2 ((H * 2 ^ 19 + M * 2 ^ 13 + S * 2 ^ 7 + 32) * 2 ^ 16
        + 32768 + m.natAbs * 2 ^ 4)
      norm_num at h ⊢
      exact h
    have hhead : ((H * 2 ^ 19 + M * 2 ^ 13 + S * 2 ^ 7 + 32) * 2 ^ 16 + 32768
        + m.natAbs * 2 ^ 4) / 65536 = H * 2 ^ 19 + M * 2 ^ 13 + S * 2 ^ 7 + 32 := by
      norm_num
      omega
    have htake3 : ((toBytesBE 5 ((H * 2 ^ 19 + M * 2 ^ 13 + S * 2 ^ 7 + 32) * 2 ^ 16 + 32768
        + m.natAbs * 2 ^ 4)).drop 0).take 3
        = toBytesBE 3 (H * 2 ^ 19 + M * 2 ^ 13 + S * 2 ^ 7 + 32) := by
      rw [List.drop_zero, hsplit, hhead]
      exact List.take_left' (toBytesBE_length _ _)
    have hfrom3 : fromBytesBE (toBytesBE 3 (H * 2 ^ 19 + M * 2 ^ 13 + S * 2 ^ 7 + 32))
        = H * 2 ^ 19 + M * 2 ^ 13 + S * 2 ^ 7 + 32 :=
      fromBytesBE_toBytesBE_of_lt (by norm_num; omega)
    have hdrop3take2 : ((toBytesBE 5 ((H * 2 ^ 19 + M * 2 ^ 13 + S * 2 ^ 7 + 32) * 2 ^ 16
        + 32768 + m.natAbs * 2 ^ 4)).drop 3).take 2
        = toBytesBE 2 ((H * 2 ^ 19 + M * 2 ^ 13 + S * 2 ^ 7 + 32) * 2 ^ 16 + 32768
          + m.natAbs * 2 ^ 4) := by
      rw [hsplit, List.drop_left' (toBytesBE_length _ _), take_toBytesBE]
    have hfrom2 : fromBytesBE (toBytesBE 2 ((H * 2 ^ 19 + M * 2 ^ 13 + S * 2 ^ 7 + 32) * 2 ^ 16
        + 32768 + m.natAbs * 2 ^ 4)) = 32768 + m.natAbs * 2 ^ 4 := by
      rw [fromBytesBE_toBytesBE]
      norm_num
      omega
    have hbit6 : (H * 2 ^ 19 + M * 2 ^ 13 + S * 2 ^ 7 + 32) >>> 6 &&& 1 = 0 := by
      rw [shr_and1]
      norm_num
      omega
    have hbit5 : (H * 2 ^ 19 + M * 2 ^ 13 + S * 2 ^ 7 + 32) >>> 5 &&& 1 = 1 := by
      rw [shr_and1]
      norm_num
      omega
    have hhour : (H * 2 ^ 19 + M * 2 ^ 13 + S * 2 ^ 7 + 32) >>> 19 = H := by
      rw [shiftRight_eq_div]
      norm_num
      omega
    have hminute : (H * 2 ^ 19 + M * 2 ^ 13 + S * 2 ^ 7 + 32) >>> 13 &&& 63 = M := by
      rw [shiftRight_eq_div, show (63 : Nat) = 2 ^ 6 - 1 from by norm_num, and_mask_eq_mod]
      norm_num
      omega
    have hsecond : (H * 2 ^ 19 + M * 2 ^ 13 + S * 2 ^ 7 + 32) >>> 7 &&& 63 = S := by
      rw [shiftRight_eq_div, show (63 : Nat) = 2 ^ 6 - 1 from by norm_num, and_mask_eq_mod]
      norm_num
      omega
    have hsign : ¬ (32768 + m.natAbs * 2 ^ 4) >>> 15 = 0 := by
      rw [shiftRight_eq_div]
      omega
    have hmins : (32768 + m.natAbs * 2 ^ 4) >>> 4 &&& 2047 = m.natAbs := by
      rw [shiftRight_eq_div, show (2047 : Nat) = 2 ^ 11 - 1 from by norm_num, and_mask_eq_mod]
      norm_num
      omega
    simp only [unpack_time, htake3, hfrom3, hbit6, hbit5, hhour, hminute, hsecond,
      Nat.zero_add, hdrop3take2, hfrom2, hmins, ne_eq, not_true_eq_false, not_false_eq_true,
      if_false, ite_false, ite_true, one_ne_zero, if_neg hsign]
    norm_num
    have hmeq : (-|m| : Int) = m := by
      rw [abs_of_neg hneg]
      ring
    constructor
    · rw [hmeq]
      simp [validTime, hH, hM, hS, hm1, hm2]
    · exact hmeq
  · -- positive offset
    have hpos : 0 < m := by omega
    have habs : (H * 2 ^ 19 + M * 2 ^ 13 + S * 2 ^ 7 + 32) <<< 16 ||| m.natAbs * 2 ^ 4
        = (H * 2 ^ 19 + M * 2 ^ 13 + S * 2 ^ 7 + 32) * 2 ^ 16 + m.natAbs * 2 ^ 4 := by
      rw [Nat.shiftLeft_eq]
      exact lor_dvd_eq_add 15 _ _
        ⟨(H * 2 ^ 19 + M * 2 ^ 13 + S * 2 ^ 7 + 32) * 2, by ring⟩ (by norm_num; omega)
    have hpack : pack_time ⟨H, M, S, 0, some m⟩
        = toBytesBE 5 ((H * 2 ^ 19 + M * 2 ^ 13 + S * 2 ^ 7 + 32) * 2 ^ 16
          + m.natAbs * 2 ^ 4) := by
      simp only [pack_time, hB, ne_eq, not_true_eq_false, ite_false, Option.isSome_some,
        ite_true, if_pos hm0, if_neg hneg]
      rw [show (1 : Nat) <<< 5 = 32 from rfl, Nat.shiftLeft_eq m.natAbs 4, h32, habs]
    rw [hpack]
    refine ⟨?_, toBytesBE_length _ _⟩
    have hsplit : toBytesBE 5 ((H * 2 ^ 19 + M * 2 ^ 13 + S * 2 ^ 7 + 32) * 2 ^ 16
        + m.natAbs * 2 ^ 4)
        = toBytesBE 3 (((H * 2 ^ 19 + M * 2 ^ 13 + S * 2 ^ 7 + 32) * 2 ^ 16
            + m.natAbs * 2 ^ 4) / 65536)
          ++ toBytesBE 2 ((H * 2 ^ 19 + M * 2 ^ 13 + S * 2 ^ 7 + 32) * 2 ^ 16
            + m.natAbs * 2 ^ 4) := by
      have h := toBytesBE_split 3 2 ((H * 2 ^ 19 + M * 2 ^ 13 + S * 2 ^ 7 + 32) * 2 ^ 16
        + m.natAbs * 2 ^ 4)
      norm_num at h ⊢
      exact h
    have hhead : ((H * 2 ^ 19 + M * 2 ^ 13 + S * 2 ^ 7 + 32) * 2 ^ 16
        + m.natAbs * 2 ^ 4) / 65536 = H * 2 ^ 19 + M * 2 ^ 13 + S * 2 ^ 7 + 32 := by
      norm_num
      omega
    have htake3 : ((toBytesBE 5 ((H * 2 ^ 19 + M * 2 ^ 13 + S * 2 ^ 7 + 32) * 2 ^ 16
        + m.natAbs * 2 ^ 4)).drop 0).take 3
        = toBytesBE 3 (H * 2 ^ 19 + M * 2 ^ 13 + S * 2 ^ 7 + 32) := by
      rw [List.drop_zero, hsplit, hhead]
      exact List.take_left' (toBytesBE_length _ _)
    have hfrom3 : fromBytesBE (toBytesBE 3 (H * 2 ^ 19 + M * 2 ^ 13 + S * 2 ^ 7 + 32))
        = H * 2 ^ 19 + M * 2 ^ 13 + S * 2 ^ 7 + 32 :=
      fromBytesBE_toBytesBE_of_lt (by norm_num; omega)
    have hdrop3take2 : ((toBytesBE 5 ((H * 2 ^ 19 + M * 2 ^ 13 + S * 2 ^ 7 + 32) * 2 ^ 16
        + m.natAbs * 2 ^ 4)).drop 3).take 2
        = toBytesBE 2 ((H * 2 ^ 19 + M * 2 ^ 13 + S * 2 ^ 7 + 32) * 2 ^ 16
          + m.natAbs * 2 ^ 4) := by
      rw [hsplit, List.drop_left' (toBytesBE_length _ _), take_toBytesBE]
    have hfrom2 : fromBytesBE (toBytesBE 2 ((H * 2 ^ 19 + M * 2 ^ 13 + S * 2 ^ 7 + 32) * 2 ^ 16
        + m.natAbs * 2 ^ 4)) = m.natAbs * 2 ^ 4 := by
      rw [fromBytesBE_toBytesBE]
      norm_num
      omega
    have hbit6 : (H * 2 ^ 19 + M * 2 ^ 13 + S * 2 ^ 7 + 32) >>> 6 &&& 1 = 0 := by
      rw [shr_and1]
      norm_num
      omega
    have hbit5 : (H * 2 ^ 19 + M * 2 ^ 13 + S * 2 ^ 7 + 32) >>> 5 &&& 1 = 1 := by
      rw [shr_and1]
      norm_num
      omega
    have hhour : (H * 2 ^ 19 + M * 2 ^ 13 + S * 2 ^ 7 + 32) >>> 19 = H := by
      rw [shiftRight_eq_div]
      norm_num
      omega
    have hminute : (H * 2 ^ 19 + M * 2 ^ 13 + S * 2 ^ 7 + 32) >>> 13 &&& 63 = M := by
      rw [shiftRight_eq_div, show (63 : Nat) = 2 ^ 6 - 1 from by norm_num, and_mask_eq_mod]
      norm_num
      omega
    have hsecond : (H * 2 ^ 19 + M * 2 ^ 13 + S * 2 ^ 7 + 32) >>> 7 &&& 63 = S := by
      rw [shiftRight_eq_div, show (63 : Nat) = 2 ^ 6 - 1 from by norm_num, and_mask_eq_mod]
      norm_num
      omega
    have hsign : (m.natAbs * 2 ^ 4) >>> 15 = 0 := by
      rw [shiftRight_eq_div]
      norm_num
      omega
    have hmins : (m.natAbs * 2 ^ 4) >>> 4 &&& 2047 = m.natAbs := by
      rw [shiftRight_eq_div, show (2047 : Nat) = 2 ^ 11 - 1 from by norm_num, and_mask_eq_mod]
      norm_num
      omega
    simp only [unpack_time, htake3, hfrom3, hbit6, hbit5, hhour, hminute, hsecond,
      Nat.zero_add, hdrop3take2, hfrom2, hmins, ne_eq, not_true_eq_false, not_false_eq_true,
      if_false, ite_false, ite_true, one_ne_zero, if_pos hsign]
    norm_num
    have hmeq : (|m| : Int) = m := abs_of_pos hpos
    constructor
    · rw [hmeq]
      simp [validTime, hH, hM, hS, hm1, hm2]
    · omega

theorem roundtrip_time_case4 (H M S U : Nat) (m : Int) (hH : H < 24) (hM : M < 60)
    (hS : S < 60) (hU0 : U ≠ 0) (hU : U < 1000000)
    (hm0 : m ≠ 0) (hm1 : -1440 < m) (hm2 : m < 1440) :
    unpack_time (pack_time ⟨H, M, S, U, some m⟩) 0 = some (7, ⟨H, M, S, U, some m⟩)
      ∧ (pack_time ⟨H, M, S, U, some m⟩).length = 7 := by
  have hb1 : H * 2 ^ 19 ||| M * 2 ^ 13 = H * 2 ^ 19 + M * 2 ^ 13 :=
    lor_dvd_eq_add 19 _ _ (dvd_mul_left _ _) (by norm_num; omega)
  have hb2 : (H * 2 ^ 19 + M * 2 ^ 13) ||| S * 2 ^ 7
      = H * 2 ^ 19 + M * 2 ^ 13 + S * 2 ^ 7 :=
    lor_dvd_eq_add 13 _ _ ⟨H * 2 ^ 6 + M, by ring⟩ (by norm_num; omega)
  have hB : (H <<< 19) ||| (M <<< 13) ||| (S <<< 7)
      = H * 2 ^ 19 + M * 2 ^ 13 + S * 2 ^ 7 := by
    rw [Nat.shiftLeft_eq, Nat.shiftLeft_eq, Nat.shiftLeft_eq, hb1, hb2]
  have h64 : (H * 2 ^ 19 + M * 2 ^ 13 + S * 2 ^ 7) ||| 64
      = H * 2 ^ 19 + M * 2 ^ 13 + S * 2 ^ 7 + 64 :=
    lor_dvd_eq_add 7 _ _ ⟨H * 2 ^ 12 + M * 2 ^ 6 + S, by ring⟩ (by norm_num)
  have h96 : (H * 2 ^ 19 + M * 2 ^ 13 + S * 2 ^ 7 + 64) ||| 32
      = H * 2 ^ 19 + M * 2 ^ 13 + S * 2 ^ 7 + 96 := by
    have h := lor_dvd_eq_add 6 (H * 2 ^ 19 + M * 2 ^ 13 + S * 2 ^ 7 + 64) 32
      ⟨(H * 2 ^ 12 + M * 2 ^ 6 + S) * 2 + 1, by ring⟩ (by norm_num)
    rw [h]
  have hshiftU : (H * 2 ^ 19 + M * 2 ^ 13 + S * 2 ^ 7 + 96) <<< 16 ||| U
      = (H * 2 ^ 19 + M * 2 ^ 13 + S * 2 ^ 7 + 96) * 2 ^ 16 + U := by
    rw [Nat.shiftLeft_eq]
    exact lor_dvd_eq_add 20 _ _ ⟨(H * 2 ^ 12 + M * 2 ^ 6 + S) * 8 + 6, by ring⟩ (by omega)
  have hA : m.natAbs ≤ 1439 := by omega
  by_cases hneg : m < 0
  · have hsg : ((H * 2 ^ 19 + M * 2 ^ 13 + S * 2 ^ 7 + 96) * 2 ^ 16 + U) <<< 16 ||| 32768
        = ((H * 2 ^ 19 + M * 2 ^ 13 + S * 2 ^ 7 + 96) * 2 ^ 16 + U) * 2 ^ 16 + 32768 := by
      rw [Nat.shiftLeft_eq]
      exact lor_dvd_eq_add 16 _ _ (dvd_mul_left _ _) (by norm_num)
    have habs : (((H * 2 ^ 19 + M * 2 ^ 13 + S * 2 ^ 7 + 96) * 2 ^ 16 + U) * 2 ^ 16 + 32768)
          ||| m.natAbs * 2 ^ 4
        = ((H * 2 ^ 19 + M * 2 ^ 13 + S * 2 ^ 7 + 96) * 2 ^ 16 + U) * 2 ^ 16 + 32768
          + m.natAbs * 2 ^ 4 :=
      lor_dvd_eq_add 15 _ _
        ⟨((H * 2 ^ 19 + M * 2 ^ 13 + S * 2 ^ 7 + 96) * 2 ^ 16 + U) * 2 + 1, by ring⟩
        (by omega)
    have hpack : pack_time ⟨H, M, S, U, some m⟩
        = toBytesBE 7 (((H * 2 ^ 19 + M * 2 ^ 13 + S * 2 ^ 7 + 96) * 2 ^ 16 + U) * 2 ^ 16
          + 32768 + m.natAbs * 2 ^ 4) := by
      simp only [pack_time, hB, ne_eq, hU0, not_false_eq_true, ite_true, Option.isSome_some,
        if_pos hm0, if_pos hneg]
      rw [show (1 : Nat) <<< 6 = 64 from rfl, show (1 : Nat) <<< 5 = 32 from rfl,
        show (1 : Nat) <<< 15 = 32768 from rfl, Nat.shiftLeft_eq m.natAbs 4,
        h64, h96, hshiftU, hsg, habs]
    rw [hpack]
    refine ⟨?_, toBytesBE_length _ _⟩
    have hsplit7 : toBytesBE 7 (((H * 2 ^ 19 + M * 2 ^ 13 + S * 2 ^ 7 + 96) * 2 ^ 16 + U) * 2 ^ 16
          + 32768 + m.natAbs * 2 ^ 4)
        = toBytesBE 3 ((((H * 2 ^ 19 + M * 2 ^ 13 + S * 2 ^ 7 + 96) * 2 ^ 16 + U) * 2 ^ 16
            + 32768 + m.natAbs * 2 ^ 4) / 4294967296)
          ++ toBytesBE 4 (((H * 2 ^ 19 + M * 2 ^ 13 + S * 2 ^ 7 + 96) * 2 ^ 16 + U) * 2 ^ 16
            + 32768 + m.natAbs * 2 ^ 4) := by
      have h := toBytesBE_split 3 4 (((H * 2 ^ 19 + M * 2 ^ 13 + S * 2 ^ 7 + 96) * 2 ^ 16 + U)
        * 2 ^ 16 + 32768 + m.natAbs * 2 ^ 4)
      norm_num at h ⊢
      exact h
    have hsplit4 : toBytesBE 4 (((H * 2 ^ 19 + M * 2 ^ 13 + S * 2 ^ 7 + 96) * 2 ^ 16 + U) * 2 ^ 16
          + 32768 + m.natAbs * 2 ^ 4)
        = toBytesBE 2 ((((H * 2 ^ 19 + M * 2 ^ 13 + S * 2 ^ 7 + 96) * 2 ^ 16 + U) * 2 ^ 16
            + 32768 + m.natAbs * 2 ^ 4) / 65536)
          ++ toBytesBE 2 (((H * 2 ^ 19 + M * 2 ^ 13 + S * 2 ^ 7 + 96) * 2 ^ 16 + U) * 2 ^ 16
            + 32768 + m.natAbs * 2 ^ 4) := by
      have h := toBytesBE_split 2 2 (((H * 2 ^ 19 + M * 2 ^ 13 + S * 2 ^ 7 + 96) * 2 ^ 16 + U)
        * 2 ^ 16 + 32768 + m.natAbs * 2 ^ 4)
      norm_num at h ⊢
      exact h
    have hhead : ((((H * 2 ^ 19 + M * 2 ^ 13 + S * 2 ^ 7 + 96) * 2 ^ 16 + U) * 2 ^ 16
        + 32768 + m.natAbs * 2 ^ 4) / 4294967296)
        = H * 2 ^ 19 + M * 2 ^ 13 + S * 2 ^ 7 + 96 + U / 65536 := by
      omega
    have htake3 : ((toBytesBE 7 (((H * 2 ^ 19 + M * 2 ^ 13 + S * 2 ^ 7 + 96) * 2 ^ 16 + U)
        * 2 ^ 16 + 32768 + m.natAbs * 2 ^ 4)).drop 0).take 3
        = toBytesBE 3 (H * 2 ^ 19 + M * 2 ^ 13 + S * 2 ^ 7 + 96 + U / 65536) := by
      rw [List.drop_zero, hsplit7, hhead]
      exact List.take_left' (toBytesBE_length _ _)
    have hfrom3 : fromBytesBE (toBytesBE 3 (H * 2 ^ 19 + M * 2 ^ 13 + S * 2 ^ 7 + 96
        + U / 65536)) = H * 2 ^ 19 + M * 2 ^ 13 + S * 2 ^ 7 + 96 + U / 65536 :=
      fromBytesBE_toBytesBE_of_lt (by norm_num; omega)
    have hdrop3take2 : ((toBytesBE 7 (((H * 2 ^ 19 + M * 2 ^ 13 + S * 2 ^ 7 + 96) * 2 ^ 16 + U)
        * 2 ^ 16 + 32768 + m.natAbs * 2 ^ 4)).drop 3).take 2
        = toBytesBE 2 ((((H * 2 ^ 19 + M * 2 ^ 13 + S * 2 ^ 7 + 96) * 2 ^ 16 + U) * 2 ^ 16
            + 32768 + m.natAbs * 2 ^ 4) / 65536) := by
      rw [hsplit7, List.drop_left' (toBytesBE_length _ _), hsplit4]
      exact List.take_left' (toBytesBE_length _ _)
    have hfrommid : fromBytesBE (toBytesBE 2 ((((H * 2 ^ 19 + M * 2 ^ 13 + S * 2 ^ 7 + 96)
        * 2 ^ 16 + U) * 2 ^ 16 + 32768 + m.natAbs * 2 ^ 4) / 65536)) = U % 65536 := by
      rw [fromBytesBE_toBytesBE]
      omega
    have hdrop5take2 : ((toBytesBE 7 (((H * 2 ^ 19 + M * 2 ^ 13 + S * 2 ^ 7 + 96) * 2 ^ 16 + U)
        * 2 ^ 16 + 32768 + m.natAbs * 2 ^ 4)).drop 5).take 2
        = toBytesBE 2 (((H * 2 ^ 19 + M * 2 ^ 13 + S * 2 ^ 7 + 96) * 2 ^ 16 + U) * 2 ^ 16
            + 32768 + m.natAbs * 2 ^ 4) := by
      rw [hsplit7, hsplit4, ← List.append_assoc]
      rw [List.drop_left' (by simp [toBytesBE_length])]
      exact take_toBytesBE _ _
    have hfrom2 : fromBytesBE (toBytesBE 2 (((H * 2 ^ 19 + M * 2 ^ 13 + S * 2 ^ 7 + 96)
        * 2 ^ 16 + U) * 2 ^ 16 + 32768 + m.natAbs * 2 ^ 4)) = 32768 + m.natAbs * 2 ^ 4 := by
      rw [fromBytesBE_toBytesBE]
      omega
    have hbit6 : (H * 2 ^ 19 + M * 2 ^ 13 + S * 2 ^ 7 + 96 + U / 65536) >>> 6 &&& 1 = 1 := by
      rw [shr_and1]
      omega
    have hbit5 : (H * 2 ^ 19 + M * 2 ^ 13 + S * 2 ^ 7 + 96 + U / 65536) >>> 5 &&& 1 = 1 := by
      rw [shr_and1]
      omega
    have hhour : (H * 2 ^ 19 + M * 2 ^ 13 + S * 2 ^ 7 + 96 + U / 65536) >>> 19 = H := by
      rw [shiftRight_eq_div]
      omega
    have hminute : (H * 2 ^ 19 + M * 2 ^ 13 + S * 2 ^ 7 + 96 + U / 65536) >>> 13 &&& 63
        = M := by
      rw [shiftRight_eq_div, show (63 : Nat) = 2 ^ 6 - 1 from by norm_num, and_mask_eq_mod]
      omega
    have hsecond : (H * 2 ^ 19 + M * 2 ^ 13 + S * 2 ^ 7 + 96 + U / 65536) >>> 7 &&& 63
        = S := by
      rw [shiftRight_eq_div, show (63 : Nat) = 2 ^ 6 - 1 from by norm_num, and_mask_eq_mod]
      omega
    have hand15 : (H * 2 ^ 19 + M * 2 ^ 13 + S * 2 ^ 7 + 96 + U / 65536) &&& 15
        = U / 65536 := by
      rw [show (15 : Nat) = 2 ^ 4 - 1 from by norm_num, and_mask_eq_mod]
      omega
    have hmic : (U / 65536) <<< 16 ||| U % 65536 = U := by
      rw [Nat.shiftLeft_eq]
      have h := lor_dvd_eq_add 16 (U / 65536 * 2 ^ 16) (U % 65536) (dvd_mul_left _ _)
        (by omega)
      rw [h]
      omega
    have hsign : ¬ (32768 + m.natAbs * 2 ^ 4) >>> 15 = 0 := by
      rw [shiftRight_eq_div]
      omega
    have hmins : (32768 + m.natAbs * 2 ^ 4) >>> 4 &&& 2047 = m.natAbs := by
      rw [shiftRight_eq_div, show (2047 : Nat) = 2 ^ 11 - 1 from by norm_num, and_mask_eq_mod]
      omega
    simp only [unpack_time, htake3, hfrom3, hbit6, hbit5, hhour, hminute, hsecond, hand15,
      Nat.zero_add, hdrop3take2, hfrommid, hdrop5take2, hfrom2, hmic, hmins, ne_eq,
      not_true_eq_false, not_false_eq_true, if_false, ite_false, ite_true, one_ne_zero,
      if_neg hsign]
    norm_num
    have hmeq : (-|m| : Int) = m := by
      rw [abs_of_neg hneg]
      ring
    constructor
    · rw [hmeq]
      simp [validTime, hH, hM, hS, hU, hm1, hm2]
    · exact hmeq
  · have hpos : 0 < m := by omega
    have habs : (((H * 2 ^ 19 + M * 2 ^ 13 + S * 2 ^ 7 + 96) * 2 ^ 16 + U) * 2 ^ 16)
          ||| m.natAbs * 2 ^ 4
        = ((H * 2 ^ 19 + M * 2 ^ 13 + S * 2 ^ 7 + 96) * 2 ^ 16 + U) * 2 ^ 16
          + m.natAbs * 2 ^ 4 :=
      lor_dvd_eq_add 15 _ _
        ⟨((H * 2 ^ 19 + M * 2 ^ 13 + S * 2 ^ 7 + 96) * 2 ^ 16 + U) * 2, by ring⟩
        (by omega)
    have hpack : pack_time ⟨H, M, S, U, some m⟩
        = toBytesBE 7 (((H * 2 ^ 19 + M * 2 ^ 13 + S * 2 ^ 7 + 96) * 2 ^ 16 + U) * 2 ^ 16
          + m.natAbs * 2 ^ 4) := by
      simp only [pack_time, hB, ne_eq, hU0, not_false_eq_true, ite_true, Option.isSome_some,
        if_pos hm0, if_neg hneg]
      rw [show (1 : Nat) <<< 6 = 64 from rfl, show (1 : Nat) <<< 5 = 32 from rfl,
        Nat.shiftLeft_eq m.natAbs 4, h64, h96, hshiftU, Nat.shiftLeft_eq
        ((H * 2 ^ 19 + M * 2 ^ 13 + S * 2 ^ 7 + 96) * 2 ^ 16 + U) 16, habs]
    rw [hpack]
    refine ⟨?_, toBytesBE_length _ _⟩
    have hsplit7 : toBytesBE 7 (((H * 2 ^ 19 + M * 2 ^ 13 + S * 2 ^ 7 + 96) * 2 ^ 16 + U) * 2 ^ 16
          + m.natAbs * 2 ^ 4)
        = toBytesBE 3 ((((H * 2 ^ 19 + M * 2 ^ 13 + S * 2 ^ 7 + 96) * 2 ^ 16 + U) * 2 ^ 16
            + m.natAbs * 2 ^ 4) / 4294967296)
          ++ toBytesBE 4 (((H * 2 ^ 19 + M * 2 ^ 13 + S * 2 ^ 7 + 96) * 2 ^ 16 + U) * 2 ^ 16
            + m.natAbs * 2 ^ 4) := by
      have h := toBytesBE_split 3 4 (((H * 2 ^ 19 + M * 2 ^ 13 + S * 2 ^ 7 + 96) * 2 ^ 16 + U)
        * 2 ^ 16 + m.natAbs * 2 ^ 4)
      norm_num at h ⊢
      exact h
    have hsplit4 : toBytesBE 4 (((H * 2 ^ 19 + M * 2 ^ 13 + S * 2 ^ 7 + 96) * 2 ^ 16 + U) * 2 ^ 16
          + m.natAbs * 2 ^ 4)
        = toBytesBE 2 ((((H * 2 ^ 19 + M * 2 ^ 13 + S * 2 ^ 7 + 96) * 2 ^ 16 + U) * 2 ^ 16
            + m.natAbs * 2 ^ 4) / 65536)
          ++ toBytesBE 2 (((H * 2 ^ 19 + M * 2 ^ 13 + S * 2 ^ 7 + 96) * 2 ^ 16 + U) * 2 ^ 16
            + m.natAbs * 2 ^ 4) := by
      have h := toBytesBE_split 2 2 (((H * 2 ^ 19 + M * 2 ^ 13 + S * 2 ^ 7 + 96) * 2 ^ 16 + U)
        * 2 ^ 16 + m.natAbs * 2 ^ 4)
      norm_num at h ⊢
      exact h
    have hhead : ((((H * 2 ^ 19 + M * 2 ^ 13 + S * 2 ^ 7 + 96) * 2 ^ 16 + U) * 2 ^ 16
        + m.natAbs * 2 ^ 4) / 4294967296)
        = H * 2 ^ 19 + M * 2 ^ 13 + S * 2 ^ 7 + 96 + U / 65536 := by
      omega
    have htake3 : ((toBytesBE 7 (((H * 2 ^ 19 + M * 2 ^ 13 + S * 2 ^ 7 + 96) * 2 ^ 16 + U)
        * 2 ^ 16 + m.natAbs * 2 ^ 4)).drop 0).take 3
        = toBytesBE 3 (H * 2 ^ 19 + M * 2 ^ 13 + S * 2 ^ 7 + 96 + U / 65536) := by
      rw [List.drop_zero, hsplit7, hhead]
      exact List.take_left' (toBytesBE_length _ _)
    have hfrom3 : fromBytesBE (toBytesBE 3 (H * 2 ^ 19 + M * 2 ^ 13 + S * 2 ^ 7 + 96
        + U / 65536)) = H * 2 ^ 19 + M * 2 ^ 13 + S * 2 ^ 7 + 96 + U / 65536 :=
      fromBytesBE_toBytesBE_of_lt (by norm_num; omega)
    have hdrop3take2 : ((toBytesBE 7 (((H * 2 ^ 19 + M * 2 ^ 13 + S * 2 ^ 7 + 96) * 2 ^ 16 + U)
        * 2 ^ 16 + m.natAbs * 2 ^ 4)).drop 3).take 2
        = toBytesBE 2 ((((H * 2 ^ 19 + M * 2 ^ 13 + S * 2 ^ 7 + 96) * 2 ^ 16 + U) * 2 ^ 16
            + m.natAbs * 2 ^ 4) / 65536) := by
      rw [hsplit7, List.drop_left' (toBytesBE_length _ _), hsplit4]
      exact List.take_left' (toBytesBE_length _ _)
    have hfrommid : fromBytesBE (toBytesBE 2 ((((H * 2 ^ 19 + M * 2 ^ 13 + S * 2 ^ 7 + 96)
        * 2 ^ 16 + U) * 2 ^ 16 + m.natAbs * 2 ^ 4) / 65536)) = U % 65536 := by
      rw [fromBytesBE_toBytesBE]
      omega
    have hdrop5take2 : ((toBytesBE 7 (((H * 2 ^ 19 + M * 2 ^ 13 + S * 2 ^ 7 + 96) * 2 ^ 16 + U)
        * 2 ^ 16 + m.natAbs * 2 ^ 4)).drop 5).take 2
        = toBytesBE 2 (((H * 2 ^ 19 + M * 2 ^ 13 + S * 2 ^ 7 + 96) * 2 ^ 16 + U) * 2 ^ 16
            + m.natAbs * 2 ^ 4) := by
      rw [hsplit7, hsplit4, ← List.append_assoc]
      rw [List.drop_left' (by simp [toBytesBE_length])]
      exact take_toBytesBE _ _
    have hfrom2 : fromBytesBE (toBytesBE 2 (((H * 2 ^ 19 + M * 2 ^ 13 + S * 2 ^ 7 + 96)
        * 2 ^ 16 + U) * 2 ^ 16 + m.natAbs * 2 ^ 4)) = m.natAbs * 2 ^ 4 := by
      rw [fromBytesBE_toBytesBE]
      omega
    have hbit6 : (H * 2 ^ 19 + M * 2 ^ 13 + S * 2 ^ 7 + 96 + U / 65536) >>> 6 &&& 1 = 1 := by
      rw [shr_and1]
      omega
    have hbit5 : (H * 2 ^ 19 + M * 2 ^ 13 + S * 2 ^ 7 + 96 + U / 65536) >>> 5 &&& 1 = 1 := by
      rw [shr_and1]
      omega
    have hhour : (H * 2 ^ 19 + M * 2 ^ 13 + S * 2 ^ 7 + 96 + U / 65536) >>> 19 = H := by
      rw [shiftRight_eq_div]
      omega
    have hminute : (H * 2 ^ 19 + M * 2 ^ 13 + S * 2 ^ 7 + 96 + U / 65536) >>> 13 &&& 63
        = M := by
      rw [shiftRight_eq_div, show (63 : Nat) = 2 ^ 6 - 1 from by norm_num, and_mask_eq_mod]
      omega
    have hsecond : (H * 2 ^ 19 + M * 2 ^ 13 + S * 2 ^ 7 + 96 + U / 65536) >>> 7 &&& 63
        = S := by
      rw [shiftRight_eq_div, show (63 : Nat) = 2 ^ 6 - 1 from by norm_num, and_mask_eq_mod]
      omega
    have hand15 : (H * 2 ^ 19 + M * 2 ^ 13 + S * 2 ^ 7 + 96 + U / 65536) &&& 15
        = U / 65536 := by
      rw [show (15 : Nat) = 2 ^ 4 - 1 from by norm_num, and_mask_eq_mod]
      omega
    have hmic : (U / 65536) <<< 16 ||| U % 65536 = U := by
      rw [Nat.shiftLeft_eq]
      have h := lor_dvd_eq_add 16 (U / 65536 * 2 ^ 16) (U % 65536) (dvd_mul_left _ _)
        (by omega)
      rw [h]
      omega
    have hsign : (m.natAbs * 2 ^ 4) >>> 15 = 0 := by
      rw [shiftRight_eq_div]
      omega
    have hmins : (m.natAbs * 2 ^ 4) >>> 4 &&& 2047 = m.natAbs := by
      rw [shiftRight_eq_div, show (2047 : Nat) = 2 ^ 11 - 1 from by norm_num, and_mask_eq_mod]
      omega
    simp only [unpack_time, htake3, hfrom3, hbit6, hbit5, hhour, hminute, hsecond, hand15,
      Nat.zero_add, hdrop3take2, hfrommid, hdrop5take2, hfrom2, hmic, hmins, ne_eq,
      not_true_eq_false, not_false_eq_true, if_false, ite_false, ite_true, one_ne_zero,
      if_pos hsign]
    norm_num
    have hmeq : (|m| : Int) = m := abs_of_pos hpos
    constructor
    · rw [hmeq]
      simp [validTime, hH, hM, hS, hU, hm1, hm2]
    · omega

/-- Round-trip of TIME on its (restricted) domain. -/
theorem roundtrip_time (t : PyTime) (hok : timeOK t) :
    unpack_time (pack_time t) 0 = some ((pack_time t).length, t) := by
  obtain ⟨H, M, S, U, tz⟩ := t
  obtain ⟨hH, hM, hS, hU, htz⟩ := hok
  match tz, htz with
  | none, _ =>
    by_cases hU0 : U = 0
    · subst hU0
      have h := roundtrip_time_case1 H M S hH hM hS
      rw [h.2, h.1]
    · have h := roundtrip_time_case2 H M S U hH hM hS hU0 hU
      rw [h.2, h.1]
  | some m, htz =>
    obtain ⟨hm0, hm1, hm2⟩ := htz
    by_cases hU0 : U = 0
    · subst hU0
      have h := roundtrip_time_case3 H M S m hH hM hS hm0 hm1 hm2
      rw [h.2, h.1]
    · have h := roundtrip_time_case4 H M S U m hH hM hS hU0 hU hm0 hm1 hm2
      rw [h.2, h.1]

/-! ## BYTES and STRING -/

/-- `pack_bytes` from `primitives.py`: variable mode prefixes a SIZE; fixed
mode pads with `fill * missing` (`bytes` repetition) and raises `ValueError`
on over-length values or a missing fill with bytes to pad.  The final
`yield fill * missing` still multiplies `fill` when `missing = 0`, so
`fill=None` raises `TypeError` there even for a value of exactly the
declared size (the guard only catches `missing > 0`). -/
def pack_bytes (bytes_ : List Nat) (size : Int) (fill : Option (List Nat)) :
    Option (List Nat) :=
  if size < 0 then
    match pack_size bytes_.length with
    | some enc => some (enc ++ bytes_)
    | none => none
  else
    if (size - bytes_.length : Int) < 0
        ∨ (0 < (size - bytes_.length : Int) ∧ fill = none) then none
    else
      match fill with
      | none => none
      | some f =>
        some (bytes_ ++ (List.replicate (size - bytes_.length : Int).toNat f).flatten)

/-- `unpack_bytes` from `primitives.py` (the unused `fill` keyword is
omitted). -/
def unpack_bytes (data : List Nat) (pointer : Nat) (size : Int) :
    Option (Nat × List Nat) :=
  if size < 0 then
    match unpack_size data pointer with
    | some (p, sz) => some (p + sz, (data.drop p).take sz)
    | none => none
  else some (pointer + size.toNat, (data.drop pointer).take size.toNat)

theorem roundtrip_bytes_var (bs : List Nat) (size : Int) (fill : Option (List Nat))
    (hsz : size < 0) (h : bs.length < 590295810496146710656) :
    ∃ enc, pack_bytes bs size fill = some enc ∧
      unpack_bytes enc 0 size = some (enc.length, bs) := by
  obtain ⟨senc, hps, hlenw, hup⟩ := unpack_size_pack bs.length h bs
  refine ⟨senc ++ bs, ?_, ?_⟩
  · simp only [pack_bytes, if_pos hsz, hps]
  · simp only [unpack_bytes, if_pos hsz, hup, List.drop_left' (rfl : senc.length = _),
      List.take_length, Option.some.injEq, Prod.mk.injEq, List.length_append]

theorem roundtrip_bytes_fixed (bs : List Nat) (size : Int) (f : List Nat)
    (hsz : 0 ≤ size) (hlen : (bs.length : Int) = size) :
    pack_bytes bs size (some f) = some bs ∧
      unpack_bytes bs 0 size = some (bs.length, bs) := by
  constructor
  · simp only [pack_bytes, if_neg (by omega : ¬ size < 0)]
    rw [if_neg (by
      rintro (hbad | ⟨hbad, _⟩) <;> omega)]
    rw [show (size - bs.length : Int).toNat = 0 from by omega]
    simp
  · simp only [unpack_bytes, if_neg (by omega : ¬ size < 0), List.drop_zero]
    rw [show size.toNat = bs.length from by omega, List.take_length]
    norm_num

/-! ## UTF-8 (STRING's text codec)

Modelled from the spec: STRING "recodes the value through a text `encoding`
(default UTF-8)" via Python's codecs, which live in the language runtime, not
in this repository's sources.  A string value is modelled as its list of code
points; `utf8EncodeChar` is standard UTF-8. -/

def utf8EncodeChar (c : Nat) : List Nat :=
  if c < 128 then [c]
  else if c < 2048 then [192 + c / 64, 128 + c % 64]
  else if c < 65536 then [224 + c / 4096, 128 + c / 64 % 64, 128 + c % 64]
  else [240 + c / 262144, 128 + c / 4096 % 64, 128 + c / 64 % 64, 128 + c % 64]

def utf8Encode (cps : List Nat) : List Nat :=
  (cps.map utf8EncodeChar).flatten

/-- A Unicode scalar value: in range and not a surrogate (Python's `encode`
rejects anything else). -/
def validCp (c : Nat) : Bool :=
  decide (c < 1114112) && !(decide (55296 ≤ c) && decide (c < 57344))

/-!
Modelled from the spec: a strict UTF-8 decoder (`bytes.decode('utf-8')`),
rejecting truncated sequences, bad continuation bytes, overlong forms,
surrogates and out-of-range code points.  Split by sequence length into
mutually recursive helpers.
-/
mutual

def utf8Decode : List Nat → Option (List Nat)
  | [] => some []
  | b :: bs =>
    if b < 128 then (utf8Decode bs).map (fun cps => b :: cps)
    else if b < 224 then utf8Decode2 b bs
    else if b < 240 then utf8Decode3 b bs
    else utf8Decode4 b bs
  termination_by xs => (xs.length, 1)

def utf8Decode2 (b : Nat) : List Nat → Option (List Nat)
  | b1 :: bs2 =>
    if 194 ≤ b ∧ 128 ≤ b1 ∧ b1 < 192 then
      (utf8Decode bs2).map (fun cps => ((b - 192) * 64 + (b1 - 128)) :: cps)
    else none
  | [] => none
  termination_by xs => (xs.length, 0)

def utf8Decode3 (b : Nat) : List Nat → Option (List Nat)
  | b1 :: b2 :: bs3 =>
    if 128 ≤ b1 ∧ b1 < 192 ∧ 128 ≤ b2 ∧ b2 < 192 ∧
        2048 ≤ (b - 224) * 4096 + (b1 - 128) * 64 + (b2 - 128) ∧
        ¬(55296 ≤ (b - 224) * 4096 + (b1 - 128) * 64 + (b2 - 128) ∧
          (b - 224) * 4096 + (b1 - 128) * 64 + (b2 - 128) < 57344) then
      (utf8Decode bs3).map
        (fun cps => ((b - 224) * 4096 + (b1 - 128) * 64 + (b2 - 128)) :: cps)
    else none
  | _ => none
  termination_by xs => (xs.length, 0)

def utf8Decode4 (b : Nat) : List Nat → Option (List Nat)
  | b1 :: b2 :: b3 :: bs4 =>
    if b < 245 ∧ 128 ≤ b1 ∧ b1 < 192 ∧ 128 ≤ b2 ∧ b2 < 192 ∧ 128 ≤ b3 ∧ b3 < 192 ∧
        65536 ≤ (b - 240) * 262144 + (b1 - 128) * 4096 + (b2 - 128) * 64 + (b3 - 128) ∧
        (b - 240) * 262144 + (b1 - 128) * 4096 + (b2 - 128) * 64 + (b3 - 128)
          < 1114112 then
      (utf8Decode bs4).map (fun cps =>
        ((b - 240) * 262144 + (b1 - 128) * 4096 + (b2 - 128) * 64 + (b3 - 128)) :: cps)
    else none
  | _ => none
  termination_by xs => (xs.length, 0)

end

theorem utf8Decode_cons (b : Nat) (bs : List Nat) :
    utf8Decode (b :: bs)
      = (if b < 128 then (utf8Decode bs).map (fun cps => b :: cps)
        else if b < 224 then utf8Decode2 b bs
        else if b < 240 then utf8Decode3 b bs
        else utf8Decode4 b bs) := by
  rw [utf8Decode]

theorem utf8Decode_b1 (b : Nat) (bs : List Nat) (hb : b < 128) :
    utf8Decode (b :: bs) = (utf8Decode bs).map (fun cps => b :: cps) := by
  rw [utf8Decode_cons, if_pos hb]

theorem utf8Decode_b2 (b b1 : Nat) (bs : List Nat) (hb : ¬ b < 128) (hb' : b < 224)
    (hc : 194 ≤ b ∧ 128 ≤ b1 ∧ b1 < 192) :
    utf8Decode (b :: b1 :: bs)
      = (utf8Decode bs).map (fun cps => ((b - 192) * 64 + (b1 - 128)) :: cps) := by
  rw [utf8Decode_cons, if_neg hb, if_pos hb', utf8Decode2, if_pos hc]

theorem utf8Decode_b3 (b b1 b2 : Nat) (bs : List Nat) (hb : ¬ b < 128) (hb' : ¬ b < 224)
    (hb'' : b < 240)
    (hc : 128 ≤ b1 ∧ b1 < 192 ∧ 128 ≤ b2 ∧ b2 < 192 ∧
      2048 ≤ (b - 224) * 4096 + (b1 - 128) * 64 + (b2 - 128) ∧
      ¬(55296 ≤ (b - 224) * 4096 + (b1 - 128) * 64 + (b2 - 128) ∧
        (b - 224) * 4096 + (b1 - 128) * 64 + (b2 - 128) < 57344)) :
    utf8Decode (b :: b1 :: b2 :: bs)
      = (utf8Decode bs).map
          (fun cps => ((b - 224) * 4096 + (b1 - 128) * 64 + (b2 - 128)) :: cps) := by
  rw [utf8Decode_cons, if_neg hb, if_neg hb', if_pos hb'', utf8Decode3, if_pos hc]

theorem utf8Decode_b4 (b b1 b2 b3 : Nat) (bs : List Nat) (hb : ¬ b < 128) (hb' : ¬ b < 224)
    (hb'' : ¬ b < 240)
    (hc : b < 245 ∧ 128 ≤ b1 ∧ b1 < 192 ∧ 128 ≤ b2 ∧ b2 < 192 ∧ 128 ≤ b3 ∧ b3 < 192 ∧
      65536 ≤ (b - 240) * 262144 + (b1 - 128) * 4096 + (b2 - 128) * 64 + (b3 - 128) ∧
      (b - 240) * 262144 + (b1 - 128) * 4096 + (b2 - 128) * 64 + (b3 - 128) < 1114112) :
    utf8Decode (b :: b1 :: b2 :: b3 :: bs)
      = (utf8Decode bs).map (fun cps =>
          ((b - 240) * 262144 + (b1 - 128) * 4096 + (b2 - 128) * 64 + (b3 - 128)) :: cps)
    := by
  rw [utf8Decode_cons, if_neg hb, if_neg hb', if_neg hb'', utf8Decode4, if_pos hc]

theorem utf8_decode_encode (cps : List Nat) (h : ∀ c ∈ cps, validCp c = true) :
    utf8Decode (utf8Encode cps) = some cps := by
  induction cps with
  | nil =>
    rw [show utf8Encode [] = [] from rfl, utf8Decode]
  | cons c rest ih =>
    have hv := h c (List.mem_cons_self c rest)
    have hrest := ih (fun x hx => h x (List.mem_cons_of_mem c hx))
    simp only [validCp, Bool.and_eq_true, Bool.not_eq_eq_eq_not, Bool.not_true,
      decide_eq_true_eq, Bool.and_eq_false_iff, decide_eq_false_iff_not] at hv
    have hcons : utf8Encode (c :: rest) = utf8EncodeChar c ++ utf8Encode rest := by
      simp [utf8Encode]
    by_cases h1 : c < 128
    · rw [hcons, show utf8EncodeChar c = [c] from by simp [utf8EncodeChar, h1],
        List.cons_append, List.nil_append, utf8Decode_b1 c _ h1, hrest]
      rfl
    by_cases h2 : c < 2048
    · rw [hcons, show utf8EncodeChar c = [192 + c / 64, 128 + c % 64] from by
        simp [utf8EncodeChar, h1, h2], List.cons_append, List.cons_append, List.nil_append,
        utf8Decode_b2 _ _ _ (by omega) (by omega) (by omega), hrest]
      simp only [Option.map_some', Option.some.injEq, List.cons.injEq, and_true]
      omega
    by_cases h3 : c < 65536
    · rw [hcons, show utf8EncodeChar c = [224 + c / 4096, 128 + c / 64 % 64, 128 + c % 64]
        from by simp [utf8EncodeChar, h1, h2, h3], List.cons_append, List.cons_append,
        List.cons_append, List.nil_append,
        utf8Decode_b3 _ _ _ _ (by omega) (by omega) (by omega) (by omega), hrest]
      simp only [Option.map_some', Option.some.injEq, List.cons.injEq, and_true]
      omega
    · rw [hcons, show utf8EncodeChar c
          = [240 + c / 262144, 128 + c / 4096 % 64, 128 + c / 64 % 64, 128 + c % 64]
        from by simp [utf8EncodeChar, h1, h2, h3], List.cons_append, List.cons_append,
        List.cons_append, List.cons_append, List.nil_append,
        utf8Decode_b4 _ _ _ _ _ (by omega) (by omega) (by omega) (by omega), hrest]
      simp only [Option.map_some', Option.some.injEq, List.cons.injEq, and_true]
      omega

/-- `pack_string` from `primitives.py` (UTF-8, the default encoding). -/
def pack_string (string : List Nat) (size : Int) (fill : Option (List Nat)) :
    Option (List Nat) :=
  pack_bytes (utf8Encode string) size fill

/-- `unpack_string` from `primitives.py`. -/
def unpack_string (data : List Nat) (pointer : Nat) (size : Int) :
    Option (Nat × List Nat) :=
  match unpack_bytes data pointer size with
  | some (p, bs) =>
    match utf8Decode bs with
    | some cps => some (p, cps)
    | none => none
  | none => none

theorem roundtrip_string_var (cps : List Nat) (size : Int) (fill : Option (List Nat))
    (hsz : size < 0) (hval : ∀ c ∈ cps, validCp c = true)
    (h : (utf8Encode cps).length < 590295810496146710656) :
    ∃ enc, pack_string cps size fill = some enc ∧
      unpack_string enc 0 size = some (enc.length, cps) := by
  obtain ⟨enc, hp, hu⟩ := roundtrip_bytes_var (utf8Encode cps) size fill hsz h
  refine ⟨enc, hp, ?_⟩
  simp only [unpack_string, hu, utf8_decode_encode cps hval]

theorem roundtrip_string_fixed (cps : List Nat) (size : Int) (f : List Nat)
    (hsz : 0 ≤ size) (hval : ∀ c ∈ cps, validCp c = true)
    (hlen : ((utf8Encode cps).length : Int) = size) :
    pack_string cps size (some f) = some (utf8Encode cps) ∧
      unpack_string (utf8Encode cps) 0 size = some ((utf8Encode cps).length, cps) := by
  obtain ⟨hp, hu⟩ := roundtrip_bytes_fixed (utf8Encode cps) size f hsz hlen
  refine ⟨hp, ?_⟩
  simp only [unpack_string, hu, utf8_decode_encode cps hval]

/-! ## The primitive catalog

The catalog of `primitives.py` (`SINT8` … `BOOLEAN`), including the
parameterized `BYTES`/`STRING` derivations with their `size`/`fill` options
(the binary-float primitives `FLOAT`/`DOUBLE` are outside this model).  Each
primitive dispatches to the pack/unpack pair embedded above. -/
inductive Prim where
  | sint8 | uint8 | sint16 | uint16 | sint32 | uint32 | sint64 | uint64
  | decimal32 | decimal64 | decimal128
  | varint | size
  | uuid | ipv4 | ipv6
  | date | time
  | bytes (size : Int) (fill : Option (List Nat))
  | string (size : Int) (fill : Option (List Nat))
  | boolean
deriving DecidableEq, Repr

/-- A Python value handed to a primitive's `pack`: ints, `Decimal`s, byte
strings, text strings (as code points), dates, times, `UUID`/`IPv4Address`/
`IPv6Address` (as their packed bytes) and booleans. -/
inductive Value where
  | int (n : Int)
  | dec (d : PyDecimal)
  | bytes (bs : List Nat)
  | str (cps : List Nat)
  | date (d : PyDate)
  | time (t : PyTime)
  | uuid (bs : List Nat)
  | ip4 (bs : List Nat)
  | ip6 (bs : List Nat)
  | bool (b : Bool)
deriving DecidableEq, Repr

/-- `P.pack(v)`, concatenated.  `none` models a raised exception (including
the `TypeError`/`struct.error` on a value of the wrong runtime kind). -/
def primPack : Prim → Value → Option (List Nat)
  | .sint8, .int n => pack_sint8 n
  | .uint8, .int n => pack_uint8 n
  | .sint16, .int n => pack_sint16 n
  | .uint16, .int n => pack_uint16 n
  | .sint32, .int n => pack_sint32 n
  | .uint32, .int n => pack_uint32 n
  | .sint64, .int n => pack_sint64 n
  | .uint64, .int n => pack_uint64 n
  | .decimal32, .dec d => pack_decimal32 d
  | .decimal64, .dec d => pack_decimal64 d
  | .decimal128, .dec d => pack_decimal128 d
  | .varint, .int n => if n < 0 then none else some (pack_varint n.toNat)
  | .size, .int n => if n < 0 then none else pack_size n.toNat
  | .uuid, .uuid bs => some (pack_uuid bs)
  | .ipv4, .ip4 bs => some (pack_ipv4 bs)
  | .ipv6, .ip6 bs => some (pack_ipv6 bs)
  | .date, .date d => some (pack_date d)
  | .time, .time t => some (pack_time t)
  | .bytes sz fill, .bytes bs => pack_bytes bs sz fill
  | .string sz fill, .str cps => pack_string cps sz fill
  | .boolean, .bool b => some (pack_boolean b)
  | _, _ => none

/-- `P.unpack(data, pointer)`, the decoded value injected into `Value`. -/
def primUnpack (P : Prim) (data : List Nat) (pointer : Nat) : Option (Nat × Value) :=
  match P with
  | .sint8 => (unpack_sint8 data pointer).map (fun r => (r.1, .int r.2))
  | .uint8 => (unpack_uint8 data pointer).map (fun r => (r.1, .int r.2))
  | .sint16 => (unpack_sint16 data pointer).map (fun r => (r.1, .int r.2))
  | .uint16 => (unpack_uint16 data pointer).map (fun r => (r.1, .int r.2))
  | .sint32 => (unpack_sint32 data pointer).map (fun r => (r.1, .int r.2))
  | .uint32 => (unpack_uint32 data pointer).map (fun r => (r.1, .int r.2))
  | .sint64 => (unpack_sint64 data pointer).map (fun r => (r.1, .int r.2))
  | .uint64 => (unpack_uint64 data pointer).map (fun r => (r.1, .int r.2))
  | .decimal32 => some ((unpack_decimal32 data pointer).1, .dec (unpack_decimal32 data pointer).2)
  | .decimal64 => some ((unpack_decimal64 data pointer).1, .dec (unpack_decimal64 data pointer).2)
  | .decimal128 =>
    some ((unpack_decimal128 data pointer).1, .dec (unpack_decimal128 data pointer).2)
  | .varint => (unpack_varint data pointer).map (fun r => (r.1, .int (r.2 : Int)))
  | .size => (unpack_size data pointer).map (fun r => (r.1, .int (r.2 : Int)))
  | .uuid => (unpack_uuid data pointer).map (fun r => (r.1, .uuid r.2))
  | .ipv4 => (unpack_ipv4 data pointer).map (fun r => (r.1, .ip4 r.2))
  | .ipv6 => (unpack_ipv6 data pointer).map (fun r => (r.1, .ip6 r.2))
  | .date => (unpack_date data pointer).map (fun r => (r.1, .date r.2))
  | .time => (unpack_time data pointer).map (fun r => (r.1, .time r.2))
  | .bytes sz _ => (unpack_bytes data pointer sz).map (fun r => (r.1, .bytes r.2))
  | .string sz _ => (unpack_string data pointer sz).map (fun r => (r.1, .str r.2))
  | .boolean => (unpack_boolean data pointer).map (fun r => (r.1, .bool r.2))

instance : DecidablePred dec32OK := fun d => by
  unfold dec32OK
  match d with
  | .finite sign ds e => exact inferInstanceAs (Decidable _)
  | .infinity s => exact inferInstanceAs (Decidable _)
  | .qNaN => exact inferInstanceAs (Decidable _)
  | .sNaN => exact inferInstanceAs (Decidable _)

instance : DecidablePred dec64OK := fun d => by
  unfold dec64OK
  match d with
  | .finite sign ds e => exact inferInstanceAs (Decidable _)
  | .infinity s => exact inferInstanceAs (Decidable _)
  | .qNaN => exact inferInstanceAs (Decidable _)
  | .sNaN => exact inferInstanceAs (Decidable _)

instance : DecidablePred dec128OK := fun d => by
  unfold dec128OK
  match d with
  | .finite sign ds e => exact inferInstanceAs (Decidable _)
  | .infinity s => exact inferInstanceAs (Decidable _)
  | .qNaN => exact inferInstanceAs (Decidable _)
  | .sNaN => exact inferInstanceAs (Decidable _)

/-- The values a primitive's `pack` accepts (no exception raised), restricted
for the round-trip by the amendments: a TIME timezone offset must be a
non-zero whole number of minutes, and a fixed-size BYTES/STRING value must
occupy exactly the declared size (no `fill` padding) with a fill present —
`fill=None` at a fixed size accepts nothing, since `fill * missing` raises
`TypeError` even when `missing = 0`. -/
def rtAccepts : Prim → Value → Bool
  | .sint8, .int n => decide (-128 ≤ n ∧ n < 128)
  | .uint8, .int n => decide (0 ≤ n ∧ n < 256)
  | .sint16, .int n => decide (-32768 ≤ n ∧ n < 32768)
  | .uint16, .int n => decide (0 ≤ n ∧ n < 65536)
  | .sint32, .int n => decide (-2147483648 ≤ n ∧ n < 2147483648)
  | .uint32, .int n => decide (0 ≤ n ∧ n < 4294967296)
  | .sint64, .int n => decide (-9223372036854775808 ≤ n ∧ n < 9223372036854775808)
  | .uint64, .int n => decide (0 ≤ n ∧ n < 18446744073709551616)
  | .decimal32, .dec d => decide (dec32OK d)
  | .decimal64, .dec d => decide (dec64OK d)
  | .decimal128, .dec d => decide (dec128OK d)
  | .varint, .int n => decide (0 ≤ n)
  | .size, .int n => decide (0 ≤ n ∧ n < 590295810496146710656)
  | .uuid, .uuid bs => decide (bs.length = 16)
  | .ipv4, .ip4 bs => decide (bs.length = 4)
  | .ipv6, .ip6 bs => decide (bs.length = 16)
  | .date, .date d => validDate d.year d.month d.day
  | .time, .time t => decide (timeOK t)
  | .bytes sz fill, .bytes bs =>
    if sz < 0 then decide (bs.length < 590295810496146710656)
    else fill.isSome && decide ((bs.length : Int) = sz)
  | .string sz fill, .str cps =>
    cps.all validCp &&
      (if sz < 0 then decide ((utf8Encode cps).length < 590295810496146710656)
       else fill.isSome && decide (((utf8Encode cps).length : Int) = sz))
  | .boolean, .bool _ => true
  | _, _ => false

/-- Catalog-wide round-trip on the (amended) acceptance domain. -/
theorem primPack_unpack (P : Prim) (v : Value) (h : rtAccepts P v = true) :
    ∃ bs, primPack P v = some bs ∧ primUnpack P bs 0 = some (bs.length, v) := by
  cases P with
  | sint8 =>
    cases v with
    | int n =>
      simp only [rtAccepts, decide_eq_true_eq] at h
      obtain ⟨enc, hp, hlen, hu⟩ := roundtrip_sint8 n h.1 h.2
      exact ⟨enc, hp, by simp only [primUnpack, hu, Option.map_some']; rw [hlen]⟩
    | _ => simp [rtAccepts] at h
  | uint8 =>
    cases v with
    | int n =>
      simp only [rtAccepts, decide_eq_true_eq] at h
      obtain ⟨enc, hp, hlen, hu⟩ := roundtrip_uint8 n h.1 h.2
      exact ⟨enc, hp, by simp only [primUnpack, hu, Option.map_some']; rw [hlen]⟩
    | _ => simp [rtAccepts] at h
  | sint16 =>
    cases v with
    | int n =>
      simp only [rtAccepts, decide_eq_true_eq] at h
      obtain ⟨enc, hp, hlen, hu⟩ := roundtrip_sint16 n h.1 h.2
      exact ⟨enc, hp, by simp only [primUnpack, hu, Option.map_some']; rw [hlen]⟩
    | _ => simp [rtAccepts] at h
  | uint16 =>
    cases v with
    | int n =>
      simp only [rtAccepts, decide_eq_true_eq] at h
      obtain ⟨enc, hp, hlen, hu⟩ := roundtrip_uint16 n h.1 h.2
      exact ⟨enc, hp, by simp only [primUnpack, hu, Option.map_some']; rw [hlen]⟩
    | _ => simp [rtAccepts] at h
  | sint32 =>
    cases v with
    | int n =>
      simp only [rtAccepts, decide_eq_true_eq] at h
      obtain ⟨enc, hp, hlen, hu⟩ := roundtrip_sint32 n h.1 h.2
      exact ⟨enc, hp, by simp only [primUnpack, hu, Option.map_some']; rw [hlen]⟩
    | _ => simp [rtAccepts] at h
  | uint32 =>
    cases v with
    | int n =>
      simp only [rtAccepts, decide_eq_true_eq] at h
      obtain ⟨enc, hp, hlen, hu⟩ := roundtrip_uint32 n h.1 h.2
      exact ⟨enc, hp, by simp only [primUnpack, hu, Option.map_some']; rw [hlen]⟩
    | _ => simp [rtAccepts] at h
  | sint64 =>
    cases v with
    | int n =>
      simp only [rtAccepts, decide_eq_true_eq] at h
      obtain ⟨enc, hp, hlen, hu⟩ := roundtrip_sint64 n h.1 h.2
      exact ⟨enc, hp, by simp only [primUnpack, hu, Option.map_some']; rw [hlen]⟩
    | _ => simp [rtAccepts] at h
  | uint64 =>
    cases v with
    | int n =>
      simp only [rtAccepts, decide_eq_true_eq] at h
      obtain ⟨enc, hp, hlen, hu⟩ := roundtrip_uint64 n h.1 h.2
      exact ⟨enc, hp, by simp only [primUnpack, hu, Option.map_some']; rw [hlen]⟩
    | _ => simp [rtAccepts] at h
  | decimal32 =>
    cases v with
    | dec d =>
      simp only [rtAccepts, decide_eq_true_eq] at h
      obtain ⟨enc, hp, hlen, hu⟩ := roundtrip_decimal32 d h
      refine ⟨enc, hp, ?_⟩
      simp only [primUnpack, hu]
      rw [hlen]
    | _ => simp [rtAccepts] at h
  | decimal64 =>
    cases v with
    | dec d =>
      simp only [rtAccepts, decide_eq_true_eq] at h
      obtain ⟨enc, hp, hlen, hu⟩ := roundtrip_decimal64 d h
      refine ⟨enc, hp, ?_⟩
      simp only [primUnpack, hu]
      rw [hlen]
    | _ => simp [rtAccepts] at h
  | decimal128 =>
    cases v with
    | dec d =>
      simp only [rtAccepts, decide_eq_true_eq] at h
      obtain ⟨enc, hp, hlen, hu⟩ := roundtrip_decimal128 d h
      refine ⟨enc, hp, ?_⟩
      simp only [primUnpack, hu]
      rw [hlen]
    | _ => simp [rtAccepts] at h
  | varint =>
    cases v with
    | int n =>
      simp only [rtAccepts, decide_eq_true_eq] at h
      refine ⟨pack_varint n.toNat, by simp [primPack, not_lt.mpr h], ?_⟩
      have hu := roundtrip_varint n.toNat []
      rw [List.append_nil] at hu
      simp only [primUnpack, hu, Option.map_some']
      simp only [Option.some.injEq, Prod.mk.injEq, Value.int.injEq, true_and]
      omega
    | _ => simp [rtAccepts] at h
  | size =>
    cases v with
    | int n =>
      simp only [rtAccepts, decide_eq_true_eq] at h
      obtain ⟨enc, hp, hlenw, hu⟩ := unpack_size_pack n.toNat (by omega) []
      rw [List.append_nil] at hu
      refine ⟨enc, by simp [primPack, not_lt.mpr h.1, hp], ?_⟩
      simp only [primUnpack, hu, Option.map_some']
      simp only [Option.some.injEq, Prod.mk.injEq, Value.int.injEq, true_and]
      omega
    | _ => simp [rtAccepts] at h
  | uuid =>
    cases v with
    | uuid bs =>
      simp only [rtAccepts, decide_eq_true_eq] at h
      refine ⟨bs, rfl, ?_⟩
      have hu := roundtrip_uuid bs h
      simp only [pack_uuid] at hu
      simp only [primUnpack, hu, Option.map_some']
    | _ => simp [rtAccepts] at h
  | ipv4 =>
    cases v with
    | ip4 bs =>
      simp only [rtAccepts, decide_eq_true_eq] at h
      refine ⟨bs, rfl, ?_⟩
      have hu := roundtrip_ipv4 bs h
      simp only [pack_ipv4] at hu
      simp only [primUnpack, hu, Option.map_some']
    | _ => simp [rtAccepts] at h
  | ipv6 =>
    cases v with
    | ip6 bs =>
      simp only [rtAccepts, decide_eq_true_eq] at h
      refine ⟨bs, rfl, ?_⟩
      have hu := roundtrip_ipv6 bs h
      simp only [pack_ipv6] at hu
      simp only [primUnpack, hu, Option.map_some']
    | _ => simp [rtAccepts] at h
  | date =>
    cases v with
    | date d =>
      simp only [rtAccepts] at h
      obtain ⟨hu, hlen⟩ := roundtrip_date d.year d.month d.day h
      refine ⟨pack_date d, rfl, ?_⟩
      have hd : (⟨d.year, d.month, d.day⟩ : PyDate) = d := rfl
      rw [hd] at hu
      simp only [primUnpack, hu, Option.map_some']
      rw [hlen]
    | _ => simp [rtAccepts] at h
  | time =>
    cases v with
    | time t =>
      simp only [rtAccepts, decide_eq_true_eq] at h
      exact ⟨pack_time t, rfl, by
        simp only [primUnpack, roundtrip_time t h, Option.map_some']⟩
    | _ => simp [rtAccepts] at h
  | bytes sz fill =>
    cases v with
    | bytes bs =>
      simp only [rtAccepts] at h
      by_cases hsz : sz < 0
      · rw [if_pos hsz] at h
        simp only [decide_eq_true_eq] at h
        obtain ⟨enc, hp, hu⟩ := roundtrip_bytes_var bs sz fill hsz h
        exact ⟨enc, hp, by simp only [primUnpack, hu, Option.map_some']⟩
      · rw [if_neg hsz] at h
        simp only [Bool.and_eq_true, Option.isSome_iff_exists, decide_eq_true_eq] at h
        obtain ⟨⟨f, hf⟩, hlen⟩ := h
        subst hf
        obtain ⟨hp, hu⟩ := roundtrip_bytes_fixed bs sz f (by omega) hlen
        exact ⟨bs, hp, by simp only [primUnpack, hu, Option.map_some']⟩
    | _ => simp [rtAccepts] at h
  | string sz fill =>
    cases v with
    | str cps =>
      simp only [rtAccepts, Bool.and_eq_true, List.all_eq_true] at h
      obtain ⟨hval, hrest⟩ := h
      by_cases hsz : sz < 0
      · rw [if_pos hsz] at hrest
        simp only [decide_eq_true_eq] at hrest
        obtain ⟨enc, hp, hu⟩ := roundtrip_string_var cps sz fill hsz hval hrest
        exact ⟨enc, hp, by simp only [primUnpack, hu, Option.map_some']⟩
      · rw [if_neg hsz] at hrest
        simp only [Bool.and_eq_true, Option.isSome_iff_exists, decide_eq_true_eq] at hrest
        obtain ⟨⟨f, hf⟩, hlen⟩ := hrest
        subst hf
        obtain ⟨hp, hu⟩ := roundtrip_string_fixed cps sz f (by omega) hval hlen
        exact ⟨utf8Encode cps, hp, by simp only [primUnpack, hu, Option.map_some']⟩
    | _ => simp [rtAccepts] at h
  | boolean =>
    cases v with
    | bool b =>
      exact ⟨pack_boolean b, rfl, by
        simp only [primUnpack, roundtrip_boolean b, Option.map_some']⟩
    | _ => simp [rtAccepts] at h

/-! ## The dynamic codec (`dynamic.py`)

`dynamic.pack` dispatches on the runtime kind of its argument and yields a
constructor byte followed by a payload; `dynamic.unpack` dispatches on the
constructor byte.  Values are embedded as `DynValue`: Python floats carry
their IEEE-754 binary64 bit pattern, strings their code points, addresses
and UUIDs their packed bytes.  `Control.END` is `endSentinel`; `other`
stands for any object of an unsupported runtime kind (such as a `set`). -/
inductive DynValue where
  | bool (b : Bool)
  | int (n : Int)
  | float (bits : Nat)
  | str (cps : List Nat)
  | bytes (bs : List Nat)
  | null
  | seq (items : List DynValue)
  | map (pairs : List (DynValue × DynValue))
  | dec (d : PyDecimal)
  | ip4 (bs : List Nat)
  | ip6 (bs : List Nat)
  | uuid (bs : List Nat)
  | endSentinel
  | other
deriving Repr

mutual

/-- `dynamic.pack`, concatenated (`dynamic.encode`).  `none` models a raised
exception; a value that matches no dispatch branch yields nothing, giving
`some []`. -/
def dynPack : DynValue → Option (List Nat)
  | .bool true => some [205]
  | .bool false => some [206]
  | .int n =>
    if n < 0 then
      let m := (-n).toNat
      if m < 32 then some [32 ||| m]
      else if m < 2 ^ 8 then some (193 :: toBytesBE 1 m)
      else if m < 2 ^ 16 then some (195 :: toBytesBE 2 m)
      else if m < 2 ^ 32 then some (197 :: toBytesBE 4 m)
      else if m < 2 ^ 64 then some (199 :: toBytesBE 8 m)
      else some []
    else
      let m := n.toNat
      if m < 32 then some [m]
      else if m < 2 ^ 8 then some (192 :: toBytesBE 1 m)
      else if m < 2 ^ 16 then some (194 :: toBytesBE 2 m)
      else if m < 2 ^ 32 then some (196 :: toBytesBE 4 m)
      else if m < 2 ^ 64 then some (198 :: toBytesBE 8 m)
      else some []
  | .float bits => some (200 :: toBytesBE 8 bits)
  | .str cps =>
    let encoded := utf8Encode cps
    let length := encoded.length
    (if length < 32 then some [64 ||| length]
     else if length < 2 ^ 8 then some (216 :: toBytesBE 1 length)
     else if length < 2 ^ 16 then some (217 :: toBytesBE 2 length)
     else if length < 2 ^ 32 then some (218 :: toBytesBE 4 length)
     else if length < 2 ^ 64 then some (219 :: toBytesBE 8 length)
     else none).map (· ++ encoded)
  | .bytes bs =>
    let length := bs.length
    (if length < 32 then some [96 ||| length]
     else if length < 2 ^ 8 then some (220 :: toBytesBE 1 length)
     else if length < 2 ^ 16 then some (221 :: toBytesBE 2 length)
     else if length < 2 ^ 32 then some (222 :: toBytesBE 4 length)
     else if length < 2 ^ 64 then some (223 :: toBytesBE 8 length)
     else none).map (· ++ bs)
  | .null => some [207]
  | .seq items =>
    let length := items.length
    match dynPackList items with
    | none => none
    | some body =>
      some ((if length < 32 then [128 ||| length] else [213]) ++ body
        ++ (if 31 < length then [215] else []))
  | .map pairs =>
    let length := pairs.length
    match dynPackPairs pairs with
    | none => none
    | some body =>
      some ((if length < 32 then [160 ||| length] else [214]) ++ body
        ++ (if 31 < length then [215] else []))
  | .dec d =>
    match pack_decimal128 d with
    | none => none
    | some enc => some (204 :: enc)
  | .ip4 bs => some (210 :: bs)
  | .ip6 bs => some (211 :: bs)
  | .uuid bs => some (212 :: bs)
  | .endSentinel => some []
  | .other => some []

/-- The `for item in structure` loop of the sequence branch. -/
def dynPackList : List DynValue → Option (List Nat)
  | [] => some []
  | v :: vs =>
    match dynPack v with
    | none => none
    | some enc =>
      match dynPackList vs with
      | none => none
      | some rest => some (enc ++ rest)

/-- The `for key, value in structure.items()` loop of the mapping branch. -/
def dynPackPairs : List (DynValue × DynValue) → Option (List Nat)
  | [] => some []
  | (k, v) :: rest =>
    match dynPack k with
    | none => none
    | some ek =>
      match dynPack v with
      | none => none
      | some ev =>
        match dynPackPairs rest with
        | none => none
        | some er => some (ek ++ ev ++ er)

end

/-- `dynamic.encode`: the joined fragments of `pack`. -/
def dynEncode (v : DynValue) : Option (List Nat) := dynPack v

/-- Exact IEEE-754 binary32 → binary64 widening on bit patterns: the
conversion CPython performs when `struct_float.unpack` turns 4 bytes into a
Python float. -/
def f32Widen (b : Nat) : Nat :=
  let s := b >>> 31
  let e := (b >>> 23) &&& 255
  let m := b &&& 8388607
  if e = 255 then (s <<< 63) ||| (2047 <<< 52) ||| (m <<< 29)
  else if e = 0 then
    if m = 0 then s <<< 63
    else
      let t := Nat.log2 m
      (s <<< 63) ||| ((t + 874) <<< 52) ||| ((m <<< (52 - t)) % 2 ^ 52)
  else (s <<< 63) ||| ((e + 896) <<< 52) ||| (m <<< 29)

mutual

/-- `dynamic.unpack`, with explicit recursion fuel (Python's limit is the
interpreter's recursion depth).  `none` models a raised exception: an index
out of range, a `struct.error` on a short slice, a UTF-8 decode error, the
`NameError` in the branches for constructors 217–219 and 221–223 (their
`struct_uint16`/`struct_uint32` names are unbound in `dynamic.py`), the
`UnboundLocalError` for a group-7 constructor (no branch assigns
`structure`), and the `ipaddress`/`uuid` constructor errors on slices of
the wrong length (`IPv4Address` requires 4 packed bytes, `IPv6Address` 16,
`UUID` 16). -/
def dynUnpack : Nat → List Nat → Nat → Option (Nat × DynValue)
  | 0, _, _ => none
  | f + 1, buffer, pointer =>
    match buffer.get? pointer with
    | none => none
    | some constructor =>
      let p := pointer + 1
      let group := constructor >>> 5
      if group = 0 then some (p, .int constructor)
      else if group = 1 then some (p, .int (-((constructor &&& 31 : Nat) : Int)))
      else if group = 2 then
        let length := constructor &&& 31
        match utf8Decode ((buffer.drop p).take length) with
        | none => none
        | some cps => some (p + length, .str cps)
      else if group = 3 then
        let length := constructor &&& 31
        some (p + length, .bytes ((buffer.drop p).take length))
      else if group = 4 then
        match dynUnpackCount f buffer p (constructor &&& 31) with
        | none => none
        | some (p2, items) => some (p2, .seq items)
      else if group = 5 then
        match dynUnpackPairsCount f buffer p (constructor &&& 31) with
        | none => none
        | some (p2, pairs) => some (p2, .map pairs)
      else if group = 6 then
        if constructor = 192 then
          match buffer.get? p with
          | none => none
          | some b => some (p + 1, .int b)
        else if constructor = 193 then
          match buffer.get? p with
          | none => none
          | some b => some (p + 1, .int (-(b : Int)))
        else if constructor = 194 then
          let data := (buffer.drop p).take 2
          if data.length = 2 then some (p + 2, .int (fromBytesBE data)) else none
        else if constructor = 195 then
          let data := (buffer.drop p).take 2
          if data.length = 2 then some (p + 2, .int (-((fromBytesBE data : Nat) : Int)))
          else none
        else if constructor = 196 then
          let data := (buffer.drop p).take 4
          if data.length = 4 then some (p + 4, .int (fromBytesBE data)) else none
        else if constructor = 197 then
          let data := (buffer.drop p).take 4
          if data.length = 4 then some (p + 4, .int (-((fromBytesBE data : Nat) : Int)))
          else none
        else if constructor = 198 then
          let data := (buffer.drop p).take 8
          if data.length = 8 then some (p + 8, .int (fromBytesBE data)) else none
        else if constructor = 199 then
          let data := (buffer.drop p).take 8
          if data.length = 8 then some (p + 8, .int (-((fromBytesBE data : Nat) : Int)))
          else none
        else if constructor = 200 then
          let data := (buffer.drop p).take 4
          if data.length = 4 then some (p + 4, .float (f32Widen (fromBytesBE data)))
          else none
        else if constructor = 201 then
          let data := (buffer.drop p).take 8
          if data.length = 8 then some (p + 8, .float (fromBytesBE data)) else none
        else if constructor = 202 then
          if buffer.length < p + 4 then none
          else
            let r := unpack_decimal32 buffer p
            some (r.1, .dec r.2)
        else if constructor = 203 then
          if buffer.length < p + 8 then none
          else
            let r := unpack_decimal64 buffer p
            some (r.1, .dec r.2)
        else if constructor = 204 then
          if buffer.length < p + 16 then none
          else
            let r := unpack_decimal128 buffer p
            some (r.1, .dec r.2)
        else if constructor = 205 then some (p, .bool true)
        else if constructor = 206 then some (p, .bool false)
        else if constructor = 207 then some (p, .null)
        else if constructor = 208 then
          match unpack_varint buffer p with
          | none => none
          | some (p2, i) => some (p2, .int i)
        else if constructor = 209 then
          match unpack_varint buffer p with
          | none => none
          | some (p2, i) => some (p2, .int (-(i : Int)))
        else if constructor = 210 then
          let data := (buffer.drop p).take 4
          if data.length = 4 then some (p + 4, .ip4 data) else none
        else if constructor = 211 then
          let data := (buffer.drop p).take 8
          if data.length = 16 then some (p + 8, .ip6 data) else none
        else if constructor = 212 then
          let data := (buffer.drop p).take 16
          if data.length = 16 then some (p + 16, .uuid data) else none
        else if constructor = 213 then
          match dynUnpackIndef f buffer p with
          | none => none
          | some (p2, items) => some (p2, .seq items)
        else if constructor = 214 then
          match dynUnpackPairsIndef f buffer p with
          | none => none
          | some (p2, pairs) => some (p2, .map pairs)
        else if constructor = 215 then some (p, .endSentinel)
        else if constructor = 216 then
          match buffer.get? p with
          | none => none
          | some length =>
            match utf8Decode ((buffer.drop (p + 1)).take length) with
            | none => none
            | some cps => some (p + 1 + length, .str cps)
        else if constructor = 217 then none
        else if constructor = 218 then none
        else if constructor = 219 then none
        else if constructor = 220 then
          match buffer.get? p with
          | none => none
          | some length => some (p + 1 + length, .bytes ((buffer.drop (p + 1)).take length))
        else none
      else none
termination_by structural f => f

/-- The `for index in range(length)` loop of the group-4 branch. -/
def dynUnpackCount : Nat → List Nat → Nat → Nat → Option (Nat × List DynValue)
  | 0, _, _, _ => none
  | f + 1, buffer, pointer, count =>
    match count with
    | 0 => some (pointer, [])
    | c + 1 =>
      match dynUnpack f buffer pointer with
      | none => none
      | some (p, v) =>
        match dynUnpackCount f buffer p c with
        | none => none
        | some (p2, vs) => some (p2, v :: vs)
termination_by structural f => f

/-- The key/value loop of the group-5 branch. -/
def dynUnpackPairsCount : Nat → List Nat → Nat → Nat → Option (Nat × List (DynValue × DynValue))
  | 0, _, _, _ => none
  | f + 1, buffer, pointer, count =>
    match count with
    | 0 => some (pointer, [])
    | c + 1 =>
      match dynUnpack f buffer pointer with
      | none => none
      | some (p, k) =>
        match dynUnpack f buffer p with
        | none => none
        | some (p2, v) =>
          match dynUnpackPairsCount f buffer p2 c with
          | none => none
          | some (p3, kvs) => some (p3, (k, v) :: kvs)
termination_by structural f => f

/-- The `while True` loop of the constructor-213 branch (indefinite
sequence, terminated by `Control.END`). -/
def dynUnpackIndef : Nat → List Nat → Nat → Option (Nat × List DynValue)
  | 0, _, _ => none
  | f + 1, buffer, pointer =>
    match dynUnpack f buffer pointer with
    | none => none
    | some (p, .endSentinel) => some (p, [])
    | some (p, v) =>
      match dynUnpackIndef f buffer p with
      | none => none
      | some (p2, vs) => some (p2, v :: vs)
termination_by structural f => f

/-- The `while True` loop of the constructor-214 branch (indefinite
mapping, terminated by `Control.END` in key position). -/
def dynUnpackPairsIndef : Nat → List Nat → Nat → Option (Nat × List (DynValue × DynValue))
  | 0, _, _ => none
  | f + 1, buffer, pointer =>
    match dynUnpack f buffer pointer with
    | none => none
    | some (p, .endSentinel) => some (p, [])
    | some (p, k) =>
      match dynUnpack f buffer p with
      | none => none
      | some (p2, v) =>
        match dynUnpackPairsIndef f buffer p2 with
        | none => none
        | some (p3, kvs) => some (p3, (k, v) :: kvs)
termination_by structural f => f

end

/-- `dynamic.decode`: `unpack(buffer)[1]`.  The fuel bound suffices because
every recursive `unpack` call first consumes a constructor byte. -/
def dynDecode (buffer : List Nat) : Option DynValue :=
  match dynUnpack (buffer.length + 1) buffer 0 with
  | none => none
  | some (_, v) => some v

/-! ## Ordered dictionaries

Python `dict`/`OrderedDict` as association lists in insertion order:
assigning to an existing key keeps its position, a new key is appended. -/

/-- `d[k] = v` on a `dict`. -/
def odSet {α : Type} (d : List (String × α)) (k : String) (v : α) :
    List (String × α) :=
  if d.any (fun p => p.1 = k) then d.map (fun p => if p.1 = k then (k, v) else p)
  else d ++ [(k, v)]

/-- `d1.update(d2)` on a `dict`. -/
def odUpdate {α : Type} (d upd : List (String × α)) : List (String × α) :=
  upd.foldl (fun acc p => odSet acc p.1 p.2) d

/-- `d.get(k)` on a `dict`. -/
def odGet {α : Type} (d : List (String × α)) (k : String) : Option α :=
  (d.find? (fun p => p.1 = k)).map (fun p => p.2)

/-- `d1 == d2` on `dict`s: same keys, equal values (insertion order is
ignored by Python's `dict.__eq__`). -/
def odEq (d1 d2 : List (String × Nat)) : Bool :=
  d1.all (fun p => odGet d2 p.1 = some p.2) && d2.all (fun p => odGet d1 p.1 = some p.2)

/-! ## `Primitive.__call__` and `Primitive.__eq__` (`primitives.py`)

A `Primitive` object reachable from the catalog: `oid` models object
identity (`id(self)`), `options` the merged option dict, `base` the identity
of the un-derived catalog primitive this one was derived from (`None` for
the catalog primitives themselves, whose `options` are empty). -/
structure PrimObj where
  oid : Nat
  options : List (String × Nat)
  base : Option Nat
deriving Repr, DecidableEq

/-- `Primitive.__call__(**options)`: merge the option dicts and keep the
original base (`self.base or self`).  `newOid` is the fresh object's
identity. -/
def primCall (p : PrimObj) (newOid : Nat) (options : List (String × Nat)) : PrimObj :=
  { oid := newOid, options := odUpdate p.options options,
    base := some (p.base.getD p.oid) }

/-- `Primitive.__eq__`.  `none` models a raised `AssertionError`: when
exactly one side is derived, `self.base == other.base` compares a
`Primitive` with `None`, and `Primitive.__eq__`'s
`assert isinstance(other, Primitive)` fails (directly, or via the reflected
call when the left side is `None`). -/
def primEq (a b : PrimObj) : Option Bool :=
  match a.base, b.base with
  | none, none => some (a.oid == b.oid)
  | some ba, some bb => some ((ba == bb) && odEq a.options b.options)
  | some _, none => none
  | none, some _ => none

/-! ## `StructureMeta.__new__` (`structure.py`)

The class body of a `Structure` subclass as the metaclass sees it: an
ordered dict of member names.  A `fieldLike` value is one the field scan
picks up (a `Field`, an `ABCType`, a value whose `type` attribute is an
`ABCType`, or an enum class) — the tag identifies the resulting field.  A
`fieldsList` value is an explicit list of `(name, field)` pairs (only
meaningful under the key `fields`).  `plain` is any other value (methods,
strings, ...), which the scan skips. -/
inductive MemberVal where
  | fieldLike (tag : Nat)
  | fieldsList (l : List (String × Nat))
  | plain
deriving Repr, DecidableEq

/-- The field collection of `StructureMeta.__new__`: `members['name'] = name`
first (the class name, a string, hence `plain`), then `fields` starts from
the base's fields and each field-like member is assigned in member order,
then an explicit `fields` member's pairs are assigned.  `none` models the
`TypeError` of iterating a `fields` member that is not a list of pairs. -/
def structureFields (baseFields : List (String × Nat))
    (members : List (String × MemberVal)) : Option (List (String × Nat)) :=
  let members2 := odSet members "name" .plain
  let fields1 := members2.foldl (fun fields p =>
    match p.2 with
    | .fieldLike tag => odSet fields p.1 tag
    | _ => fields) baseFields
  match odGet members2 "fields" with
  | some (.fieldsList l) => some (l.foldl (fun fields p => odSet fields p.1 p.2) fields1)
  | some _ => none
  | Option.none => some fields1

/-- The field-like declarations of a class body, in declaration order. -/
def declsOf (members : List (String × MemberVal)) : List (String × Nat) :=
  members.filterMap (fun p =>
    match p.2 with
    | .fieldLike tag => some (p.1, tag)
    | _ => none)

/-- Modelled from the spec: base fields first in base order, each overridden
in place by a redeclaration, followed by the newly declared fields in
declaration order. -/
def claimFields (baseFields decls : List (String × Nat)) : List (String × Nat) :=
  baseFields.map (fun p =>
    match decls.find? (fun q => q.1 = p.1) with
    | some q => (p.1, q.2)
    | none => p)
  ++ decls.filter (fun q => !(baseFields.any (fun p => p.1 = q.1)))

theorem find?_cons_ne (rest : List (String × Nat)) (k x : String) (v : Nat) (h : k ≠ x) :
    ((k, v) :: rest).find? (fun q => q.1 = x) = rest.find? (fun q => q.1 = x) := by
  rw [List.find?_cons_of_neg]
  simp [h]

theorem find?_none_of_not_mem (rest : List (String × Nat)) (k : String)
    (hk : k ∉ rest.map Prod.fst) :
    rest.find? (fun q => q.1 = k) = none := by
  rw [List.find?_eq_none]
  intro x hx
  simp only [decide_eq_true_eq]
  intro hxk
  exact hk (hxk ▸ List.mem_map_of_mem Prod.fst hx)

theorem claimFields_odSet (base rest : List (String × Nat)) (k : String) (v : Nat)
    (hk : k ∉ rest.map Prod.fst) :
    claimFields (odSet base k v) rest = claimFields base ((k, v) :: rest) := by
  have h4 : rest.find? (fun q => q.1 = k) = none := find?_none_of_not_mem rest k hk
  by_cases hmem : ∃ p ∈ base, p.1 = k
  · have hany : base.any (fun p => p.1 = k) = true := by
      rw [List.any_eq_true]
      obtain ⟨p, hp, hpk⟩ := hmem
      exact ⟨p, hp, by simp [hpk]⟩
    unfold odSet claimFields
    rw [if_pos hany]
    congr 1
    · rw [List.map_map]
      apply List.map_congr_left
      rintro ⟨pk, pv⟩ hp
      simp only [Function.comp_apply]
      by_cases hpk : pk = k
      · subst hpk
        have h2 : ((pk, v) :: rest).find? (fun q => q.1 = pk) = some (pk, v) := by
          rw [List.find?_cons_of_pos _ (by simp)]
        have h4b : rest.find? (fun q => q.1 = pk) = none := find?_none_of_not_mem rest pk hk
        simp only [if_pos rfl, if_true, h2, h4b]
      · have h5 : ((k, v) :: rest).find? (fun q => q.1 = pk) = rest.find? (fun q => q.1 = pk) :=
          find?_cons_ne rest k pk v (Ne.symm hpk)
        simp only [if_neg hpk, h5]
    · rw [List.filter_cons]
      rw [show (!(base.any (fun p => p.1 = (k, v).1))) = false by simp [hany]]
      simp only [Bool.false_eq_true, if_false]
      apply List.filter_congr
      intro q _
      rw [List.any_map]
      have hfun : ((fun p => decide (p.1 = q.1)) ∘ fun p : String × Nat =>
          if p.1 = k then (k, v) else p) = (fun p : String × Nat => decide (p.1 = q.1)) := by
        funext p
        simp only [Function.comp_apply]
        by_cases hpk : p.1 = k
        · simp [hpk]
        · simp [hpk]
      rw [hfun]
  · have hany : base.any (fun p => p.1 = k) = false := by
      rw [Bool.eq_false_iff]
      intro hc
      rw [List.any_eq_true] at hc
      obtain ⟨p, hp, hpk⟩ := hc
      exact hmem ⟨p, hp, by simpa using hpk⟩
    unfold odSet claimFields
    rw [if_neg (by simp [hany])]
    rw [List.map_append, List.filter_cons]
    have hmapbase : base.map (fun p =>
        match ((k, v) :: rest).find? (fun q => q.1 = p.1) with
        | some q => (p.1, q.2)
        | none => p)
        = base.map (fun p =>
        match rest.find? (fun q => q.1 = p.1) with
        | some q => (p.1, q.2)
        | none => p) := by
      apply List.map_congr_left
      intro p hp
      have hpk : ¬ p.1 = k := fun he => hmem ⟨p, hp, he⟩
      have h5 : ((k, v) :: rest).find? (fun q => q.1 = p.1) = rest.find? (fun q => q.1 = p.1) :=
        find?_cons_ne rest k p.1 v (Ne.symm hpk)
      rw [h5]
    have hmapone : ([((k : String), (v : Nat))].map (fun p =>
        match rest.find? (fun q => q.1 = p.1) with
        | some q => (p.1, q.2)
        | none => p)) = [(k, v)] := by
      simp only [List.map_cons, List.map_nil, h4]
    have hfilterrest : rest.filter (fun q => !((base ++ [(k, v)]).any (fun p => p.1 = q.1)))
        = rest.filter (fun q => !(base.any (fun p => p.1 = q.1))) := by
      apply List.filter_congr
      intro q hq
      have hqk : ¬ k = q.1 := by
        intro he
        exact hk (he.symm ▸ List.mem_map_of_mem Prod.fst hq)
      have h6 : ([((k : String), (v : Nat))].any (fun p => p.1 = q.1)) = false := by
        simp only [List.any_cons, List.any_nil, Bool.or_false, decide_eq_false_iff_not]
        exact hqk
      rw [List.any_append, h6, Bool.or_false]
    rw [hmapbase, hmapone, hfilterrest]
    rw [show (!(base.any (fun p => p.1 = (k, v).1))) = true by simp [hany]]
    simp only [if_true]
    rw [List.append_assoc]
    rfl

theorem foldl_odSet_claimFields (decls : List (String × Nat))
    (hd : (decls.map Prod.fst).Nodup) (base : List (String × Nat)) :
    decls.foldl (fun fields p => odSet fields p.1 p.2) base = claimFields base decls := by
  induction decls generalizing base with
  | nil =>
    unfold claimFields
    simp
  | cons kv rest ih =>
    obtain ⟨k, v⟩ := kv
    simp only [List.map_cons, List.nodup_cons] at hd
    obtain ⟨hk, hrest⟩ := hd
    rw [List.foldl_cons, ih hrest (odSet base k v)]
    exact claimFields_odSet base rest k v hk

theorem foldl_members_eq_foldl_decls (members : List (String × MemberVal))
    (base : List (String × Nat)) :
    members.foldl (fun fields p =>
      match p.2 with
      | .fieldLike tag => odSet fields p.1 tag
      | _ => fields) base
      = (declsOf members).foldl (fun fields p => odSet fields p.1 p.2) base := by
  induction members generalizing base with
  | nil => rfl
  | cons m rest ih =>
    obtain ⟨k, mv⟩ := m
    cases mv with
    | fieldLike tag => simp only [declsOf, List.filterMap_cons, List.foldl_cons, ih]
    | fieldsList l => simp only [declsOf, List.filterMap_cons, List.foldl_cons, ih]
    | plain => simp only [declsOf, List.filterMap_cons, List.foldl_cons, ih]

theorem declsOf_keys_sublist (members : List (String × MemberVal)) :
    ((declsOf members).map Prod.fst).Sublist (members.map Prod.fst) := by
  induction members with
  | nil => simp [declsOf]
  | cons m rest ih =>
    obtain ⟨k, mv⟩ := m
    cases mv with
    | fieldLike tag =>
      simp only [declsOf, List.filterMap_cons, List.map_cons]
      exact ih.cons₂ k
    | fieldsList l =>
      simp only [declsOf, List.filterMap_cons, List.map_cons]
      exact ih.cons k
    | plain =>
      simp only [declsOf, List.filterMap_cons, List.map_cons]
      exact ih.cons k

theorem structureFields_claimFields (baseFields : List (String × Nat))
    (members : List (String × MemberVal))
    (hdecl : (members.map Prod.fst).Nodup)
    (hname : "name" ∉ members.map Prod.fst)
    (hfields : "fields" ∉ members.map Prod.fst) :
    structureFields baseFields members = some (claimFields baseFields (declsOf members)) := by
  have hnoname : members.any (fun p => p.1 = "name") = false := by
    rw [Bool.eq_false_iff]
    intro hc
    rw [List.any_eq_true] at hc
    obtain ⟨p, hp, hpk⟩ := hc
    simp only [decide_eq_true_eq] at hpk
    exact hname (hpk ▸ List.mem_map_of_mem Prod.fst hp)
  have hm2 : odSet members "name" MemberVal.plain = members ++ [("name", .plain)] := by
    unfold odSet
    rw [if_neg (by simp [hnoname])]
  have hget : odGet (members ++ [("name", MemberVal.plain)]) "fields" = none := by
    unfold odGet
    rw [List.find?_append]
    have h1 : members.find? (fun p => p.1 = "fields") = none := by
      rw [List.find?_eq_none]
      intro x hx
      simp only [decide_eq_true_eq]
      intro hxk
      exact hfields (hxk ▸ List.mem_map_of_mem Prod.fst hx)
    rw [h1]
    simp
  unfold structureFields
  simp only [hm2, hget, List.foldl_append, List.foldl_cons, List.foldl_nil]
  rw [foldl_members_eq_foldl_decls]
  rw [foldl_odSet_claimFields (declsOf members) ((declsOf_keys_sublist members).nodup hdecl)]

/-! ## The claims -/

/-- C1 (amended): for every primitive of the catalog and every value its
`pack` accepts — with the round-trip domain restricted so that a
timezone-aware TIME value carries a non-zero whole-minute UTC offset and a
fixed-size BYTES/STRING derivation has a fill present and a value of exactly
the declared size (with `fill=None` a fixed-size derivation accepts no value
at all: `fill * missing` raises `TypeError` even at `missing = 0`; and the
binary-float primitives FLOAT/DOUBLE are set aside) — unpacking the
concatenation of `pack(v)` from offset 0 returns `(L, v)` with `L` the
encoded length. -/
theorem claim1_roundtrip_amended (P : Prim) (v : Value) (h : rtAccepts P v = true) :
    ∃ bs, primPack P v = some bs ∧ primUnpack P bs 0 = some (bs.length, v) :=
  primPack_unpack P v h

/-- C1 witness: the round-trip at UINT8 and the value 7. -/
theorem claim1_witness :
    rtAccepts .uint8 (.int 7) = true ∧
      ∃ bs, primPack .uint8 (.int 7) = some bs ∧
        primUnpack .uint8 bs 0 = some (bs.length, .int 7) :=
  ⟨by decide, claim1_roundtrip_amended .uint8 (.int 7) (by decide)⟩

/-- C1 counterexample: TIME accepts `00:00:00+00:00` (a zero UTC offset) and
packs it into 3 bytes — the timezone flag is set but the zero offset emits no
suffix — yet unpacking returns offset 5, not the encoded length 3. -/
theorem claim1_counterexample :
    primPack .time (.time ⟨0, 0, 0, 0, some 0⟩) = some [0, 0, 32] ∧
      primUnpack .time [0, 0, 32] 0 = some (5, .time ⟨0, 0, 0, 0, some 0⟩) ∧
      ([0, 0, 32] : List Nat).length ≠ 5 :=
  ⟨rfl, rfl, by decide⟩

/-- C2: every `n` accepted by `pack_size` round-trips through `unpack_size`
at offset 0, consuming exactly the frame, and the frame width is the one of
the tier table's frame whose range contains `n` (the minimum possible, the
tiers being disjoint and increasing). -/
theorem claim2_size_roundtrip (n : Nat) (h : n < 590295810496146710656) :
    ∃ enc, pack_size n = some enc ∧ unpack_size enc 0 = some (enc.length, n) ∧
      ∀ lo hi w, (lo, hi, w) ∈ sizeFrames → lo ≤ n → n < hi → enc.length = w := by
  obtain ⟨enc, hp, hlen, hu⟩ := unpack_size_pack n h []
  rw [List.append_nil] at hu
  refine ⟨enc, hp, hu, ?_⟩
  intro lo hi w hmem hlo hhi
  rw [hlen]
  simp only [sizeFrames, List.mem_cons, List.not_mem_nil, or_false, Prod.mk.injEq] at hmem
  rcases hmem with ⟨rfl, rfl, rfl⟩ | ⟨rfl, rfl, rfl⟩ | ⟨rfl, rfl, rfl⟩ | ⟨rfl, rfl, rfl⟩
      | ⟨rfl, rfl, rfl⟩ <;>
    split_ifs <;> omega

/-- C2 witness: the round-trip at `n = 8320`, the first value of the 3-byte
tier. -/
theorem claim2_witness :
    8320 < 590295810496146710656 ∧
      ∃ enc, pack_size 8320 = some enc ∧ unpack_size enc 0 = some (enc.length, 8320) ∧
        ∀ lo hi w, (lo, hi, w) ∈ sizeFrames → lo ≤ 8320 → 8320 < hi → enc.length = w :=
  ⟨by norm_num, claim2_size_roundtrip 8320 (by norm_num)⟩

/-- C3 counterexample: `pack_size` accepts `2^67 + 137441058944`, so the
claimed rejection bound `2^67 + 137441058944` is not where rejection starts
(the 9-byte frame holds 69 payload bits, not 67). -/
theorem claim3_counterexample : (pack_size (2 ^ 67 + 137441058944)).isSome = true := by
  decide

/-- C3 (amended): `pack_size` raises exactly for
`n ≥ 2^69 + 137441058944 = 590295810496146710656`. -/
theorem claim3_reject_amended (n : Nat) :
    pack_size n = none ↔ 590295810496146710656 ≤ n := by
  unfold pack_size
  split_ifs <;> simp <;> omega

/-- C4: for each width 32/64/128, every representable finite decimal (digit
count and exponent within the width's limits) and each special round-trips
exactly through pack/unpack, advancing the offset by exactly 4/8/16 bytes. -/
theorem claim4_decimal_roundtrip (d : PyDecimal) :
    (dec32OK d → ∃ enc, pack_decimal32 d = some enc ∧ enc.length = 4 ∧
        unpack_decimal32 enc 0 = (4, d)) ∧
    (dec64OK d → ∃ enc, pack_decimal64 d = some enc ∧ enc.length = 8 ∧
        unpack_decimal64 enc 0 = (8, d)) ∧
    (dec128OK d → ∃ enc, pack_decimal128 d = some enc ∧ enc.length = 16 ∧
        unpack_decimal128 enc 0 = (16, d)) :=
  ⟨roundtrip_decimal32 d, roundtrip_decimal64 d, roundtrip_decimal128 d⟩

/-- C4 witness: the round-trip of the quiet NaN at all three widths. -/
theorem claim4_witness :
    (∃ enc, pack_decimal32 .qNaN = some enc ∧ enc.length = 4 ∧
        unpack_decimal32 enc 0 = (4, .qNaN)) ∧
    (∃ enc, pack_decimal64 .qNaN = some enc ∧ enc.length = 8 ∧
        unpack_decimal64 enc 0 = (8, .qNaN)) ∧
    (∃ enc, pack_decimal128 .qNaN = some enc ∧ enc.length = 16 ∧
        unpack_decimal128 enc 0 = (16, .qNaN)) :=
  ⟨(claim4_decimal_roundtrip .qNaN).1 trivial,
   (claim4_decimal_roundtrip .qNaN).2.1 trivial,
   (claim4_decimal_roundtrip .qNaN).2.2 trivial⟩

/-- C5: the `0xC8` constructor is asymmetric.  The encoder emits `0xC8`
followed by the 8-byte big-endian binary64 form (here of 1.0,
bits `0x3FF0000000000000`), but the decoder's constructor-200 branch reads
only 4 payload bytes through `struct_float`, returning the binary32 value of
the first half (1.875, widened to bits `0x3FFE000000000000`) and advancing
the pointer to 5, not 9.  (The full binary64 decoder sits at `0xC9`.) -/
theorem claim5_float_constructor_bug :
    dynEncode (.float 4607182418800017408)
        = some [200, 63, 240, 0, 0, 0, 0, 0, 0] ∧
      dynUnpack 10 [200, 63, 240, 0, 0, 0, 0, 0, 0] 0
        = some (5, .float 4611123068473966592) :=
  ⟨rfl, rfl⟩

/-- C6: the dynamic round-trip fails on IPv6 addresses: `encode(::1)` emits
`0xD3` plus 16 payload bytes, but the decoder's constructor-211 branch
slices only 8 bytes and hands them to `IPv6Address`, which requires 16 — so
`decode(encode(::1))` raises instead of returning the address. -/
theorem claim6_ipv6_roundtrip_bug :
    dynEncode (.ip6 [0, 0, 0, 0, 0, 0, 0, 0, 0, 0, 0, 0, 0, 0, 0, 1])
        = some [211, 0, 0, 0, 0, 0, 0, 0, 0, 0, 0, 0, 0, 0, 0, 0, 1] ∧
      dynDecode [211, 0, 0, 0, 0, 0, 0, 0, 0, 0, 0, 0, 0, 0, 0, 0, 1] = none :=
  ⟨rfl, rfl⟩

/-- C7 counterexample: `DATE.pack(2014-07-04)` does not produce
`0x20 0x3B 0xDC` — the spec's hex rendering of its own formula is wrong. -/
theorem claim7_counterexample : pack_date ⟨2014, 7, 4⟩ ≠ [32, 59, 220] := by
  decide

/-- C7 (amended): `DATE.pack(2014-07-04)` is the 3 big-endian bytes of
`(4<<19)|(7<<15)|(2014<<1)`, which are `0x23 0x8F 0xBC`. -/
theorem claim7_date_example_amended :
    pack_date ⟨2014, 7, 4⟩ = toBytesBE 3 ((4 <<< 19) ||| (7 <<< 15) ||| (2014 <<< 1)) ∧
      pack_date ⟨2014, 7, 4⟩ = [35, 143, 188] :=
  ⟨rfl, by decide⟩

/-- C8 counterexample: comparing a derived primitive with its un-derived
base raises `AssertionError` (in either direction) rather than returning
`False`: `self.base == other.base` compares a `Primitive` with `None`. -/
theorem claim8_counterexample :
    primEq (primCall ⟨0, [], none⟩ 1 [("a", 1)]) ⟨0, [], none⟩ = none ∧
      primEq ⟨0, [], none⟩ (primCall ⟨0, [], none⟩ 1 [("a", 1)]) = none :=
  ⟨rfl, rfl⟩

/-- C8 (amended): two primitives derived from the same catalog primitive
compare by their merged option dicts; comparing a derived primitive with an
un-derived one raises `AssertionError` (modelled `none`) in either
direction; two un-derived primitives compare equal exactly when they are the
identical object. -/
theorem claim8_equality_amended (P : PrimObj) (hP : P.base = none) (i j : Nat)
    (o1 o2 : List (String × Nat)) :
    primEq (primCall P i o1) (primCall P j o2)
        = some (odEq (odUpdate P.options o1) (odUpdate P.options o2)) ∧
      primEq (primCall P i o1) P = none ∧
      primEq P (primCall P i o1) = none ∧
      ∀ Q : PrimObj, Q.base = none → primEq P Q = some (P.oid == Q.oid) := by
  refine ⟨?_, ?_, ?_, ?_⟩
  · simp [primEq, primCall, hP]
  · simp [primEq, primCall, hP]
  · simp [primEq, primCall, hP]
  · intro Q hQ
    simp [primEq, hP, hQ]

/-- C8 witness: the equality behaviour at a concrete catalog primitive and
the option dicts `{a: 1}` and `{a: 2}`. -/
theorem claim8_witness :
    (⟨0, [], none⟩ : PrimObj).base = none ∧
      (primEq (primCall ⟨0, [], none⟩ 1 [("a", 1)]) (primCall ⟨0, [], none⟩ 2 [("a", 2)])
          = some (odEq (odUpdate ([] : List (String × Nat)) [("a", 1)])
              (odUpdate ([] : List (String × Nat)) [("a", 2)])) ∧
        primEq (primCall ⟨0, [], none⟩ 1 [("a", 1)]) ⟨0, [], none⟩ = none ∧
        primEq ⟨0, [], none⟩ (primCall ⟨0, [], none⟩ 1 [("a", 1)]) = none ∧
        ∀ Q : PrimObj, Q.base = none →
          primEq ⟨0, [], none⟩ Q = some ((⟨0, [], none⟩ : PrimObj).oid == Q.oid)) :=
  ⟨rfl, claim8_equality_amended ⟨0, [], none⟩ rfl 1 2 [("a", 1)] [("a", 2)]⟩

/-- C9 counterexample: a declared field named `name` is silently discarded:
`members['name'] = name` overwrites it with the class-name string before the
field scan, so the resulting field list is empty where the claim predicts a
one-field list. -/
theorem claim9_counterexample :
    structureFields [] [("name", .fieldLike 7)] = some [] ∧
      claimFields [] (declsOf [("name", .fieldLike 7)]) = [("name", 7)] :=
  ⟨rfl, rfl⟩

/-- C9 (amended): when no member is named `name` or `fields` (and member
names are unique), the resulting field list is the base's fields first, in
base order, each redeclared name overridden in place, followed by the newly
declared fields in declaration order. -/
theorem claim9_fields_amended (baseFields : List (String × Nat))
    (members : List (String × MemberVal))
    (hdecl : (members.map Prod.fst).Nodup)
    (hname : "name" ∉ members.map Prod.fst)
    (hfields : "fields" ∉ members.map Prod.fst) :
    structureFields baseFields members = some (claimFields baseFields (declsOf members)) :=
  structureFields_claimFields baseFields members hdecl hname hfields

/-- C9 witness: a base `{a, b}` and a class body redeclaring `b` and adding
`c` (plus a non-field member `d`). -/
theorem claim9_witness :
    ((([("b", MemberVal.fieldLike 10), ("c", .fieldLike 11),
        ("d", .plain)]).map Prod.fst).Nodup) ∧
      "name" ∉ ([("b", MemberVal.fieldLike 10), ("c", .fieldLike 11),
        ("d", .plain)]).map Prod.fst ∧
      "fields" ∉ ([("b", MemberVal.fieldLike 10), ("c", .fieldLike 11),
        ("d", .plain)]).map Prod.fst ∧
      structureFields [("a", 1), ("b", 2)]
          [("b", MemberVal.fieldLike 10), ("c", .fieldLike 11), ("d", .plain)]
        = some (claimFields [("a", 1), ("b", 2)]
            (declsOf [("b", MemberVal.fieldLike 10), ("c", .fieldLike 11), ("d", .plain)])) :=
  ⟨by decide, by decide, by decide,
   claim9_fields_amended [("a", 1), ("b", 2)]
     [("b", MemberVal.fieldLike 10), ("c", .fieldLike 11), ("d", .plain)]
     (by decide) (by decide) (by decide)⟩

/-- C10: the dynamic encoder silently yields the empty byte string both for
integers of magnitude at least `2^64` (the int dispatch has no final `else`)
and for values of an unsupported runtime kind (no dispatch branch
matches). -/
theorem claim10_fallthrough_empty :
    (∀ n : Int, 2 ^ 64 ≤ n ∨ n ≤ -(2 ^ 64) → dynEncode (.int n) = some []) ∧
      dynEncode .other = some [] := by
  constructor
  · intro n h
    unfold dynEncode
    simp only [dynPack]
    split_ifs <;> first | rfl | (exfalso; omega)
  · rfl

/-- C10 witness: the empty encoding at `n = 2^64` and at an unsupported
value. -/
theorem claim10_witness :
    ((2 : Int) ^ 64 ≤ 2 ^ 64 ∨ (2 : Int) ^ 64 ≤ -(2 ^ 64)) ∧
      dynEncode (.int (2 ^ 64)) = some [] ∧ dynEncode .other = some [] :=
  ⟨Or.inl le_rfl, claim10_fallthrough_empty.1 (2 ^ 64) (Or.inl le_rfl),
   claim10_fallthrough_empty.2⟩

end Binarize
